import Mathlib

/-!
RMV kernel (`kernel.c`): a shallow embedding.

The development follows `src/kernel.c` and `src/Include/sysconfig.h`.

* The page table `Mem.Mem_CB` is a `List Nat` of `DMEM_PAGES` owner ids.
* A heap pointer is an `Option Nat`: `none` is the null pointer and `some off`
  is the address `&Mem.DMEM_Heap[off]`.
* `kernel.h` and the `MCS51_*` headers are not part of the sources, so the
  constants they define (`PAGE_SIZE`, the status flags, the signal numbers,
  `AUTO_PID`) are parameters of the functions that use them, and the integer
  typedefs (`cnt_t`, `size_t`, `tid_t`, ...) are modelled by `Nat`.
-/

namespace RMV

/-! ## `sysconfig.h` -/

/-- The constant `MAX_THREADS` of sysconfig.h. -/
def MAX_THREADS : Nat := 3

/-- The constant `DMEM_SIZE` of sysconfig.h. -/
def DMEM_SIZE : Nat := 800

/-- The constant `DMEM_PAGES` of sysconfig.h. -/
def DMEM_PAGES : Nat := 40

/-! ## Memory management -/

/-- The page count computed at the top of `__Sys_Malloc`:
`if(Size%PAGE_SIZE==0) Total_Pages=Size/PAGE_SIZE; else Total_Pages=Size/PAGE_SIZE+1;`. -/
def Total_Pages (PAGE_SIZE Size : Nat) : Nat :=
  if Size % PAGE_SIZE = 0 then Size / PAGE_SIZE else Size / PAGE_SIZE + 1

/-- The search loop of `__Sys_Malloc`,
`for(Mem_Page_Cnt=0;Mem_Page_Cnt<DMEM_PAGES;Mem_Page_Cnt++)`. The first argument is the
number of iterations left, `DMEM_PAGES - Mem_Page_Cnt`. The result is `none` when the loop
runs to its end (`Find_Flag` stays 0), and the values of `Mem_Page_Cnt` and
`Page_Amount_Cnt` at the `break` otherwise. -/
def mallocScan (Mem_CB : List Nat) (Total : Nat) : Nat → Nat → Nat → Option (Nat × Nat)
  | 0, _, _ => none
  | left + 1, Mem_Page_Cnt, Page_Amount_Cnt =>
    let cnt := if Mem_CB.getD Mem_Page_Cnt 0 = 0 then Page_Amount_Cnt + 1 else 0
    if cnt = Total then some (Mem_Page_Cnt, cnt)
    else mallocScan Mem_CB Total left (Mem_Page_Cnt + 1) cnt

/-- The marking loop of `__Sys_Malloc`,
`for(Page_Amount_Cnt--;Page_Amount_Cnt>0;Page_Amount_Cnt--){Mem_Page_Cnt--;Mem.Mem_CB[Mem_Page_Cnt]=TID;}`.
The first argument is `Page_Amount_Cnt` after the initial decrement. The result is the final
`Mem_Page_Cnt` and the page table. -/
def mallocMark (TID : Nat) : Nat → Nat → List Nat → Nat × List Nat
  | 0, Mem_Page_Cnt, Mem_CB => (Mem_Page_Cnt, Mem_CB)
  | cnt + 1, Mem_Page_Cnt, Mem_CB =>
    mallocMark TID cnt (Mem_Page_Cnt - 1) (Mem_CB.set (Mem_Page_Cnt - 1) TID)

/-- The function `__Sys_Malloc(TID, Size)`. The result is the returned pointer (`none` for
the null pointer, `some off` for `&Mem.DMEM_Heap[off]`) and the page table after the call. -/
def __Sys_Malloc (PAGE_SIZE TID Size : Nat) (Mem_CB : List Nat) : Option Nat × List Nat :=
  if Size = 0 then (none, Mem_CB)
  else if TID ≥ MAX_THREADS then (none, Mem_CB)
  else
    match mallocScan Mem_CB (Total_Pages PAGE_SIZE Size) DMEM_PAGES 0 0 with
    | none => (none, Mem_CB)
    | some (Mem_Page_Cnt, Page_Amount_Cnt) =>
      if Page_Amount_Cnt = 1 then
        (some (Mem_Page_Cnt * PAGE_SIZE), Mem_CB.set Mem_Page_Cnt TID)
      else
        let r := mallocMark TID (Page_Amount_Cnt - 1) Mem_Page_Cnt Mem_CB
        (some (r.1 * PAGE_SIZE), r.2)

/-- The loop of `__Sys_Mfree`,
`while(Mem.Mem_CB[Page_Cnt]==TID){Mem.Mem_CB[Page_Cnt]=0;Page_Cnt++;}`. The first argument
is `DMEM_PAGES - Page_Cnt`, the number of entries of `Mem_CB` from `Page_Cnt` on. When it is
0 the loop condition reads `Mem_CB[DMEM_PAGES]`, one past the table: the result is `none`. -/
def mfreeWalk (TID : Nat) : Nat → Nat → List Nat → Option (List Nat)
  | 0, _, _ => none
  | left + 1, Page_Cnt, Mem_CB =>
    if Mem_CB.getD Page_Cnt 0 = TID then
      mfreeWalk TID left (Page_Cnt + 1) (Mem_CB.set Page_Cnt 0)
    else some Mem_CB

/-- The function `__Sys_Mfree(TID, Mem_Ptr)`. The result is the page table after the call,
or `none` when the function reads `Mem_CB` outside its `DMEM_PAGES` entries. -/
def __Sys_Mfree (PAGE_SIZE TID : Nat) (Mem_Ptr : Option Nat) (Mem_CB : List Nat) :
    Option (List Nat) :=
  match Mem_Ptr with
  | none => some Mem_CB
  | some off =>
    if off % PAGE_SIZE ≠ 0 then some Mem_CB
    else if TID ≥ MAX_THREADS then some Mem_CB
    else
      let Page_Cnt := off / PAGE_SIZE
      if DMEM_PAGES ≤ Page_Cnt then none
      else if Mem_CB.getD Page_Cnt 0 ≠ TID then some Mem_CB
      else if 0 < Page_Cnt ∧ Mem_CB.getD (Page_Cnt - 1) 0 ≠ 0 then some Mem_CB
      else mfreeWalk TID (DMEM_PAGES - Page_Cnt) Page_Cnt Mem_CB

/-- The loop of `__Sys_Mfree_All`,
`for(Mem_Page_Cnt=0;Mem_Page_Cnt<DMEM_PAGES;Mem_Page_Cnt++) if(Mem.Mem_CB[Mem_Page_Cnt]==TID) Mem.Mem_CB[Mem_Page_Cnt]=0;`.
The first argument is `DMEM_PAGES - Mem_Page_Cnt`. -/
def mfreeAllLoop (TID : Nat) : Nat → Nat → List Nat → List Nat
  | 0, _, Mem_CB => Mem_CB
  | left + 1, Mem_Page_Cnt, Mem_CB =>
    mfreeAllLoop TID left (Mem_Page_Cnt + 1)
      (if Mem_CB.getD Mem_Page_Cnt 0 = TID then Mem_CB.set Mem_Page_Cnt 0 else Mem_CB)

/-- The function `__Sys_Mfree_All(TID)`. -/
def __Sys_Mfree_All (TID : Nat) (Mem_CB : List Nat) : List Nat :=
  if TID ≥ MAX_THREADS then Mem_CB else mfreeAllLoop TID DMEM_PAGES 0 Mem_CB

/-- The page table after `_Sys_Memory_Init`: every entry is 0. -/
def emptyTable : List Nat := List.replicate DMEM_PAGES 0

/-- The entries `s, ..., s+N-1` of the page table exist and are all zero. -/
def zeroRun (Mem_CB : List Nat) (s N : Nat) : Prop :=
  s + N ≤ Mem_CB.length ∧ ∀ j, s ≤ j → j < s + N → Mem_CB.getD j 0 = 0

instance (Mem_CB : List Nat) (s N : Nat) : Decidable (zeroRun Mem_CB s N) := by
  unfold zeroRun; infer_instance

/-- The index `s` is the lowest one at which a run of `N` zero entries starts. -/
def firstRun (Mem_CB : List Nat) (s N : Nat) : Prop :=
  zeroRun Mem_CB s N ∧ ∀ s', s' < s → ¬ zeroRun Mem_CB s' N

instance (Mem_CB : List Nat) (s N : Nat) : Decidable (firstRun Mem_CB s N) := by
  unfold firstRun; infer_instance

/-! ## Specification vocabulary for the page table -/

/-- The page count of the specification, `N = ceil(size / PAGE_SIZE)`. -/
def ceilPages (PAGE_SIZE Size : Nat) : Nat := (Size + PAGE_SIZE - 1) / PAGE_SIZE

/-- The entries `s, ..., s+N-1` are zero (the bound on the table length left aside). -/
def allZero (Mem_CB : List Nat) (s N : Nat) : Prop :=
  ∀ j, s ≤ j → j < s + N → Mem_CB.getD j 0 = 0

/-- Invariant of the search loop: `cnt` is the length of the zero run that ends just
before index `i`. -/
def ScanInv (Mem_CB : List Nat) (i cnt : Nat) : Prop :=
  cnt ≤ i ∧ (∀ j, i - cnt ≤ j → j < i → Mem_CB.getD j 0 = 0) ∧
    (cnt < i → Mem_CB.getD (i - cnt - 1) 0 ≠ 0)


/-- The tables reached from the empty table by calls of `__Sys_Malloc`, `__Sys_Mfree` and
`__Sys_Mfree_All` with tids in `[1, MAX_THREADS)`. -/
inductive HeapReach (PAGE_SIZE : Nat) : List Nat → Prop where
  | init : HeapReach PAGE_SIZE emptyTable
  | malloc (m : List Nat) (tid size : Nat) : HeapReach PAGE_SIZE m → 1 ≤ tid →
      tid < MAX_THREADS → HeapReach PAGE_SIZE (__Sys_Malloc PAGE_SIZE tid size m).2
  | mfree (m m' : List Nat) (tid : Nat) (ptr : Option Nat) : HeapReach PAGE_SIZE m → 1 ≤ tid →
      tid < MAX_THREADS → __Sys_Mfree PAGE_SIZE tid ptr m = some m' → HeapReach PAGE_SIZE m'
  | mfree_all (m : List Nat) (tid : Nat) : HeapReach PAGE_SIZE m → 1 ≤ tid →
      tid < MAX_THREADS → HeapReach PAGE_SIZE (__Sys_Mfree_All tid m)

/-- The entries `a..b` are a maximal run of entries equal to the owner `t`, `t` not 0. -/
def ownedRun (Mem_CB : List Nat) (a b t : Nat) : Prop :=
  t ≠ 0 ∧ a ≤ b ∧ b < Mem_CB.length ∧ (∀ j, a ≤ j → j ≤ b → Mem_CB.getD j 0 = t) ∧
  (a = 0 ∨ Mem_CB.getD (a - 1) 0 ≠ t) ∧ (b + 1 = Mem_CB.length ∨ Mem_CB.getD (b + 1) 0 ≠ t)

/-- The sentinel rule of the specification: every owned run is followed by a zero page or
the end of the table, and preceded by a zero page or the start of the table. -/
def sentinelRule (Mem_CB : List Nat) : Prop :=
  ∀ a b t, ownedRun Mem_CB a b t →
    (b + 1 = DMEM_PAGES ∨ Mem_CB.getD (b + 1) 0 = 0) ∧ (a = 0 ∨ Mem_CB.getD (a - 1) 0 = 0)

/-! ## Kernel data

`kernel.h` is not part of the sources. Its constants are collected in `KConst`; the members
of its structures are read off the uses in `kernel.c`.

The kernel objects are modelled member by member: a member of `struct List_Head` is a map
from node addresses to values, a member of `struct Thread_Control_Block` is a map from the
index of the TCB in the array `TCB` to values. So `TCB[i].Status` is `s.Status i`, and
`p->Next` is `s.Next p` for the node address `p`, be it a list head or `&TCB[i].Head`. -/

/-- The constants of `kernel.h` that `kernel.c` uses. -/
structure KConst where
  OCCUPY : Nat
  READY : Nat
  SLEEP : Nat
  NOSIG : Nat
  SIGKILL : Nat
  SIGSLEEP : Nat
  SIGWAKE : Nat
  SIGUSR1 : Nat
  SIGUSR2 : Nat
  SIGUSR3 : Nat
  SIGUSR4 : Nat
  AUTO_PID : Nat
  PAGE_SIZE : Nat

/-- One admissible choice of the `kernel.h` constants, used only where a concrete run of the
code is evaluated. Neither the sources nor the specification give the values of the status
flags and of the signal numbers: what is known is that the status flags are the bits of a
bitmask, that `NOSIG` is 0 and that the signals are the labels of one `switch`. Here the
flags and the signals are distinct bits and `PAGE_SIZE = DMEM_SIZE / DMEM_PAGES`. The general
statements are proved for every `KConst`. -/
def refConst : KConst where
  OCCUPY := 1
  READY := 2
  SLEEP := 4
  NOSIG := 0
  SIGKILL := 1
  SIGSLEEP := 2
  SIGWAKE := 4
  SIGUSR1 := 8
  SIGUSR2 := 16
  SIGUSR3 := 32
  SIGUSR4 := 64
  AUTO_PID := 255
  PAGE_SIZE := DMEM_SIZE / DMEM_PAGES

/-- The address of a list node: the null pointer, `&Thread_Ready_List_Head`,
`&Thread_Empty_List_Head`, or `&TCB[i].Head` (`Head` is the first member of the TCB: the
code casts a node address to a TCB address). -/
inductive Ptr where
  | null : Ptr
  | readyHead : Ptr
  | emptyHead : Ptr
  | tcb (i : Nat) : Ptr
  deriving DecidableEq

/-- The structure `struct Thread_Init_Struct`. Names and entrances are addresses. -/
structure Thread_Init_Struct where
  TID : Nat
  Thread_Name : Nat
  Init_SP : Nat
  Entrance : Nat

/-- The global state of the kernel. `Next` and `Prev` are the two members of
`struct List_Head` at each node address (at `Ptr.null` they stand for the memory that a load
or store through the null pointer reaches). `TID`, `Status`, `Thread_Name`, `Entrance`,
`Signal` and `Signal_Handler` are the members of `TCB[i]`. `interrupts_enabled` is the
interrupt mode set by `MCS51_Set_Interrupt_Mode`, `idata` is the internal RAM that holds the
stacks, `Signal_Handler_Exe` is the variable `_Sys_Signal_Handler_Exe`, and `called` lists
the signal handlers invoked so far (a handler is a call that is recorded, it does not act on
the kernel state). -/
structure Kernel where
  Interrupt_Lock_Cnt : Nat
  interrupts_enabled : Bool
  Next : Ptr → Ptr
  Prev : Ptr → Ptr
  TID : Nat → Nat
  Status : Nat → Nat
  Thread_Name : Nat → Nat
  Entrance : Nat → Nat
  Signal : Nat → Nat
  Signal_Handler : Nat → Fin 4 → Nat
  TCB_SP_Now : Nat → Nat
  Thread_In_Sys : Nat
  Current_TID : Nat
  SP : Nat
  idata : Nat → Nat
  Signal_Handler_Exe : Nat
  Mem_CB : List Nat
  called : List Nat

/-- The value of the C comparison `a==b`. -/
def cEq (a b : Nat) : Nat := if a = b then 1 else 0

/-- The value of the C comparison `a!=b`. -/
def cNe (a b : Nat) : Nat := if a = b then 0 else 1

/-- The value of `a & ~m` for unsigned `a`: the bits of `m` are cleared in `a`. -/
def clearBits (a m : Nat) : Nat := a ^^^ (a &&& m)

/-- The store `p->Next=v`. -/
def setNext (s : Kernel) (p v : Ptr) : Kernel :=
  { s with Next := Function.update s.Next p v }

/-- The store `p->Prev=v`. -/
def setPrev (s : Kernel) (p v : Ptr) : Kernel :=
  { s with Prev := Function.update s.Prev p v }

/-- The read `((struct Thread_Control_Block xdata*)(p))->TID`. It is `none` when `p` is not
the address of a TCB node: the read then falls outside every TCB. -/
def castTID (s : Kernel) : Ptr → Option Nat
  | Ptr.tcb i => some (s.TID i)
  | _ => none

/-- The store `TCB[TID].Status=v`. -/
def setStatus (s : Kernel) (TID v : Nat) : Kernel :=
  { s with Status := Function.update s.Status TID v }

/-- The store `TCB[TID].Signal=v`. -/
def setSignal (s : Kernel) (TID v : Nat) : Kernel :=
  { s with Signal := Function.update s.Signal TID v }

/-- The call `Sys_Memset((ptr_int_t)(&TCB[TID]),0,sizeof(struct Thread_Control_Block))`:
every member of `TCB[TID]` becomes 0, its two links become null. -/
def zeroTCB (s : Kernel) (TID : Nat) : Kernel :=
  { s with
    Next := Function.update s.Next (Ptr.tcb TID) Ptr.null
    Prev := Function.update s.Prev (Ptr.tcb TID) Ptr.null
    TID := Function.update s.TID TID 0
    Status := Function.update s.Status TID 0
    Thread_Name := Function.update s.Thread_Name TID 0
    Entrance := Function.update s.Entrance TID 0
    Signal := Function.update s.Signal TID 0
    Signal_Handler := Function.update s.Signal_Handler TID (fun _ => 0) }

/-- The call `Sys_Memset((ptr_int_t)TCB,0,MAX_THREADS*sizeof(struct Thread_Control_Block))`.
The first argument counts the TCBs still to clear. -/
def zeroAllTCB : Nat → Kernel → Kernel
  | 0, s => s
  | n + 1, s => zeroAllTCB n (zeroTCB s n)

/-! ## Interrupt lock -/

/-- The function `DISABLE_ALL_INTS`. -/
def DISABLE_ALL_INTS (s : Kernel) : Kernel := { s with interrupts_enabled := false }

/-- The function `ENABLE_ALL_INTS`. -/
def ENABLE_ALL_INTS (s : Kernel) : Kernel := { s with interrupts_enabled := true }

/-- The function `_Sys_Int_Init`. -/
def _Sys_Int_Init (s : Kernel) : Kernel := { s with Interrupt_Lock_Cnt := 0 }

/-- The function `Sys_Lock_Interrupt`. -/
def Sys_Lock_Interrupt (s : Kernel) : Kernel :=
  if s.Interrupt_Lock_Cnt = 0 then
    { DISABLE_ALL_INTS s with Interrupt_Lock_Cnt := 1 }
  else { s with Interrupt_Lock_Cnt := s.Interrupt_Lock_Cnt + 1 }

/-- The function `Sys_Unlock_Interrupt`. -/
def Sys_Unlock_Interrupt (s : Kernel) : Kernel :=
  if s.Interrupt_Lock_Cnt = 1 then
    ENABLE_ALL_INTS { s with Interrupt_Lock_Cnt := 0 }
  else if s.Interrupt_Lock_Cnt ≠ 0 then
    { s with Interrupt_Lock_Cnt := s.Interrupt_Lock_Cnt - 1 }
  else s

/-! ## Stack pointer and current thread -/

/-- The statement `SYS_SAVE_SP()`: `TCB_SP_Now[Current_TID]=SP`. -/
def SYS_SAVE_SP (s : Kernel) : Kernel :=
  { s with TCB_SP_Now := Function.update s.TCB_SP_Now s.Current_TID s.SP }

/-- The statement `SYS_LOAD_SP()`: `SP=TCB_SP_Now[Current_TID]`. -/
def SYS_LOAD_SP (s : Kernel) : Kernel :=
  { s with SP := s.TCB_SP_Now s.Current_TID }

/-- The store `Current_TID=t`. -/
def setCurrent (s : Kernel) (t : Nat) : Kernel := { s with Current_TID := t }

/-! ## Lists -/

/-- The function `Sys_Create_List`: `Head->Prev=Head; Head->Next=Head;`. -/
def Sys_Create_List (s : Kernel) (Head : Ptr) : Kernel :=
  setNext (setPrev s Head Head) Head Head

/-- The function `Sys_List_Delete_Node`: `Next->Prev=Prev; Prev->Next=Next;`. -/
def Sys_List_Delete_Node (s : Kernel) (Prev Next : Ptr) : Kernel :=
  setNext (setPrev s Next Prev) Prev Next

/-- The function `Sys_List_Insert_Node`:
`Next->Prev=New; New->Next=Next; New->Prev=Prev; Prev->Next=New;`. -/
def Sys_List_Insert_Node (s : Kernel) (New Prev Next : Ptr) : Kernel :=
  setNext (setPrev (setNext (setPrev s Next New) New Next) New Prev) Prev New

/-! ## Scheduler -/

/-- The loop of `_Sys_Scheduler_Init` that appends every TCB node to the empty list and
writes its `TID`. The first argument is `MAX_THREADS - Thread_Cnt`. -/
def schedInitLoop : Nat → Nat → Kernel → Kernel
  | 0, _, s => s
  | left + 1, Thread_Cnt, s =>
    let s1 := Sys_List_Insert_Node s (Ptr.tcb Thread_Cnt) (s.Prev Ptr.emptyHead) Ptr.emptyHead
    let s2 := { s1 with TID := Function.update s1.TID Thread_Cnt Thread_Cnt }
    schedInitLoop left (Thread_Cnt + 1) s2

/-- The function `_Sys_Scheduler_Init`. -/
def _Sys_Scheduler_Init (s : Kernel) : Kernel :=
  let s1 := Sys_Create_List s Ptr.readyHead
  let s2 := Sys_Create_List s1 Ptr.emptyHead
  let s3 := zeroAllTCB MAX_THREADS s2
  let s4 := schedInitLoop MAX_THREADS 0 s3
  { s4 with Thread_In_Sys := 0 }

/-- The function `_Sys_Thread_Stack_Init`: the two bytes of the entrance are stored at the
top of the thread's stack. -/
def _Sys_Thread_Stack_Init (s : Kernel) (TID : Nat) : Kernel :=
  let s1 := { s with
    idata := Function.update s.idata (s.TCB_SP_Now TID) (s.Entrance TID % 65536 / 256) }
  { s1 with
    idata := Function.update s1.idata (s1.TCB_SP_Now TID - 1) (s1.Entrance TID % 65536 % 256) }

/-- The four stores `TCB[TID].Status=OCCUPY; TCB[TID].Thread_Name=...; TCB[TID].Entrance=...;
TCB_SP_Now[TID]=Thread->Init_SP+1;` shared by `_Sys_Thread_Load` and `Sys_Start_Thread`. -/
def fillTCB (k : KConst) (s : Kernel) (TID : Nat) (Thread : Thread_Init_Struct) : Kernel :=
  { s with
    Status := Function.update s.Status TID k.OCCUPY
    Thread_Name := Function.update s.Thread_Name TID Thread.Thread_Name
    Entrance := Function.update s.Entrance TID Thread.Entrance
    TCB_SP_Now := Function.update s.TCB_SP_Now TID (Thread.Init_SP + 1) }

/-- The statements that `_Sys_Thread_Load` and `Sys_Start_Thread` share once `TID` is
known: the stores of `fillTCB`, then
`Sys_List_Delete_Node(TCB[TID].Head.Prev,TCB[TID].Head.Next);` and
`_Sys_Thread_Stack_Init(TID);`. -/
def loadSlot (k : KConst) (s : Kernel) (TID : Nat) (Thread : Thread_Init_Struct) : Kernel :=
  let s1 := fillTCB k s TID Thread
  let s2 := Sys_List_Delete_Node s1 (s1.Prev (Ptr.tcb TID)) (s1.Next (Ptr.tcb TID))
  _Sys_Thread_Stack_Init s2 TID

/-- The function `_Sys_Thread_Load`. -/
def _Sys_Thread_Load (k : KConst) (s : Kernel) (Thread : Thread_Init_Struct) : Kernel :=
  loadSlot k s Thread.TID Thread

/-- The function `Sys_Start_Thread`. The result is `none` when the node after the empty
list head is not a TCB node (the `TID` read is then outside every TCB). -/
def Sys_Start_Thread (k : KConst) (s : Kernel) (Thread : Thread_Init_Struct) :
    Option (Int × Kernel) :=
  if Thread.TID ≠ k.AUTO_PID then some (-1, s)
  else if Ptr.emptyHead = s.Next Ptr.emptyHead then some (-1, s)
  else
    match castTID s (s.Next Ptr.emptyHead) with
    | none => none
    | some TID => some ((TID : Int), loadSlot k s TID Thread)

/-- The two statements `TCB[TID].Status|=READY;` and
`Sys_List_Insert_Node(&TCB[TID].Head,&Thread_Ready_List_Head,Thread_Ready_List_Head.Next);`
that end both `Sys_Set_Ready` and `_Sys_Thread_Wake`. -/
def makeReady (k : KConst) (s : Kernel) (TID : Nat) : Kernel :=
  let s1 := setStatus s TID (s.Status TID ||| k.READY)
  Sys_List_Insert_Node s1 (Ptr.tcb TID) Ptr.readyHead (s1.Next Ptr.readyHead)

/-- The function `Sys_Set_Ready`. The three tests are written as the compiler reads them:
`==` binds tighter than `&`, so `Status&OCCUPY==0` is `Status&(OCCUPY==0)`. The three early
returns leave the interrupt lock taken. -/
def Sys_Set_Ready (k : KConst) (s : Kernel) (TID : Nat) : Int × Kernel :=
  let s1 := Sys_Lock_Interrupt s
  if s1.Status TID &&& cEq k.OCCUPY 0 ≠ 0 then (-1, s1)
  else if s1.Status TID &&& cEq k.READY 1 ≠ 0 then (-1, s1)
  else if s1.Status TID &&& cEq k.SLEEP 1 ≠ 0 then (-1, s1)
  else (0, Sys_Unlock_Interrupt (makeReady k s1 TID))

/-- The first three statements of `_Sys_Load_Init` (the call of `_Sys_Init`, which does not
return, is left out): the init thread is loaded in slot 0, set ready and made current. The
member `Entrance` of the init struct is not written by the code; it is a parameter here. -/
def _Sys_Load_Init (k : KConst) (s : Kernel) (Name Kernel_Stack Entrance : Nat) : Kernel :=
  let s1 := _Sys_Thread_Load k s ⟨0, Name, Kernel_Stack, Entrance⟩
  let s2 := (Sys_Set_Ready k s1 0).2
  SYS_LOAD_SP (setCurrent s2 0)

/-! ## Signals -/

/-- The call `_Sys_Signal_Handler_Exe=f; _Sys_Signal_Handler_Exe();`. -/
def callHandler (s : Kernel) (f : Nat) : Kernel :=
  { s with Signal_Handler_Exe := f, called := s.called ++ [f] }

/-- One of the four tests of `_Sys_Signal_Handler`:
`if(((TCB[TID].Signal&sig)!=0)&&(TCB[TID].Signal_Handler[n]!=0))` and the call. -/
def dispatchOne (s : Kernel) (TID sig : Nat) (n : Fin 4) : Kernel :=
  if s.Signal TID &&& sig ≠ 0 ∧ s.Signal_Handler TID n ≠ 0 then
    callHandler s (s.Signal_Handler TID n)
  else s

/-- The function `_Sys_Signal_Handler`. -/
def _Sys_Signal_Handler (k : KConst) (s : Kernel) (TID : Nat) : Kernel :=
  if s.Signal TID = 0 then s
  else
    let s1 := dispatchOne s TID k.SIGUSR1 0
    let s2 := dispatchOne s1 TID k.SIGUSR2 1
    let s3 := dispatchOne s2 TID k.SIGUSR3 2
    let s4 := dispatchOne s3 TID k.SIGUSR4 3
    setSignal s4 TID k.NOSIG

/-- The node that `Sys_Switch_Now` picks as successor:
`if((TCB[Current_TID].Status&READY)==0)` the node after the ready list head, else
`if(TCB[Current_TID].Head.Next==&Thread_Ready_List_Head)` the node after the ready list head,
else `TCB[Current_TID].Head.Next`. -/
def successor (k : KConst) (s : Kernel) : Ptr :=
  if s.Status s.Current_TID &&& k.READY = 0 then s.Next Ptr.readyHead
  else if s.Next (Ptr.tcb s.Current_TID) = Ptr.readyHead then s.Next Ptr.readyHead
  else s.Next (Ptr.tcb s.Current_TID)

/-- The function `Sys_Switch_Now`. The result is `none` when the successor pointer is not a
TCB node (the `TID` read is then outside every TCB). -/
def Sys_Switch_Now (k : KConst) (s : Kernel) : Option Kernel :=
  let s2 := SYS_SAVE_SP (Sys_Lock_Interrupt s)
  match castTID s2 (successor k s2) with
  | none => none
  | some t =>
    let s3 := setCurrent s2 t
    let s4 := _Sys_Signal_Handler k s3 s3.Current_TID
    some (Sys_Unlock_Interrupt (SYS_LOAD_SP s4))

/-- The function `_Sys_Thread_Kill`. -/
def _Sys_Thread_Kill (s : Kernel) (TID : Nat) : Kernel :=
  let s1 := Sys_List_Delete_Node s (s.Prev (Ptr.tcb TID)) (s.Next (Ptr.tcb TID))
  let s2 := zeroTCB s1 TID
  let s3 := Sys_List_Insert_Node s2 (Ptr.tcb TID) Ptr.emptyHead (s2.Next Ptr.emptyHead)
  { s3 with TID := Function.update s3.TID TID TID }

/-- The function `_Sys_Thread_Sleep`. Its test `Status&SLEEP!=0` is `Status&(SLEEP!=0)`. -/
def _Sys_Thread_Sleep (k : KConst) (s : Kernel) (TID : Nat) : Kernel :=
  if s.Status TID &&& cNe k.SLEEP 0 ≠ 0 then s
  else
    let s1 := setStatus s TID (s.Status TID ||| k.SLEEP)
    let s2 := setStatus s1 TID (clearBits (s1.Status TID) k.READY)
    Sys_List_Delete_Node s2 (s2.Prev (Ptr.tcb TID)) (s2.Next (Ptr.tcb TID))

/-- The function `_Sys_Thread_Wake`. Its test `Status&SLEEP==0` is `Status&(SLEEP==0)`. -/
def _Sys_Thread_Wake (k : KConst) (s : Kernel) (TID : Nat) : Kernel :=
  if s.Status TID &&& cEq k.SLEEP 0 ≠ 0 then s
  else makeReady k (setStatus s TID (clearBits (s.Status TID) k.SLEEP)) TID

/-- The function `Sys_Send_Signal`. The `switch` is the chain of its cases in source order
(the case labels of a C `switch` are distinct). -/
def Sys_Send_Signal (k : KConst) (s : Kernel) (TID Signal : Nat) : Int × Kernel :=
  if TID = 0 ∨ TID ≥ MAX_THREADS then (-1, s)
  else if s.Status TID &&& cEq k.OCCUPY 0 ≠ 0 then (-1, s)
  else if Signal = k.SIGKILL then (0, _Sys_Thread_Kill s TID)
  else if Signal = k.SIGSLEEP then (0, _Sys_Thread_Sleep k s TID)
  else if Signal = k.SIGWAKE then (0, _Sys_Thread_Wake k s TID)
  else if Signal = k.SIGUSR1 then (0, setSignal s TID (s.Signal TID ||| k.SIGUSR1))
  else if Signal = k.SIGUSR2 then (0, setSignal s TID (s.Signal TID ||| k.SIGUSR2))
  else if Signal = k.SIGUSR3 then (0, setSignal s TID (s.Signal TID ||| k.SIGUSR3))
  else if Signal = k.SIGUSR4 then (0, setSignal s TID (s.Signal TID ||| k.SIGUSR4))
  else (-1, s)

/-- The store `TCB[TID].Signal_Handler[n]=f`. -/
def setHandler (s : Kernel) (TID : Nat) (n : Fin 4) (f : Nat) : Kernel :=
  { s with
    Signal_Handler := Function.update s.Signal_Handler TID
      (Function.update (s.Signal_Handler TID) n f) }

/-- The function `Sys_Reg_Signal_Handler`. -/
def Sys_Reg_Signal_Handler (k : KConst) (s : Kernel) (TID Signal Handler : Nat) :
    Int × Kernel :=
  if TID = 0 ∨ TID ≥ MAX_THREADS then (-1, s)
  else if s.Status TID &&& cEq k.OCCUPY 0 ≠ 0 then (-1, s)
  else if Signal = k.SIGUSR1 then (0, setHandler s TID 0 Handler)
  else if Signal = k.SIGUSR2 then (0, setHandler s TID 1 Handler)
  else if Signal = k.SIGUSR3 then (0, setHandler s TID 2 Handler)
  else if Signal = k.SIGUSR4 then (0, setHandler s TID 3 Handler)
  else (-1, s)

/-- The function `Sys_Malloc`: `__Sys_Malloc` in the name of `Current_TID`. -/
def Sys_Malloc (k : KConst) (s : Kernel) (Size : Nat) : Option Nat × Kernel :=
  let r := __Sys_Malloc k.PAGE_SIZE s.Current_TID Size s.Mem_CB
  (r.1, { s with Mem_CB := r.2 })

/-- The function `Sys_Mfree`: `__Sys_Mfree` in the name of `Current_TID`. -/
def Sys_Mfree (k : KConst) (s : Kernel) (Mem_Ptr : Option Nat) : Option Kernel :=
  (__Sys_Mfree k.PAGE_SIZE s.Current_TID Mem_Ptr s.Mem_CB).map
    (fun m => { s with Mem_CB := m })

/-- The function `Sys_Mfree_All`: `__Sys_Mfree_All` in the name of `Current_TID`. -/
def Sys_Mfree_All (s : Kernel) : Kernel :=
  { s with Mem_CB := __Sys_Mfree_All s.Current_TID s.Mem_CB }

/-- The function `_Sys_Memory_Init`. -/
def _Sys_Memory_Init (s : Kernel) : Kernel := { s with Mem_CB := List.replicate DMEM_PAGES 0 }

/-- The state at the point where `main` has run `_Sys_Int_Init`, `_Sys_Memory_Init`,
`_Sys_Scheduler_Init` and `_Sys_Load_Init` up to the call of `_Sys_Init`: the init thread 0
is loaded, ready and current, and no other thread exists. `raw` is the memory before. -/
def bootState (k : KConst) (raw : Kernel) (Name Kernel_Stack Entrance : Nat) : Kernel :=
  _Sys_Load_Init k (_Sys_Scheduler_Init (_Sys_Memory_Init (_Sys_Int_Init raw)))
    Name Kernel_Stack Entrance

/-- A memory content before boot, used where a concrete run is evaluated. -/
def rawState : Kernel where
  Interrupt_Lock_Cnt := 0
  interrupts_enabled := false
  Next := fun _ => Ptr.null
  Prev := fun _ => Ptr.null
  TID := fun _ => 0
  Status := fun _ => 0
  Thread_Name := fun _ => 0
  Entrance := fun _ => 0
  Signal := fun _ => 0
  Signal_Handler := fun _ _ => 0
  TCB_SP_Now := fun _ => 0
  Thread_In_Sys := 0
  Current_TID := 0
  SP := 0
  idata := fun _ => 0
  Signal_Handler_Exe := 0
  Mem_CB := List.replicate DMEM_PAGES 0
  called := []

/-! ## Specification vocabulary for the scheduler -/

/-- The status flags of `kernel.h` are nonzero and pairwise disjoint bit masks. -/
def flagsDisjoint (k : KConst) : Prop :=
  k.OCCUPY ≠ 0 ∧ k.READY ≠ 0 ∧ k.SLEEP ≠ 0 ∧
  k.OCCUPY &&& k.READY = 0 ∧ k.OCCUPY &&& k.SLEEP = 0 ∧ k.READY &&& k.SLEEP = 0

instance (k : KConst) : Decidable (flagsDisjoint k) := by
  unfold flagsDisjoint; infer_instance

/-- Following `Next` from the node `p` one meets the TCB nodes `l` in this order and then the
node `h`, and `Prev` leads back along the same path. -/
def ringFrom (s : Kernel) (h : Ptr) : Ptr → List Nat → Prop
  | p, [] => s.Next p = h ∧ s.Prev h = p
  | p, i :: l => s.Next p = Ptr.tcb i ∧ s.Prev (Ptr.tcb i) = p ∧ ringFrom s h (Ptr.tcb i) l

instance ringFromDecidable (s : Kernel) (h : Ptr) :
    (p : Ptr) → (l : List Nat) → Decidable (ringFrom s h p l)
  | p, [] => by unfold ringFrom; infer_instance
  | p, i :: l => by
    have := ringFromDecidable s h (Ptr.tcb i) l
    unfold ringFrom; infer_instance

/-- The list with head `h` is a well-formed ring whose TCB nodes are, in order, `l`: a
circular doubly linked list in which `Next` and `Prev` are mutually inverse and no node
occurs twice. -/
def IsRing (s : Kernel) (h : Ptr) (l : List Nat) : Prop :=
  ringFrom s h h l ∧ l.Nodup

instance (s : Kernel) (h : Ptr) (l : List Nat) : Decidable (IsRing s h l) := by
  unfold IsRing; infer_instance

/-- The links, the status and the tid of every node are the same in `s` and in `t`. -/
def SameSched (s t : Kernel) : Prop :=
  t.Next = s.Next ∧ t.Prev = s.Prev ∧ t.Status = s.Status ∧ t.TID = s.TID

/-- The scheduler picture of scenario 1: the ready ring is head, 2, 1, 0, head along `Next`,
the three TCBs carry their own tid and have `READY` set. -/
def Carousel (k : KConst) (s : Kernel) : Prop :=
  s.Next Ptr.readyHead = Ptr.tcb 2 ∧ s.Next (Ptr.tcb 2) = Ptr.tcb 1 ∧
  s.Next (Ptr.tcb 1) = Ptr.tcb 0 ∧ s.Next (Ptr.tcb 0) = Ptr.readyHead ∧
  s.TID 0 = 0 ∧ s.TID 1 = 1 ∧ s.TID 2 = 2 ∧
  s.Status 0 &&& k.READY ≠ 0 ∧ s.Status 1 &&& k.READY ≠ 0 ∧ s.Status 2 &&& k.READY ≠ 0

/-- Scenario 1 of the specification: from the state after boot, `Sys_Start_Thread` is called
for the two init structs `A` and `B`, then `Sys_Set_Ready(1)` and `Sys_Set_Ready(2)`. The
result holds the two returned tids and the state. -/
def carouselSetup (k : KConst) (boot : Kernel) (A B : Thread_Init_Struct) :
    Option (Int × Int × Kernel) :=
  match Sys_Start_Thread k boot A with
  | none => none
  | some (t1, s1) =>
    match Sys_Start_Thread k s1 B with
    | none => none
    | some (t2, s2) => some (t1, t2, (Sys_Set_Ready k (Sys_Set_Ready k s2 1).2 2).2)

/-- The values of `Current_TID` seen at `n` successive calls of `Sys_Switch_Now`, the first
being the thread that runs before the first call; `none` when a call reads a `TID` outside
the TCBs. -/
def visits (k : KConst) : Nat → Kernel → Option (List Nat)
  | 0, _ => some []
  | n + 1, s =>
    match Sys_Switch_Now k s with
    | none => none
    | some s' => (visits k n s').map (fun l => s.Current_TID :: l)

/-- The state after `n` successive calls of `Sys_Switch_Now`. -/
def switchN (k : KConst) : Nat → Kernel → Option Kernel
  | 0, s => some s
  | n + 1, s =>
    match Sys_Switch_Now k s with
    | none => none
    | some s' => switchN k n s'

/-- Two init structs with `TID = AUTO_PID` for `refConst`, used where a concrete run is
evaluated. -/
def demoA : Thread_Init_Struct := ⟨255, 11, 100, 4660⟩

/-- The second init struct of the concrete runs. -/
def demoB : Thread_Init_Struct := ⟨255, 12, 110, 4661⟩

/-- The state after boot in the concrete runs. -/
def demoBoot : Kernel := bootState refConst rawState 1 50 0

/-- The scheduler picture after boot: the ready ring holds node 0 only, the empty ring holds
the nodes 1 and 2, each TCB carries its own tid, thread 0 is `OCCUPY|READY` and current,
the slots 1 and 2 are free. -/
def BootView (k : KConst) (s : Kernel) : Prop :=
  s.Next Ptr.readyHead = Ptr.tcb 0 ∧ s.Prev Ptr.readyHead = Ptr.tcb 0 ∧
  s.Next (Ptr.tcb 0) = Ptr.readyHead ∧ s.Prev (Ptr.tcb 0) = Ptr.readyHead ∧
  s.Next Ptr.emptyHead = Ptr.tcb 1 ∧ s.Prev Ptr.emptyHead = Ptr.tcb 2 ∧
  s.Next (Ptr.tcb 1) = Ptr.tcb 2 ∧ s.Prev (Ptr.tcb 1) = Ptr.emptyHead ∧
  s.Next (Ptr.tcb 2) = Ptr.emptyHead ∧ s.Prev (Ptr.tcb 2) = Ptr.tcb 1 ∧
  s.TID 0 = 0 ∧ s.TID 1 = 1 ∧ s.TID 2 = 2 ∧
  s.Status 0 = k.OCCUPY ||| k.READY ∧ s.Status 1 = 0 ∧ s.Status 2 = 0 ∧
  s.Current_TID = 0

/-- The state of the concrete runs after scenario 1 (threads 1 and 2 started and set ready):
the ready ring is head, 2, 1, 0. -/
def demoState : Kernel :=
  match carouselSetup refConst demoBoot demoA demoB with
  | some r => r.2.2
  | none => rawState

/-- The seven signal numbers of `kernel.h` are pairwise distinct (they are the case labels of
one `switch`). -/
def signalsDistinct (k : KConst) : Prop :=
  [k.SIGKILL, k.SIGSLEEP, k.SIGWAKE, k.SIGUSR1, k.SIGUSR2, k.SIGUSR3, k.SIGUSR4].Nodup

instance (k : KConst) : Decidable (signalsDistinct k) := by
  unfold signalsDistinct; infer_instance

/-- The handler of the user signal `sig` with slot `n`, when the bit `sig` is set in
`TCB[TID].Signal` and the slot is not null; nothing otherwise. -/
def pendingOne (s : Kernel) (TID sig : Nat) (n : Fin 4) : List Nat :=
  if s.Signal TID &&& sig ≠ 0 ∧ s.Signal_Handler TID n ≠ 0 then [s.Signal_Handler TID n]
  else []

/-- The handlers that the deferred dispatch for thread `TID` has to call in the state `s`:
those of the user signals whose bit is set in `TCB[TID].Signal` and whose handler slot is not
null, in the order `SIGUSR1`, `SIGUSR2`, `SIGUSR3`, `SIGUSR4`. -/
def pendingHandlers (k : KConst) (s : Kernel) (TID : Nat) : List Nat :=
  pendingOne s TID k.SIGUSR1 0 ++ pendingOne s TID k.SIGUSR2 1 ++
    pendingOne s TID k.SIGUSR3 2 ++ pendingOne s TID k.SIGUSR4 3

/-- A second admissible choice of the `kernel.h` constants, which differs from `refConst`
in the status flags: they are distinct bits and none of them is bit 0. It is used, like
`refConst`, only where a concrete run is evaluated, to show what depends on the values of
the flags. -/
def evenConst : KConst :=
  { refConst with OCCUPY := 2, READY := 4, SLEEP := 8 }

/-- The state after scenario 1 run with the constants `evenConst`. -/
def evenState : Kernel :=
  match carouselSetup evenConst (bootState evenConst rawState 1 50 0) demoA demoB with
  | some r => r.2.2
  | none => rawState

/-- The state of the concrete runs in which thread 1 holds the pages 0, 1 and 3 (the table
reached with `PAGE_SIZE = 20` when thread 1 allocates 3 pages, thread 2 one page, thread 1
one page, and thread 2 frees all its pages). -/
def demoHeap : Kernel :=
  { demoState with Mem_CB := 1 :: 1 :: 0 :: 1 :: List.replicate 36 0 }

/-- The state of the concrete runs in which thread 1 is `OCCUPY|READY` with the pending
signals `SIGUSR1|SIGUSR2|SIGUSR4` and handlers in the slots 0 and 3 only. -/
def demoSignals : Kernel :=
  { demoState with
    Signal := Function.update demoState.Signal 1 (8 ||| 16 ||| 64)
    Signal_Handler := Function.update demoState.Signal_Handler 1
      (fun n => if n = 0 then 501 else if n = 3 then 504 else 0) }

/-- A call of one of the kernel functions that applications use on threads. -/
inductive Call where
  | start (Thread : Thread_Init_Struct) : Call
  | setReady (TID : Nat) : Call
  | send (TID Signal : Nat) : Call
  | reg (TID Signal Handler : Nat) : Call
  | switch : Call

/-- The state after one call; `none` when the call reads a `TID` outside the TCBs. -/
def doCall (k : KConst) (s : Kernel) : Call → Option Kernel
  | Call.start Thread => (Sys_Start_Thread k s Thread).map (fun r => r.2)
  | Call.setReady TID => some (Sys_Set_Ready k s TID).2
  | Call.send TID Signal => some (Sys_Send_Signal k s TID Signal).2
  | Call.reg TID Signal Handler => some (Sys_Reg_Signal_Handler k s TID Signal Handler).2
  | Call.switch => Sys_Switch_Now k s

/-- The state after a sequence of calls. -/
def runCalls (k : KConst) : List Call → Kernel → Option Kernel
  | [], s => some s
  | c :: l, s =>
    match doCall k s c with
    | none => none
    | some s1 => runCalls k l s1

/-- The nodes met along `Next` from the node `p` before the walk comes to the head `h`, at
most `n` of them. -/
def nodesFrom (s : Kernel) (h : Ptr) : Nat → Ptr → List Ptr
  | 0, _ => []
  | n + 1, p => if p = h then [] else p :: nodesFrom s h n (s.Next p)

/-- The nodes reached from the list head `h` along `Next` (there are `MAX_THREADS` TCB
nodes, two list heads and the null pointer, so a walk of `MAX_THREADS + 3` steps that has
not come back to the head is in a cycle). -/
def ringNodes (s : Kernel) (h : Ptr) : List Ptr :=
  nodesFrom s h (MAX_THREADS + 3) (s.Next h)

/-- The state after boot with the constants `evenConst`. -/
def evenBoot : Kernel := bootState evenConst rawState 1 50 0

/-- A sequence of calls of the two lock functions: `true` is a call of
`Sys_Lock_Interrupt`, `false` a call of `Sys_Unlock_Interrupt`. -/
def lockRun : List Bool → Kernel → Kernel
  | [], s => s
  | true :: l, s => lockRun l (Sys_Lock_Interrupt s)
  | false :: l, s => lockRun l (Sys_Unlock_Interrupt s)

/-- Four calls, each on a thread that exists: two threads are started (tids 1 and 2), thread
2 is set ready, and thread 1, which was never set ready, is killed. -/
def killOffRing (k : KConst) : List Call :=
  [Call.start demoA, Call.start demoB, Call.setReady 2, Call.send 1 k.SIGKILL]

/-! ## Lemmas on the page table -/

theorem getD_set_eq (l : List Nat) (i j a : Nat) :
    (l.set i a).getD j 0 = if i = j ∧ i < l.length then a else l.getD j 0 := by
  simp only [List.getD_eq_getElem?_getD, List.getElem?_set]
  by_cases h : i = j
  · subst h
    by_cases h2 : i < l.length
    · simp [h2]
    · simp [h2, List.getElem?_eq_none (Nat.le_of_not_lt h2)]
  · simp [h]

theorem Total_Pages_eq_ceil (PAGE_SIZE Size : Nat) (hP : 0 < PAGE_SIZE) :
    Total_Pages PAGE_SIZE Size = ceilPages PAGE_SIZE Size := by
  unfold Total_Pages ceilPages
  have h1 := Nat.div_add_mod Size PAGE_SIZE
  have h2 := Nat.mod_lt Size hP
  generalize Size / PAGE_SIZE = q at *
  generalize Size % PAGE_SIZE = r at *
  subst h1
  have hc := Nat.mul_comm PAGE_SIZE q
  split
  · next h =>
    subst h
    symm
    apply Nat.div_eq_of_lt_le
    · omega
    · simp only [Nat.add_mul, Nat.one_mul]; omega
  · next h =>
    symm
    apply Nat.div_eq_of_lt_le
    · simp only [Nat.add_mul, Nat.one_mul]; omega
    · simp only [Nat.add_mul, Nat.one_mul]; omega

theorem Total_Pages_pos (PAGE_SIZE Size : Nat) (hP : 0 < PAGE_SIZE) (hS : 0 < Size) :
    0 < Total_Pages PAGE_SIZE Size := by
  unfold Total_Pages
  split
  · next h =>
    apply Nat.div_pos _ hP
    exact Nat.le_of_dvd hS (Nat.dvd_of_mod_eq_zero h)
  · exact Nat.succ_pos _

theorem ScanInv_zero (Mem_CB : List Nat) : ScanInv Mem_CB 0 0 :=
  ⟨Nat.le_refl 0, fun j _ h => absurd h (Nat.not_lt_zero j), fun h => absurd h (Nat.lt_irrefl 0)⟩

theorem ScanInv_step_zero (Mem_CB : List Nat) (i cnt : Nat) (h : ScanInv Mem_CB i cnt)
    (hz : Mem_CB.getD i 0 = 0) : ScanInv Mem_CB (i + 1) (cnt + 1) := by
  obtain ⟨h1, h2, h3⟩ := h
  refine ⟨by omega, ?_, ?_⟩
  · intro j hj1 hj2
    by_cases hji : j = i
    · subst hji; exact hz
    · exact h2 j (by omega) (by omega)
  · intro hlt
    have e : i + 1 - (cnt + 1) - 1 = i - cnt - 1 := by omega
    rw [e]
    exact h3 (by omega)

theorem ScanInv_step_nonzero (Mem_CB : List Nat) (i : Nat) (hz : Mem_CB.getD i 0 ≠ 0) :
    ScanInv Mem_CB (i + 1) 0 := by
  refine ⟨by omega, ?_, ?_⟩
  · intro j hj1 hj2
    omega
  · intro _
    have e : i + 1 - 0 - 1 = i := by omega
    rw [e]
    exact hz

theorem no_window_step_zero (Mem_CB : List Nat) (N i cnt : Nat) (h : ScanInv Mem_CB i cnt)
    (hN : cnt + 1 < N) (hno : ∀ s, s + N ≤ i → ¬ allZero Mem_CB s N) :
    ∀ s, s + N ≤ i + 1 → ¬ allZero Mem_CB s N := by
  intro s hs hall
  by_cases hs2 : s + N ≤ i
  · exact hno s hs2 hall
  · obtain ⟨_, _, h3⟩ := h
    exact h3 (by omega) (hall (i - cnt - 1) (by omega) (by omega))

theorem no_window_step_nonzero (Mem_CB : List Nat) (N i : Nat) (hN : 0 < N)
    (hz : Mem_CB.getD i 0 ≠ 0) (hno : ∀ s, s + N ≤ i → ¬ allZero Mem_CB s N) :
    ∀ s, s + N ≤ i + 1 → ¬ allZero Mem_CB s N := by
  intro s hs hall
  by_cases hs2 : s + N ≤ i
  · exact hno s hs2 hall
  · exact hz (hall i (by omega) (by omega))

theorem mallocScan_succ_zero (Mem_CB : List Nat) (N left i cnt : Nat)
    (h : Mem_CB.getD i 0 = 0) :
    mallocScan Mem_CB N (left + 1) i cnt =
      if cnt + 1 = N then some (i, cnt + 1) else mallocScan Mem_CB N left (i + 1) (cnt + 1) := by
  simp only [mallocScan, h, if_true]

theorem mallocScan_succ_nonzero (Mem_CB : List Nat) (N left i cnt : Nat)
    (h : Mem_CB.getD i 0 ≠ 0) :
    mallocScan Mem_CB N (left + 1) i cnt =
      if 0 = N then some (i, 0) else mallocScan Mem_CB N left (i + 1) 0 := by
  simp only [mallocScan, h, if_false]

theorem mallocScan_some (Mem_CB : List Nat) (N : Nat) :
    ∀ (left i cnt e c : Nat), ScanInv Mem_CB i cnt → cnt < N →
      (∀ s, s + N ≤ i → ¬ allZero Mem_CB s N) →
      mallocScan Mem_CB N left i cnt = some (e, c) →
      c = N ∧ N ≤ e + 1 ∧ e < i + left ∧ allZero Mem_CB (e + 1 - N) N ∧
        ∀ s, s + N ≤ e → ¬ allZero Mem_CB s N := by
  intro left
  induction left with
  | zero => intro i cnt e c _ _ _ h; simp [mallocScan] at h
  | succ left ih =>
    intro i cnt e c hinv hlt hno h
    by_cases hz : Mem_CB.getD i 0 = 0
    · rw [mallocScan_succ_zero Mem_CB N left i cnt hz] at h
      by_cases hc : cnt + 1 = N
      · rw [if_pos hc] at h
        simp only [Option.some.injEq, Prod.mk.injEq] at h
        obtain ⟨rfl, rfl⟩ := h
        obtain ⟨h1, h2, _⟩ := hinv
        refine ⟨hc, by omega, by omega, ?_, hno⟩
        intro j hj1 hj2
        by_cases hji : j = i
        · subst hji; exact hz
        · exact h2 j (by omega) (by omega)
      · rw [if_neg hc] at h
        have := ih (i + 1) (cnt + 1) e c (ScanInv_step_zero Mem_CB i cnt hinv hz) (by omega)
          (no_window_step_zero Mem_CB N i cnt hinv (by omega) hno) h
        obtain ⟨a, b, c', d, e'⟩ := this
        exact ⟨a, b, by omega, d, e'⟩
    · have hN : (0 : Nat) ≠ N := by omega
      rw [mallocScan_succ_nonzero Mem_CB N left i cnt hz, if_neg hN] at h
      have := ih (i + 1) 0 e c (ScanInv_step_nonzero Mem_CB i hz) (by omega)
        (no_window_step_nonzero Mem_CB N i (by omega) hz hno) h
      obtain ⟨a, b, c', d, e'⟩ := this
      exact ⟨a, b, by omega, d, e'⟩

theorem mallocScan_none (Mem_CB : List Nat) (N : Nat) :
    ∀ (left i cnt : Nat), ScanInv Mem_CB i cnt → cnt < N →
      (∀ s, s + N ≤ i → ¬ allZero Mem_CB s N) →
      mallocScan Mem_CB N left i cnt = none →
      ∀ s, s + N ≤ i + left → ¬ allZero Mem_CB s N := by
  intro left
  induction left with
  | zero => intro i cnt _ _ hno _; simpa using hno
  | succ left ih =>
    intro i cnt hinv hlt hno h
    by_cases hz : Mem_CB.getD i 0 = 0
    · rw [mallocScan_succ_zero Mem_CB N left i cnt hz] at h
      by_cases hc : cnt + 1 = N
      · rw [if_pos hc] at h
        exact absurd h (by simp)
      · rw [if_neg hc] at h
        have := ih (i + 1) (cnt + 1) (ScanInv_step_zero Mem_CB i cnt hinv hz) (by omega)
          (no_window_step_zero Mem_CB N i cnt hinv (by omega) hno) h
        intro s hs
        exact this s (by omega)
    · have hN : (0 : Nat) ≠ N := by omega
      rw [mallocScan_succ_nonzero Mem_CB N left i cnt hz, if_neg hN] at h
      have := ih (i + 1) 0 (ScanInv_step_nonzero Mem_CB i hz) (by omega)
        (no_window_step_nonzero Mem_CB N i (by omega) hz hno) h
      intro s hs
      exact this s (by omega)

/-- The search loop run over the whole table finds the end of the first run of `N` zero
entries. -/
theorem mallocScan_firstRun (Mem_CB : List Nat) (N s : Nat) (hN : 0 < N)
    (hlen : Mem_CB.length = DMEM_PAGES) (hs : firstRun Mem_CB s N) :
    mallocScan Mem_CB N DMEM_PAGES 0 0 = some (s + N - 1, N) := by
  obtain ⟨⟨hb, hz⟩, hmin⟩ := hs
  have hno0 : ∀ s, s + N ≤ 0 → ¬ allZero Mem_CB s N := by intro s h; omega
  cases hscan : mallocScan Mem_CB N DMEM_PAGES 0 0 with
  | none =>
    have := mallocScan_none Mem_CB N DMEM_PAGES 0 0 (ScanInv_zero Mem_CB) hN hno0 hscan s
      (by omega)
    exact absurd hz this
  | some r =>
    obtain ⟨e, c⟩ := r
    obtain ⟨h1, h2, h3, h4, h5⟩ :=
      mallocScan_some Mem_CB N DMEM_PAGES 0 0 e c (ScanInv_zero Mem_CB) hN hno0 hscan
    subst h1
    have hle : e + 1 - c ≤ s := by
      by_contra hcon
      exact h5 s (by omega) hz
    have hge : s ≤ e + 1 - c := by
      by_contra hcon
      exact hmin (e + 1 - c) (by omega) ⟨by omega, h4⟩
    have : e = s + c - 1 := by omega
    rw [this]

theorem mallocMark_spec (TID : Nat) :
    ∀ (cnt idx : Nat) (Mem_CB : List Nat), cnt ≤ idx → idx ≤ Mem_CB.length →
      (mallocMark TID cnt idx Mem_CB).1 = idx - cnt ∧
      (mallocMark TID cnt idx Mem_CB).2.length = Mem_CB.length ∧
      ∀ j, (mallocMark TID cnt idx Mem_CB).2.getD j 0 =
        if idx - cnt ≤ j ∧ j < idx then TID else Mem_CB.getD j 0 := by
  intro cnt
  induction cnt with
  | zero =>
    intro idx Mem_CB _ _
    refine ⟨rfl, rfl, ?_⟩
    intro j
    have : ¬ (idx - 0 ≤ j ∧ j < idx) := by omega
    simp only [mallocMark, if_neg this]
  | succ cnt ih =>
    intro idx Mem_CB h1 h2
    have hlen : (Mem_CB.set (idx - 1) TID).length = Mem_CB.length := List.length_set _ _ _
    obtain ⟨a, b, c⟩ := ih (idx - 1) (Mem_CB.set (idx - 1) TID) (by omega) (by omega)
    refine ⟨?_, ?_, ?_⟩
    · show (mallocMark TID cnt (idx - 1) (Mem_CB.set (idx - 1) TID)).1 = _
      omega
    · show (mallocMark TID cnt (idx - 1) (Mem_CB.set (idx - 1) TID)).2.length = _
      omega
    · intro j
      show (mallocMark TID cnt (idx - 1) (Mem_CB.set (idx - 1) TID)).2.getD j 0 = _
      rw [c j, getD_set_eq]
      by_cases hj : idx - 1 = j
      · have h3 : idx - 1 = j ∧ idx - 1 < Mem_CB.length := ⟨hj, by omega⟩
        have h4 : idx - (cnt + 1) ≤ j ∧ j < idx := by omega
        rw [if_pos h3, if_pos h4]
        split <;> rfl
      · have h3 : ¬ (idx - 1 = j ∧ idx - 1 < Mem_CB.length) := fun h => hj h.1
        rw [if_neg h3]
        by_cases h4 : idx - (cnt + 1) ≤ j ∧ j < idx
        · rw [if_pos h4, if_pos (by omega)]
        · rw [if_neg h4, if_neg (by omega)]

/-- What `__Sys_Malloc` does when a run of `N` zero pages exists: it returns the address of
the first page of the first run, and it writes `TID` into the single page of the run when
`N = 1` and into all pages of the run but the last when `N ≥ 2`. -/
theorem Sys_Malloc_core (PAGE_SIZE : Nat) (hP : 0 < PAGE_SIZE) (Mem_CB : List Nat)
    (hlen : Mem_CB.length = DMEM_PAGES) (TID : Nat) (hT : TID < MAX_THREADS) (Size : Nat)
    (hS : 0 < Size) (s : Nat) (hs : firstRun Mem_CB s (ceilPages PAGE_SIZE Size)) :
    (__Sys_Malloc PAGE_SIZE TID Size Mem_CB).1 = some (s * PAGE_SIZE) ∧
    (__Sys_Malloc PAGE_SIZE TID Size Mem_CB).2.length = DMEM_PAGES ∧
    ∀ j, (__Sys_Malloc PAGE_SIZE TID Size Mem_CB).2.getD j 0 =
      if (ceilPages PAGE_SIZE Size = 1 ∧ j = s) ∨
          (s ≤ j ∧ j + 1 < s + ceilPages PAGE_SIZE Size) then TID
      else Mem_CB.getD j 0 := by
  have hN : 0 < ceilPages PAGE_SIZE Size := by
    have := Total_Pages_pos PAGE_SIZE Size hP hS
    rwa [Total_Pages_eq_ceil PAGE_SIZE Size hP] at this
  have hscan := mallocScan_firstRun Mem_CB (ceilPages PAGE_SIZE Size) s hN hlen hs
  have hb : s + ceilPages PAGE_SIZE Size ≤ Mem_CB.length := hs.1.1
  have hS0 : ¬ Size = 0 := by omega
  have hT0 : ¬ TID ≥ MAX_THREADS := by omega
  have hm : __Sys_Malloc PAGE_SIZE TID Size Mem_CB =
      if ceilPages PAGE_SIZE Size = 1 then
        (some ((s + ceilPages PAGE_SIZE Size - 1) * PAGE_SIZE),
          Mem_CB.set (s + ceilPages PAGE_SIZE Size - 1) TID)
      else
        (some ((mallocMark TID (ceilPages PAGE_SIZE Size - 1)
            (s + ceilPages PAGE_SIZE Size - 1) Mem_CB).1 * PAGE_SIZE),
          (mallocMark TID (ceilPages PAGE_SIZE Size - 1)
            (s + ceilPages PAGE_SIZE Size - 1) Mem_CB).2) := by
    unfold __Sys_Malloc
    rw [if_neg hS0, if_neg hT0, Total_Pages_eq_ceil PAGE_SIZE Size hP, hscan]
  rw [hm]
  generalize ceilPages PAGE_SIZE Size = N at *
  by_cases h1 : N = 1
  · subst h1
    simp only [if_true]
    have e : s + 1 - 1 = s := by omega
    rw [e]
    refine ⟨rfl, ?_, ?_⟩
    · rw [List.length_set]; exact hlen
    · intro j
      rw [getD_set_eq]
      by_cases hj : s = j
      · subst hj
        rw [if_pos ⟨rfl, by omega⟩, if_pos (Or.inl ⟨trivial, rfl⟩)]
      · rw [if_neg (fun h => hj h.1), if_neg]
        intro h
        rcases h with h | h
        · exact hj h.2.symm
        · omega
  · simp only [if_neg h1]
    obtain ⟨a, b, c⟩ := mallocMark_spec TID (N - 1) (s + N - 1) Mem_CB (by omega) (by omega)
    refine ⟨?_, ?_, ?_⟩
    · rw [a]
      have e : s + N - 1 - (N - 1) = s := by omega
      rw [e]
    · rw [b]; exact hlen
    · intro j
      rw [c j]
      by_cases hj : s + N - 1 - (N - 1) ≤ j ∧ j < s + N - 1
      · rw [if_pos hj, if_pos (Or.inr (by omega))]
      · rw [if_neg hj, if_neg]
        intro h
        rcases h with h | h
        · exact h1 h.1
        · omega

theorem mfreeWalk_spec (TID : Nat) :
    ∀ (n left p : Nat) (Mem_CB : List Nat), p + left = Mem_CB.length → n < left →
      (∀ j, p ≤ j → j < p + n → Mem_CB.getD j 0 = TID) → Mem_CB.getD (p + n) 0 ≠ TID →
      ∃ m, mfreeWalk TID left p Mem_CB = some m ∧ m.length = Mem_CB.length ∧
        ∀ j, m.getD j 0 = if p ≤ j ∧ j < p + n then 0 else Mem_CB.getD j 0 := by
  intro n
  induction n with
  | zero =>
    intro left p Mem_CB _ hlt _ hstop
    obtain ⟨l, rfl⟩ : ∃ l, left = l + 1 := ⟨left - 1, by omega⟩
    refine ⟨Mem_CB, ?_, rfl, ?_⟩
    · simp only [mfreeWalk, Nat.add_zero] at hstop ⊢
      rw [if_neg hstop]
    · intro j
      rw [if_neg (by omega)]
  | succ n ih =>
    intro left p Mem_CB hlen hlt hrun hstop
    obtain ⟨l, rfl⟩ : ∃ l, left = l + 1 := ⟨left - 1, by omega⟩
    have hp : Mem_CB.getD p 0 = TID := hrun p (Nat.le_refl p) (by omega)
    have hlen2 : (Mem_CB.set p 0).length = Mem_CB.length := List.length_set _ _ _
    obtain ⟨m, h1, h2, h3⟩ := ih l (p + 1) (Mem_CB.set p 0) (by omega) (by omega)
      (by
        intro j hj1 hj2
        rw [getD_set_eq, if_neg (by omega)]
        exact hrun j (by omega) (by omega))
      (by
        rw [getD_set_eq, if_neg (by omega)]
        have e : p + 1 + n = p + (n + 1) := by omega
        rw [e]
        exact hstop)
    refine ⟨m, ?_, by omega, ?_⟩
    · simp only [mfreeWalk]
      rw [if_pos hp]
      exact h1
    · intro j
      rw [h3 j, getD_set_eq]
      split_ifs <;> first | rfl | omega

/-- What `__Sys_Mfree` does on the first page `p` of a run of `TID` entries that ends at a
page `q` before the last page of the table: the entries `p..q` are zeroed and every other
entry is kept. -/
theorem Sys_Mfree_run_inside (PAGE_SIZE : Nat) (hP : 0 < PAGE_SIZE) (Mem_CB : List Nat)
    (hlen : Mem_CB.length = DMEM_PAGES) (TID : Nat) (hT : TID < MAX_THREADS) (p q : Nat)
    (hpq : p ≤ q) (hq : q + 1 < DMEM_PAGES)
    (hrun : ∀ j, p ≤ j → j ≤ q → Mem_CB.getD j 0 = TID)
    (hstop : Mem_CB.getD (q + 1) 0 ≠ TID)
    (hprev : p = 0 ∨ Mem_CB.getD (p - 1) 0 = 0) :
    ∃ m, __Sys_Mfree PAGE_SIZE TID (some (p * PAGE_SIZE)) Mem_CB = some m ∧
      m.length = DMEM_PAGES ∧
      ∀ j, m.getD j 0 = if p ≤ j ∧ j ≤ q then 0 else Mem_CB.getD j 0 := by
  have h1 : ¬ (p * PAGE_SIZE % PAGE_SIZE ≠ 0) := by simp
  have h2 : ¬ TID ≥ MAX_THREADS := by omega
  have h3 : p * PAGE_SIZE / PAGE_SIZE = p := Nat.mul_div_cancel p hP
  have h4 : ¬ DMEM_PAGES ≤ p := by omega
  have h5 : ¬ (Mem_CB.getD p 0 ≠ TID) := by
    intro h; exact h (hrun p (Nat.le_refl p) hpq)
  have h6 : ¬ (0 < p ∧ Mem_CB.getD (p - 1) 0 ≠ 0) := by
    intro h
    rcases hprev with h0 | h0
    · omega
    · exact h.2 h0
  obtain ⟨m, a, b, c⟩ := mfreeWalk_spec TID (q + 1 - p) (DMEM_PAGES - p) p Mem_CB
    (by omega) (by omega)
    (by intro j hj1 hj2; exact hrun j hj1 (by omega))
    (by
      have e : p + (q + 1 - p) = q + 1 := by omega
      rw [e]; exact hstop)
  refine ⟨m, ?_, by omega, ?_⟩
  · simp only [__Sys_Mfree]
    rw [if_neg h1, if_neg h2, h3, if_neg h4, if_neg h5, if_neg h6]
    exact a
  · intro j
    rw [c j]
    by_cases hj : p ≤ j ∧ j < p + (q + 1 - p)
    · rw [if_pos hj, if_pos (by omega)]
    · rw [if_neg hj, if_neg (by omega)]

/-- When the first run of `N` zero pages does not start at page 0, the page before it is not
0 (else the run would start earlier), so the `__Sys_Mfree` of the pointer that
`__Sys_Malloc` has just returned is rejected and the table is not restored. -/
theorem Sys_Mfree_after_Malloc_rejected (PAGE_SIZE : Nat) (hP : 0 < PAGE_SIZE)
    (Mem_CB : List Nat) (hlen : Mem_CB.length = DMEM_PAGES) (TID : Nat) (hT1 : 1 ≤ TID)
    (hT : TID < MAX_THREADS) (Size : Nat) (hS : 0 < Size) (s : Nat)
    (hs : firstRun Mem_CB s (ceilPages PAGE_SIZE Size)) (hpos : 0 < s) :
    __Sys_Mfree PAGE_SIZE TID (__Sys_Malloc PAGE_SIZE TID Size Mem_CB).1
        (__Sys_Malloc PAGE_SIZE TID Size Mem_CB).2 =
      some (__Sys_Malloc PAGE_SIZE TID Size Mem_CB).2 ∧
    (__Sys_Malloc PAGE_SIZE TID Size Mem_CB).2 ≠ Mem_CB := by
  obtain ⟨h1, h2, h3⟩ := Sys_Malloc_core PAGE_SIZE hP Mem_CB hlen TID hT Size hS s hs
  have hN : 0 < ceilPages PAGE_SIZE Size := by
    have := Total_Pages_pos PAGE_SIZE Size hP hS
    rwa [Total_Pages_eq_ceil PAGE_SIZE Size hP] at this
  obtain ⟨⟨hb, hz⟩, hmin⟩ := hs
  generalize ceilPages PAGE_SIZE Size = N at *
  have hsT : (__Sys_Malloc PAGE_SIZE TID Size Mem_CB).2.getD s 0 = TID := by
    rw [h3 s]
    by_cases hN1 : N = 1
    · rw [if_pos (Or.inl ⟨hN1, rfl⟩)]
    · rw [if_pos (Or.inr ⟨Nat.le_refl s, by omega⟩)]
  have hprev : Mem_CB.getD (s - 1) 0 ≠ 0 := by
    intro h0
    apply hmin (s - 1) (by omega)
    refine ⟨by omega, ?_⟩
    intro j hj1 hj2
    by_cases hj : j = s - 1
    · rw [hj]; exact h0
    · exact hz j (by omega) (by omega)
  have hprev2 : (__Sys_Malloc PAGE_SIZE TID Size Mem_CB).2.getD (s - 1) 0 ≠ 0 := by
    rw [h3 (s - 1), if_neg]
    · exact hprev
    · intro h
      rcases h with h | h
      · omega
      · omega
  refine ⟨?_, ?_⟩
  · rw [h1]
    have e1 : ¬ (s * PAGE_SIZE % PAGE_SIZE ≠ 0) := by simp
    have e2 : ¬ TID ≥ MAX_THREADS := by omega
    have e3 : s * PAGE_SIZE / PAGE_SIZE = s := Nat.mul_div_cancel s hP
    have e4 : ¬ DMEM_PAGES ≤ s := by omega
    have e5 : ¬ ((__Sys_Malloc PAGE_SIZE TID Size Mem_CB).2.getD s 0 ≠ TID) := by
      intro h; exact h hsT
    simp only [__Sys_Mfree]
    rw [if_neg e1, if_neg e2, e3, if_neg e4, if_neg e5, if_pos ⟨hpos, hprev2⟩]
  · intro heq
    have := hz s (Nat.le_refl s) (by omega)
    rw [heq] at hsT
    omega

/-- Two lists of the same length with the same entries are equal. -/
theorem list_eq_of_getD (l1 l2 : List Nat) (hl : l1.length = l2.length)
    (h : ∀ j, l1.getD j 0 = l2.getD j 0) : l1 = l2 := by
  apply List.ext_getElem hl
  intro n h1 h2
  have e := h n
  rw [List.getD_eq_getElem _ _ h1, List.getD_eq_getElem _ _ h2] at e
  exact e

/-- When a run of `N` zero entries exists, there is a first one. -/
theorem exists_firstRun (Mem_CB : List Nat) (N : Nat) (h : ∃ s, zeroRun Mem_CB s N) :
    ∃ s, firstRun Mem_CB s N :=
  ⟨Nat.find h, Nat.find_spec h, fun _ hs => Nat.find_min h hs⟩

/-- The search loop of `__Sys_Malloc` over the whole table fails exactly when the table has
no run of `N` zero entries. -/
theorem mallocScan_none_iff (Mem_CB : List Nat) (N : Nat) (hN : 0 < N)
    (hlen : Mem_CB.length = DMEM_PAGES) :
    mallocScan Mem_CB N DMEM_PAGES 0 0 = none ↔ ¬ ∃ s, zeroRun Mem_CB s N := by
  constructor
  · intro h
    rintro ⟨s, h1, h2⟩
    exact mallocScan_none Mem_CB N DMEM_PAGES 0 0 (ScanInv_zero Mem_CB) hN
      (fun s hs => by omega) h s (by omega) h2
  · intro h
    cases hsc : mallocScan Mem_CB N DMEM_PAGES 0 0 with
    | none => rfl
    | some r =>
      obtain ⟨e, c⟩ := r
      obtain ⟨_, h2, h3, h4, _⟩ := mallocScan_some Mem_CB N DMEM_PAGES 0 0 e c
        (ScanInv_zero Mem_CB) hN (fun s hs => by omega) hsc
      exact absurd ⟨e + 1 - N, by omega, h4⟩ h

/-- The pointer that `__Sys_Malloc` returns is null exactly when the size is 0, the tid is
not below `MAX_THREADS`, or the search loop fails; the table is then unchanged. -/
theorem Sys_Malloc_null (PAGE_SIZE TID Size : Nat) (Mem_CB : List Nat) :
    ((__Sys_Malloc PAGE_SIZE TID Size Mem_CB).1 = none ↔
      Size = 0 ∨ TID ≥ MAX_THREADS ∨
        mallocScan Mem_CB (Total_Pages PAGE_SIZE Size) DMEM_PAGES 0 0 = none) ∧
    ((__Sys_Malloc PAGE_SIZE TID Size Mem_CB).1 = none →
      (__Sys_Malloc PAGE_SIZE TID Size Mem_CB).2 = Mem_CB) := by
  unfold __Sys_Malloc
  by_cases h1 : Size = 0
  · simp [h1]
  · by_cases h2 : TID ≥ MAX_THREADS
    · simp [h1, h2]
    · rw [if_neg h1, if_neg h2]
      cases hsc : mallocScan Mem_CB (Total_Pages PAGE_SIZE Size) DMEM_PAGES 0 0 with
      | none => simp
      | some r =>
        obtain ⟨e, c⟩ := r
        by_cases h3 : c = 1
        · simp [h1, h2, h3]
        · simp [h1, h2, h3]

/-- A request of more than `DMEM_PAGES * PAGE_SIZE` bytes needs more than `DMEM_PAGES`
pages. -/
theorem ceilPages_gt (PAGE_SIZE Size : Nat) (hP : 0 < PAGE_SIZE)
    (h : DMEM_PAGES * PAGE_SIZE < Size) : DMEM_PAGES < ceilPages PAGE_SIZE Size := by
  unfold ceilPages
  have : (DMEM_PAGES + 1) * PAGE_SIZE ≤ Size + PAGE_SIZE - 1 := by
    rw [Nat.add_mul]; omega
  exact (Nat.le_div_iff_mul_le hP).2 this

/-- The loop of `__Sys_Mfree` writes no entry below its start index. -/
theorem mfreeWalk_below (TID : Nat) :
    ∀ (left p : Nat) (Mem_CB m : List Nat), mfreeWalk TID left p Mem_CB = some m →
      ∀ j, j < p → m.getD j 0 = Mem_CB.getD j 0 := by
  intro left
  induction left with
  | zero => intro p Mem_CB m h; simp [mfreeWalk] at h
  | succ l ih =>
    intro p Mem_CB m h j hj
    simp only [mfreeWalk] at h
    by_cases hp : Mem_CB.getD p 0 = TID
    · rw [if_pos hp] at h
      rw [ih (p + 1) _ m h j (by omega), getD_set_eq, if_neg (by omega)]
    · rw [if_neg hp] at h
      injection h with h
      rw [h]

/-- The loop of `__Sys_Mfree` started inside a run of entries equal to `TID` that goes up to
the last entry of the table evaluates its condition on `Mem_CB[DMEM_PAGES]`. -/
theorem mfreeWalk_run_to_end (TID : Nat) :
    ∀ (left p : Nat) (Mem_CB : List Nat), p + left = Mem_CB.length →
      (∀ j, p ≤ j → j < p + left → Mem_CB.getD j 0 = TID) →
      mfreeWalk TID left p Mem_CB = none := by
  intro left
  induction left with
  | zero => intro p Mem_CB _ _; rfl
  | succ l ih =>
    intro p Mem_CB hlen hrun
    simp only [mfreeWalk]
    rw [if_pos (hrun p (Nat.le_refl p) (by omega))]
    refine ih (p + 1) _ (by rw [List.length_set]; omega) ?_
    intro j hj1 hj2
    rw [getD_set_eq, if_neg (by omega)]
    exact hrun j (by omega) (by omega)

/-- The function `__Sys_Mfree` on the first page `p` of a run of entries equal to `TID` that
goes up to the last page of the table: the loop runs past the table. -/
theorem Sys_Mfree_run_to_end (PAGE_SIZE : Nat) (hP : 0 < PAGE_SIZE) (Mem_CB : List Nat)
    (hlen : Mem_CB.length = DMEM_PAGES) (TID : Nat) (hT : TID < MAX_THREADS) (p : Nat)
    (hp : p < DMEM_PAGES) (hrun : ∀ j, p ≤ j → j < DMEM_PAGES → Mem_CB.getD j 0 = TID)
    (hprev : p = 0 ∨ Mem_CB.getD (p - 1) 0 = 0) :
    __Sys_Mfree PAGE_SIZE TID (some (p * PAGE_SIZE)) Mem_CB = none := by
  have h1 : ¬ (p * PAGE_SIZE % PAGE_SIZE ≠ 0) := by simp
  have h2 : ¬ TID ≥ MAX_THREADS := by omega
  have h3 : p * PAGE_SIZE / PAGE_SIZE = p := Nat.mul_div_cancel p hP
  have h4 : ¬ DMEM_PAGES ≤ p := by omega
  have h5 : ¬ (Mem_CB.getD p 0 ≠ TID) := by
    intro h; exact h (hrun p (Nat.le_refl p) hp)
  have h6 : ¬ (0 < p ∧ Mem_CB.getD (p - 1) 0 ≠ 0) := by
    intro h
    rcases hprev with h0 | h0
    · omega
    · exact h.2 h0
  simp only [__Sys_Mfree]
  rw [if_neg h1, if_neg h2, h3, if_neg h4, if_neg h5, if_neg h6]
  exact mfreeWalk_run_to_end TID (DMEM_PAGES - p) p Mem_CB (by omega)
    (fun j hj1 hj2 => hrun j hj1 (by omega))

/-- A call of `__Sys_Mfree` that returns leaves a table on which the same call changes
nothing, for a tid that is not 0. -/
theorem Sys_Mfree_twice (PAGE_SIZE : Nat) (Mem_CB m : List Nat)
    (hlen : Mem_CB.length = DMEM_PAGES) (TID : Nat) (hT : 1 ≤ TID) (ptr : Option Nat)
    (h : __Sys_Mfree PAGE_SIZE TID ptr Mem_CB = some m) :
    __Sys_Mfree PAGE_SIZE TID ptr m = some m := by
  cases ptr with
  | none => rfl
  | some off =>
    simp only [__Sys_Mfree] at h ⊢
    by_cases h1 : off % PAGE_SIZE ≠ 0
    · rw [if_pos h1]
    · rw [if_neg h1] at h ⊢
      by_cases h2 : TID ≥ MAX_THREADS
      · rw [if_pos h2]
      · rw [if_neg h2] at h ⊢
        by_cases h4 : DMEM_PAGES ≤ off / PAGE_SIZE
        · rw [if_pos h4] at h; exact absurd h (by simp)
        · rw [if_neg h4] at h ⊢
          by_cases h5 : Mem_CB.getD (off / PAGE_SIZE) 0 ≠ TID
          · rw [if_pos h5] at h
            injection h with h
            rw [← h, if_pos h5]
          · rw [if_neg h5] at h
            by_cases h6 : 0 < off / PAGE_SIZE ∧ Mem_CB.getD (off / PAGE_SIZE - 1) 0 ≠ 0
            · rw [if_pos h6] at h
              injection h with h
              rw [← h, if_neg h5, if_pos h6]
            · rw [if_neg h6] at h
              obtain ⟨l, hl⟩ : ∃ l, DMEM_PAGES - off / PAGE_SIZE = l + 1 :=
                ⟨DMEM_PAGES - off / PAGE_SIZE - 1, by omega⟩
              rw [hl] at h
              simp only [mfreeWalk] at h
              rw [if_pos (not_not.1 h5)] at h
              have e := mfreeWalk_below TID l (off / PAGE_SIZE + 1) _ m h (off / PAGE_SIZE)
                (by omega)
              rw [getD_set_eq, if_pos ⟨rfl, by omega⟩] at e
              have h7 : m.getD (off / PAGE_SIZE) 0 ≠ TID := by rw [e]; omega
              rw [if_pos h7]

/-- The loop of `__Sys_Mfree_All`: the entries equal to `TID` among those still to visit
become 0, every other entry is kept. -/
theorem mfreeAllLoop_spec (TID : Nat) :
    ∀ (left i : Nat) (Mem_CB : List Nat),
      (mfreeAllLoop TID left i Mem_CB).length = Mem_CB.length ∧
      ∀ j, (mfreeAllLoop TID left i Mem_CB).getD j 0 =
        if i ≤ j ∧ j < i + left ∧ Mem_CB.getD j 0 = TID then 0 else Mem_CB.getD j 0 := by
  intro left
  induction left with
  | zero =>
    intro i Mem_CB
    refine ⟨rfl, fun j => ?_⟩
    rw [if_neg (by omega)]
    rfl
  | succ l ih =>
    intro i Mem_CB
    simp only [mfreeAllLoop]
    obtain ⟨a, b⟩ := ih (i + 1)
      (if Mem_CB.getD i 0 = TID then Mem_CB.set i 0 else Mem_CB)
    refine ⟨?_, fun j => ?_⟩
    · rw [a]; split_ifs <;> simp
    · rw [b j]
      by_cases hi : Mem_CB.getD i 0 = TID
      · simp only [if_pos hi, getD_set_eq]
        by_cases hj : i = j
        · subst hj
          have c1 : ¬ (i + 1 ≤ i ∧ i < i + 1 + l ∧
              (if i = i ∧ i < Mem_CB.length then 0 else Mem_CB.getD i 0) = TID) :=
            fun h => absurd h.1 (by omega)
          have c2 : i ≤ i ∧ i < i + (l + 1) ∧ Mem_CB.getD i 0 = TID :=
            ⟨Nat.le_refl i, by omega, hi⟩
          rw [if_neg c1, if_pos c2]
          by_cases hlen : i < Mem_CB.length
          · exact if_pos ⟨rfl, hlen⟩
          · rw [if_neg (fun h => hlen h.2), List.getD_eq_default]
            omega
        · have e1 : ¬ (i = j ∧ i < Mem_CB.length) := fun h => hj h.1
          simp only [if_neg e1]
          by_cases hc : Mem_CB.getD j 0 = TID
          · by_cases hr : i + 1 ≤ j ∧ j < i + 1 + l
            · rw [if_pos ⟨hr.1, hr.2, hc⟩, if_pos ⟨by omega, by omega, hc⟩]
            · rw [if_neg (fun h => hr ⟨h.1, h.2.1⟩), if_neg (fun h => hr ⟨by omega, by omega⟩)]
          · rw [if_neg (fun h => hc h.2.2), if_neg (fun h => hc h.2.2)]
      · simp only [if_neg hi]
        by_cases hc : Mem_CB.getD j 0 = TID
        · have hj : i ≠ j := fun h => hi (h ▸ hc)
          by_cases hr : i + 1 ≤ j ∧ j < i + 1 + l
          · rw [if_pos ⟨hr.1, hr.2, hc⟩, if_pos ⟨by omega, by omega, hc⟩]
          · rw [if_neg (fun h => hr ⟨h.1, h.2.1⟩), if_neg (fun h => hr ⟨by omega, by omega⟩)]
        · rw [if_neg (fun h => hc h.2.2), if_neg (fun h => hc h.2.2)]

/-- What `__Sys_Mfree_All` does for a tid below `MAX_THREADS`: every entry equal to the tid
becomes 0, every other entry is kept. -/
theorem Sys_Mfree_All_spec (Mem_CB : List Nat) (hlen : Mem_CB.length = DMEM_PAGES)
    (TID : Nat) (hT : TID < MAX_THREADS) :
    (__Sys_Mfree_All TID Mem_CB).length = DMEM_PAGES ∧
    ∀ j, (__Sys_Mfree_All TID Mem_CB).getD j 0 =
      if Mem_CB.getD j 0 = TID then 0 else Mem_CB.getD j 0 := by
  unfold __Sys_Mfree_All
  rw [if_neg (by omega)]
  obtain ⟨a, b⟩ := mfreeAllLoop_spec TID DMEM_PAGES 0 Mem_CB
  refine ⟨by rw [a, hlen], fun j => ?_⟩
  rw [b j]
  by_cases hc : Mem_CB.getD j 0 = TID
  · by_cases hj : j < DMEM_PAGES
    · rw [if_pos ⟨by omega, by omega, hc⟩, if_pos hc]
    · have h0 : Mem_CB.getD j 0 = 0 := by
        rw [List.getD_eq_default]; omega
      rw [if_neg (fun h => hj (by omega)), if_pos hc, h0]
  · rw [if_neg (fun h => hc h.2.2), if_neg hc]

/-! ## Frame lemmas of the scheduler functions -/

@[simp]
theorem Sys_Lock_Interrupt_Next (s : Kernel) :
    (Sys_Lock_Interrupt s).Next = s.Next := by
  unfold Sys_Lock_Interrupt; split <;> rfl

@[simp]
theorem Sys_Lock_Interrupt_Prev (s : Kernel) :
    (Sys_Lock_Interrupt s).Prev = s.Prev := by
  unfold Sys_Lock_Interrupt; split <;> rfl

@[simp]
theorem Sys_Lock_Interrupt_TID (s : Kernel) :
    (Sys_Lock_Interrupt s).TID = s.TID := by
  unfold Sys_Lock_Interrupt; split <;> rfl

@[simp]
theorem Sys_Lock_Interrupt_Status (s : Kernel) :
    (Sys_Lock_Interrupt s).Status = s.Status := by
  unfold Sys_Lock_Interrupt; split <;> rfl

@[simp]
theorem Sys_Lock_Interrupt_Thread_Name (s : Kernel) :
    (Sys_Lock_Interrupt s).Thread_Name = s.Thread_Name := by
  unfold Sys_Lock_Interrupt; split <;> rfl

@[simp]
theorem Sys_Lock_Interrupt_Entrance (s : Kernel) :
    (Sys_Lock_Interrupt s).Entrance = s.Entrance := by
  unfold Sys_Lock_Interrupt; split <;> rfl

@[simp]
theorem Sys_Lock_Interrupt_Signal (s : Kernel) :
    (Sys_Lock_Interrupt s).Signal = s.Signal := by
  unfold Sys_Lock_Interrupt; split <;> rfl

@[simp]
theorem Sys_Lock_Interrupt_Signal_Handler (s : Kernel) :
    (Sys_Lock_Interrupt s).Signal_Handler = s.Signal_Handler := by
  unfold Sys_Lock_Interrupt; split <;> rfl

@[simp]
theorem Sys_Lock_Interrupt_TCB_SP_Now (s : Kernel) :
    (Sys_Lock_Interrupt s).TCB_SP_Now = s.TCB_SP_Now := by
  unfold Sys_Lock_Interrupt; split <;> rfl

@[simp]
theorem Sys_Lock_Interrupt_Thread_In_Sys (s : Kernel) :
    (Sys_Lock_Interrupt s).Thread_In_Sys = s.Thread_In_Sys := by
  unfold Sys_Lock_Interrupt; split <;> rfl

@[simp]
theorem Sys_Lock_Interrupt_Current_TID (s : Kernel) :
    (Sys_Lock_Interrupt s).Current_TID = s.Current_TID := by
  unfold Sys_Lock_Interrupt; split <;> rfl

@[simp]
theorem Sys_Lock_Interrupt_SP (s : Kernel) :
    (Sys_Lock_Interrupt s).SP = s.SP := by
  unfold Sys_Lock_Interrupt; split <;> rfl

@[simp]
theorem Sys_Lock_Interrupt_idata (s : Kernel) :
    (Sys_Lock_Interrupt s).idata = s.idata := by
  unfold Sys_Lock_Interrupt; split <;> rfl

@[simp]
theorem Sys_Lock_Interrupt_Signal_Handler_Exe (s : Kernel) :
    (Sys_Lock_Interrupt s).Signal_Handler_Exe = s.Signal_Handler_Exe := by
  unfold Sys_Lock_Interrupt; split <;> rfl

@[simp]
theorem Sys_Lock_Interrupt_Mem_CB (s : Kernel) :
    (Sys_Lock_Interrupt s).Mem_CB = s.Mem_CB := by
  unfold Sys_Lock_Interrupt; split <;> rfl

@[simp]
theorem Sys_Lock_Interrupt_called (s : Kernel) :
    (Sys_Lock_Interrupt s).called = s.called := by
  unfold Sys_Lock_Interrupt; split <;> rfl

@[simp]
theorem Sys_Unlock_Interrupt_Next (s : Kernel) :
    (Sys_Unlock_Interrupt s).Next = s.Next := by
  unfold Sys_Unlock_Interrupt; split <;> [rfl; (split <;> rfl)]

@[simp]
theorem Sys_Unlock_Interrupt_Prev (s : Kernel) :
    (Sys_Unlock_Interrupt s).Prev = s.Prev := by
  unfold Sys_Unlock_Interrupt; split <;> [rfl; (split <;> rfl)]

@[simp]
theorem Sys_Unlock_Interrupt_TID (s : Kernel) :
    (Sys_Unlock_Interrupt s).TID = s.TID := by
  unfold Sys_Unlock_Interrupt; split <;> [rfl; (split <;> rfl)]

@[simp]
theorem Sys_Unlock_Interrupt_Status (s : Kernel) :
    (Sys_Unlock_Interrupt s).Status = s.Status := by
  unfold Sys_Unlock_Interrupt; split <;> [rfl; (split <;> rfl)]

@[simp]
theorem Sys_Unlock_Interrupt_Thread_Name (s : Kernel) :
    (Sys_Unlock_Interrupt s).Thread_Name = s.Thread_Name := by
  unfold Sys_Unlock_Interrupt; split <;> [rfl; (split <;> rfl)]

@[simp]
theorem Sys_Unlock_Interrupt_Entrance (s : Kernel) :
    (Sys_Unlock_Interrupt s).Entrance = s.Entrance := by
  unfold Sys_Unlock_Interrupt; split <;> [rfl; (split <;> rfl)]

@[simp]
theorem Sys_Unlock_Interrupt_Signal (s : Kernel) :
    (Sys_Unlock_Interrupt s).Signal = s.Signal := by
  unfold Sys_Unlock_Interrupt; split <;> [rfl; (split <;> rfl)]

@[simp]
theorem Sys_Unlock_Interrupt_Signal_Handler (s : Kernel) :
    (Sys_Unlock_Interrupt s).Signal_Handler = s.Signal_Handler := by
  unfold Sys_Unlock_Interrupt; split <;> [rfl; (split <;> rfl)]

@[simp]
theorem Sys_Unlock_Interrupt_TCB_SP_Now (s : Kernel) :
    (Sys_Unlock_Interrupt s).TCB_SP_Now = s.TCB_SP_Now := by
  unfold Sys_Unlock_Interrupt; split <;> [rfl; (split <;> rfl)]

@[simp]
theorem Sys_Unlock_Interrupt_Thread_In_Sys (s : Kernel) :
    (Sys_Unlock_Interrupt s).Thread_In_Sys = s.Thread_In_Sys := by
  unfold Sys_Unlock_Interrupt; split <;> [rfl; (split <;> rfl)]

@[simp]
theorem Sys_Unlock_Interrupt_Current_TID (s : Kernel) :
    (Sys_Unlock_Interrupt s).Current_TID = s.Current_TID := by
  unfold Sys_Unlock_Interrupt; split <;> [rfl; (split <;> rfl)]

@[simp]
theorem Sys_Unlock_Interrupt_SP (s : Kernel) :
    (Sys_Unlock_Interrupt s).SP = s.SP := by
  unfold Sys_Unlock_Interrupt; split <;> [rfl; (split <;> rfl)]

@[simp]
theorem Sys_Unlock_Interrupt_idata (s : Kernel) :
    (Sys_Unlock_Interrupt s).idata = s.idata := by
  unfold Sys_Unlock_Interrupt; split <;> [rfl; (split <;> rfl)]

@[simp]
theorem Sys_Unlock_Interrupt_Signal_Handler_Exe (s : Kernel) :
    (Sys_Unlock_Interrupt s).Signal_Handler_Exe = s.Signal_Handler_Exe := by
  unfold Sys_Unlock_Interrupt; split <;> [rfl; (split <;> rfl)]

@[simp]
theorem Sys_Unlock_Interrupt_Mem_CB (s : Kernel) :
    (Sys_Unlock_Interrupt s).Mem_CB = s.Mem_CB := by
  unfold Sys_Unlock_Interrupt; split <;> [rfl; (split <;> rfl)]

@[simp]
theorem Sys_Unlock_Interrupt_called (s : Kernel) :
    (Sys_Unlock_Interrupt s).called = s.called := by
  unfold Sys_Unlock_Interrupt; split <;> [rfl; (split <;> rfl)]

@[simp]
theorem dispatchOne_Interrupt_Lock_Cnt (s : Kernel) (TID sig : Nat) (n : Fin 4) :
    (dispatchOne s TID sig n).Interrupt_Lock_Cnt = s.Interrupt_Lock_Cnt := by
  unfold dispatchOne; split <;> rfl

@[simp]
theorem dispatchOne_interrupts_enabled (s : Kernel) (TID sig : Nat) (n : Fin 4) :
    (dispatchOne s TID sig n).interrupts_enabled = s.interrupts_enabled := by
  unfold dispatchOne; split <;> rfl

@[simp]
theorem dispatchOne_Next (s : Kernel) (TID sig : Nat) (n : Fin 4) :
    (dispatchOne s TID sig n).Next = s.Next := by
  unfold dispatchOne; split <;> rfl

@[simp]
theorem dispatchOne_Prev (s : Kernel) (TID sig : Nat) (n : Fin 4) :
    (dispatchOne s TID sig n).Prev = s.Prev := by
  unfold dispatchOne; split <;> rfl

@[simp]
theorem dispatchOne_TID (s : Kernel) (TID sig : Nat) (n : Fin 4) :
    (dispatchOne s TID sig n).TID = s.TID := by
  unfold dispatchOne; split <;> rfl

@[simp]
theorem dispatchOne_Status (s : Kernel) (TID sig : Nat) (n : Fin 4) :
    (dispatchOne s TID sig n).Status = s.Status := by
  unfold dispatchOne; split <;> rfl

@[simp]
theorem dispatchOne_Thread_Name (s : Kernel) (TID sig : Nat) (n : Fin 4) :
    (dispatchOne s TID sig n).Thread_Name = s.Thread_Name := by
  unfold dispatchOne; split <;> rfl

@[simp]
theorem dispatchOne_Entrance (s : Kernel) (TID sig : Nat) (n : Fin 4) :
    (dispatchOne s TID sig n).Entrance = s.Entrance := by
  unfold dispatchOne; split <;> rfl

@[simp]
theorem dispatchOne_Signal (s : Kernel) (TID sig : Nat) (n : Fin 4) :
    (dispatchOne s TID sig n).Signal = s.Signal := by
  unfold dispatchOne; split <;> rfl

@[simp]
theorem dispatchOne_Signal_Handler (s : Kernel) (TID sig : Nat) (n : Fin 4) :
    (dispatchOne s TID sig n).Signal_Handler = s.Signal_Handler := by
  unfold dispatchOne; split <;> rfl

@[simp]
theorem dispatchOne_TCB_SP_Now (s : Kernel) (TID sig : Nat) (n : Fin 4) :
    (dispatchOne s TID sig n).TCB_SP_Now = s.TCB_SP_Now := by
  unfold dispatchOne; split <;> rfl

@[simp]
theorem dispatchOne_Thread_In_Sys (s : Kernel) (TID sig : Nat) (n : Fin 4) :
    (dispatchOne s TID sig n).Thread_In_Sys = s.Thread_In_Sys := by
  unfold dispatchOne; split <;> rfl

@[simp]
theorem dispatchOne_Current_TID (s : Kernel) (TID sig : Nat) (n : Fin 4) :
    (dispatchOne s TID sig n).Current_TID = s.Current_TID := by
  unfold dispatchOne; split <;> rfl

@[simp]
theorem dispatchOne_SP (s : Kernel) (TID sig : Nat) (n : Fin 4) :
    (dispatchOne s TID sig n).SP = s.SP := by
  unfold dispatchOne; split <;> rfl

@[simp]
theorem dispatchOne_idata (s : Kernel) (TID sig : Nat) (n : Fin 4) :
    (dispatchOne s TID sig n).idata = s.idata := by
  unfold dispatchOne; split <;> rfl

@[simp]
theorem dispatchOne_Mem_CB (s : Kernel) (TID sig : Nat) (n : Fin 4) :
    (dispatchOne s TID sig n).Mem_CB = s.Mem_CB := by
  unfold dispatchOne; split <;> rfl

@[simp]
theorem Sys_Signal_Handler_Interrupt_Lock_Cnt (k : KConst) (s : Kernel) (TID : Nat) :
    (_Sys_Signal_Handler k s TID).Interrupt_Lock_Cnt = s.Interrupt_Lock_Cnt := by
  unfold _Sys_Signal_Handler; split <;> simp [setSignal]

@[simp]
theorem Sys_Signal_Handler_interrupts_enabled (k : KConst) (s : Kernel) (TID : Nat) :
    (_Sys_Signal_Handler k s TID).interrupts_enabled = s.interrupts_enabled := by
  unfold _Sys_Signal_Handler; split <;> simp [setSignal]

@[simp]
theorem Sys_Signal_Handler_Next (k : KConst) (s : Kernel) (TID : Nat) :
    (_Sys_Signal_Handler k s TID).Next = s.Next := by
  unfold _Sys_Signal_Handler; split <;> simp [setSignal]

@[simp]
theorem Sys_Signal_Handler_Prev (k : KConst) (s : Kernel) (TID : Nat) :
    (_Sys_Signal_Handler k s TID).Prev = s.Prev := by
  unfold _Sys_Signal_Handler; split <;> simp [setSignal]

@[simp]
theorem Sys_Signal_Handler_TID (k : KConst) (s : Kernel) (TID : Nat) :
    (_Sys_Signal_Handler k s TID).TID = s.TID := by
  unfold _Sys_Signal_Handler; split <;> simp [setSignal]

@[simp]
theorem Sys_Signal_Handler_Status (k : KConst) (s : Kernel) (TID : Nat) :
    (_Sys_Signal_Handler k s TID).Status = s.Status := by
  unfold _Sys_Signal_Handler; split <;> simp [setSignal]

@[simp]
theorem Sys_Signal_Handler_Thread_Name (k : KConst) (s : Kernel) (TID : Nat) :
    (_Sys_Signal_Handler k s TID).Thread_Name = s.Thread_Name := by
  unfold _Sys_Signal_Handler; split <;> simp [setSignal]

@[simp]
theorem Sys_Signal_Handler_Entrance (k : KConst) (s : Kernel) (TID : Nat) :
    (_Sys_Signal_Handler k s TID).Entrance = s.Entrance := by
  unfold _Sys_Signal_Handler; split <;> simp [setSignal]

@[simp]
theorem Sys_Signal_Handler_Signal_Handler (k : KConst) (s : Kernel) (TID : Nat) :
    (_Sys_Signal_Handler k s TID).Signal_Handler = s.Signal_Handler := by
  unfold _Sys_Signal_Handler; split <;> simp [setSignal]

@[simp]
theorem Sys_Signal_Handler_TCB_SP_Now (k : KConst) (s : Kernel) (TID : Nat) :
    (_Sys_Signal_Handler k s TID).TCB_SP_Now = s.TCB_SP_Now := by
  unfold _Sys_Signal_Handler; split <;> simp [setSignal]

@[simp]
theorem Sys_Signal_Handler_Thread_In_Sys (k : KConst) (s : Kernel) (TID : Nat) :
    (_Sys_Signal_Handler k s TID).Thread_In_Sys = s.Thread_In_Sys := by
  unfold _Sys_Signal_Handler; split <;> simp [setSignal]

@[simp]
theorem Sys_Signal_Handler_Current_TID (k : KConst) (s : Kernel) (TID : Nat) :
    (_Sys_Signal_Handler k s TID).Current_TID = s.Current_TID := by
  unfold _Sys_Signal_Handler; split <;> simp [setSignal]

@[simp]
theorem Sys_Signal_Handler_SP (k : KConst) (s : Kernel) (TID : Nat) :
    (_Sys_Signal_Handler k s TID).SP = s.SP := by
  unfold _Sys_Signal_Handler; split <;> simp [setSignal]

@[simp]
theorem Sys_Signal_Handler_idata (k : KConst) (s : Kernel) (TID : Nat) :
    (_Sys_Signal_Handler k s TID).idata = s.idata := by
  unfold _Sys_Signal_Handler; split <;> simp [setSignal]

@[simp]
theorem Sys_Signal_Handler_Mem_CB (k : KConst) (s : Kernel) (TID : Nat) :
    (_Sys_Signal_Handler k s TID).Mem_CB = s.Mem_CB := by
  unfold _Sys_Signal_Handler; split <;> simp [setSignal]

theorem SameSched_trans {s t u : Kernel} (h1 : SameSched s t) (h2 : SameSched t u) :
    SameSched s u := by
  obtain ⟨a1, b1, c1, d1⟩ := h1
  obtain ⟨a2, b2, c2, d2⟩ := h2
  exact ⟨a2.trans a1, b2.trans b1, c2.trans c1, d2.trans d1⟩

theorem castTID_congr (s t : Kernel) (h : t.TID = s.TID) (p : Ptr) :
    castTID t p = castTID s p := by
  cases p <;> simp only [castTID, h]

theorem successor_congr (k : KConst) (s t : Kernel) (h1 : t.Next = s.Next)
    (h2 : t.Status = s.Status) (h3 : t.Current_TID = s.Current_TID) :
    successor k t = successor k s := by
  simp only [successor, h1, h2, h3]

/-- A call of `Sys_Switch_Now` whose successor pointer is a TCB node with tid `t` returns,
makes `t` current and changes no link, status or tid. -/
theorem Sys_Switch_Now_of_cast (k : KConst) (s : Kernel) (t : Nat)
    (h : castTID s (successor k s) = some t) :
    ∃ s', Sys_Switch_Now k s = some s' ∧ s'.Current_TID = t ∧ SameSched s s' := by
  have e1 : successor k (SYS_SAVE_SP (Sys_Lock_Interrupt s)) = successor k s :=
    successor_congr k s _ (by simp [SYS_SAVE_SP]) (by simp [SYS_SAVE_SP]) (by simp [SYS_SAVE_SP])
  have e2 : castTID (SYS_SAVE_SP (Sys_Lock_Interrupt s)) (successor k s) = some t := by
    rw [castTID_congr s _ (by simp [SYS_SAVE_SP])]; exact h
  refine ⟨Sys_Unlock_Interrupt (SYS_LOAD_SP
    (_Sys_Signal_Handler k (setCurrent (SYS_SAVE_SP (Sys_Lock_Interrupt s)) t) t)), ?_, ?_, ?_⟩
  · unfold Sys_Switch_Now
    simp only [e1, e2]
    rfl
  · simp [SYS_LOAD_SP, setCurrent]
  · refine ⟨?_, ?_, ?_, ?_⟩ <;> simp [SYS_LOAD_SP, setCurrent, SYS_SAVE_SP]

theorem and_cEq_zero (x a b : Nat) (h : a ≠ b) : x &&& cEq a b = 0 := by
  unfold cEq
  rw [if_neg h]
  exact Nat.and_zero x

theorem or_and_self_ne (a b : Nat) (hb : b ≠ 0) : (a ||| b) &&& b ≠ 0 := by
  have : (a ||| b) &&& b = b := by
    apply Nat.eq_of_testBit_eq
    intro i
    rw [Nat.testBit_and, Nat.testBit_or]
    cases a.testBit i <;> cases b.testBit i <;> rfl
  rw [this]; exact hb

/-- What `Sys_Set_Ready` does on a thread whose status is exactly `OCCUPY`. -/
theorem Sys_Set_Ready_occupy (k : KConst) (hk : flagsDisjoint k) (s : Kernel) (TID : Nat)
    (h : s.Status TID = k.OCCUPY) :
    Sys_Set_Ready k s TID =
      (0, Sys_Unlock_Interrupt (makeReady k (Sys_Lock_Interrupt s) TID)) := by
  obtain ⟨h1, h2, h3, h4, h5, h6⟩ := hk
  have c1 : ¬ (Sys_Lock_Interrupt s).Status TID &&& cEq k.OCCUPY 0 ≠ 0 := by
    rw [and_cEq_zero _ _ _ h1]; simp
  have c2 : ¬ (Sys_Lock_Interrupt s).Status TID &&& cEq k.READY 1 ≠ 0 := by
    rw [Sys_Lock_Interrupt_Status, h]
    by_cases hr : k.READY = 1
    · simp only [cEq, hr, if_true]
      rw [← hr, h4]; simp
    · rw [and_cEq_zero _ _ _ hr]; simp
  have c3 : ¬ (Sys_Lock_Interrupt s).Status TID &&& cEq k.SLEEP 1 ≠ 0 := by
    rw [Sys_Lock_Interrupt_Status, h]
    by_cases hr : k.SLEEP = 1
    · simp only [cEq, hr, if_true]
      rw [← hr, h5]; simp
    · rw [and_cEq_zero _ _ _ hr]; simp
  unfold Sys_Set_Ready
  simp only [if_neg c1, if_neg c2, if_neg c3]

theorem Sys_Start_Thread_ok (k : KConst) (s : Kernel) (A : Thread_Init_Struct) (n t : Nat)
    (hA : A.TID = k.AUTO_PID) (hn : s.Next Ptr.emptyHead = Ptr.tcb n)
    (ht : s.TID n = t) :
    Sys_Start_Thread k s A = some ((t : Int), loadSlot k s t A) := by
  unfold Sys_Start_Thread
  rw [if_neg (not_not.2 hA), hn, if_neg (by simp)]
  simp only [castTID, ht]

/-- The boot sequence with the successful path of `Sys_Set_Ready(0)` spelled out. -/
theorem bootState_eq (k : KConst) (hk : flagsDisjoint k) (raw : Kernel) (a b c : Nat) :
    bootState k raw a b c = SYS_LOAD_SP (setCurrent (Sys_Unlock_Interrupt (makeReady k
      (Sys_Lock_Interrupt (_Sys_Thread_Load k
        (_Sys_Scheduler_Init (_Sys_Memory_Init (_Sys_Int_Init raw))) ⟨0, a, b, c⟩)) 0)) 0) := by
  unfold bootState _Sys_Load_Init
  simp only []
  rw [Sys_Set_Ready_occupy k hk _ 0 rfl]

/-- The state after boot has the scheduler picture `BootView`. -/
theorem bootState_view (k : KConst) (hk : flagsDisjoint k) (raw : Kernel) (a b c : Nat) :
    BootView k (bootState k raw a b c) := by
  rw [bootState_eq k hk]
  refine ⟨?_, ?_, ?_, ?_, ?_, ?_, ?_, ?_, ?_, ?_, ?_, ?_, ?_, ?_, ?_, ?_, ?_⟩ <;>
    simp [SYS_LOAD_SP, setCurrent, makeReady, setStatus, Sys_List_Insert_Node,
      Sys_List_Delete_Node, setNext, setPrev, _Sys_Thread_Load, loadSlot, fillTCB,
      _Sys_Thread_Stack_Init, _Sys_Scheduler_Init, schedInitLoop, zeroAllTCB, zeroTCB,
      Sys_Create_List, _Sys_Memory_Init, _Sys_Int_Init, MAX_THREADS, Function.update_apply]

/-- Scenario 1 run from a state with the picture `BootView`: the two threads get the tids 1
and 2 and the ready ring becomes head, 2, 1, 0. -/
theorem carouselSetup_view (k : KConst) (hk : flagsDisjoint k) (s : Kernel)
    (hs : BootView k s)
    (A B : Thread_Init_Struct) (hA : A.TID = k.AUTO_PID) (hB : B.TID = k.AUTO_PID) :
    ∃ s0, carouselSetup k s A B = some (1, 2, s0) ∧ Carousel k s0 ∧
      s0.Current_TID = 0 ∧ IsRing s0 Ptr.readyHead [2, 1, 0] := by
  obtain ⟨f1, f2, f3, f4, f5, f6, f7, f8, f9, f10, f11, f12, f13, f14, f15, f16, f17⟩ := hs
  unfold carouselSetup
  rw [Sys_Start_Thread_ok k s A 1 1 hA f5 f12]
  simp only []
  rw [Sys_Start_Thread_ok k _ B 2 2 hB
    (by simp [loadSlot, fillTCB, _Sys_Thread_Stack_Init, Sys_List_Delete_Node, setNext, setPrev,
          Function.update_apply, f7, f8])
    (by simp [loadSlot, fillTCB, _Sys_Thread_Stack_Init, Sys_List_Delete_Node, setNext, setPrev,
          Function.update_apply, f13])]
  simp only []
  rw [Sys_Set_Ready_occupy k hk _ 1
    (by simp [loadSlot, fillTCB, _Sys_Thread_Stack_Init, Sys_List_Delete_Node, setNext, setPrev,
          Function.update_apply])]
  simp only []
  rw [Sys_Set_Ready_occupy k hk _ 2
    (by simp [loadSlot, fillTCB, _Sys_Thread_Stack_Init, Sys_List_Delete_Node, setNext, setPrev,
          makeReady, setStatus, Sys_List_Insert_Node, Function.update_apply])]
  have hr := or_and_self_ne k.OCCUPY k.READY hk.2.1
  refine ⟨_, rfl, ⟨?_, ?_, ?_, ?_, ?_, ?_, ?_, ?_, ?_, ?_⟩, ?_, ⟨⟨?_, ?_, ?_, ?_, ?_, ?_, ?_, ?_⟩, by decide⟩⟩ <;>
    simp [loadSlot, fillTCB, _Sys_Thread_Stack_Init, Sys_List_Delete_Node, setNext, setPrev,
          makeReady, setStatus, Sys_List_Insert_Node, Function.update_apply, f1, f2, f3, f4, f5, f6, f7, f8, f9, f10, f11, f12, f13, f14, f15, f16, f17, hr]

theorem Carousel_of_SameSched (k : KConst) (s t : Kernel) (h : Carousel k s)
    (hst : SameSched s t) : Carousel k t := by
  obtain ⟨a, _, c, d⟩ := hst
  unfold Carousel
  rw [a, c, d]
  exact h

/-- One call of `Sys_Switch_Now` on the carousel head, 2, 1, 0: thread 0 yields to 2, thread
2 yields to 1, thread 1 yields to 0. -/
theorem Carousel_step (k : KConst) (s : Kernel) (h : Carousel k s) :
    (s.Current_TID = 0 →
      ∃ s', Sys_Switch_Now k s = some s' ∧ Carousel k s' ∧ s'.Current_TID = 2) ∧
    (s.Current_TID = 2 →
      ∃ s', Sys_Switch_Now k s = some s' ∧ Carousel k s' ∧ s'.Current_TID = 1) ∧
    (s.Current_TID = 1 →
      ∃ s', Sys_Switch_Now k s = some s' ∧ Carousel k s' ∧ s'.Current_TID = 0) := by
  obtain ⟨f1, f2, f3, f4, f5, f6, f7, f8, f9, f10⟩ := h
  have hc : Carousel k s := ⟨f1, f2, f3, f4, f5, f6, f7, f8, f9, f10⟩
  refine ⟨?_, ?_, ?_⟩
  · intro h0
    have hcast : castTID s (successor k s) = some 2 := by
      simp [successor, castTID, h0, f1, f4, f7, f8]
    obtain ⟨s', e1, e2, e3⟩ := Sys_Switch_Now_of_cast k s 2 hcast
    exact ⟨s', e1, Carousel_of_SameSched k s s' hc e3, e2⟩
  · intro h0
    have hcast : castTID s (successor k s) = some 1 := by
      simp [successor, castTID, h0, f2, f6, f10]
    obtain ⟨s', e1, e2, e3⟩ := Sys_Switch_Now_of_cast k s 1 hcast
    exact ⟨s', e1, Carousel_of_SameSched k s s' hc e3, e2⟩
  · intro h0
    have hcast : castTID s (successor k s) = some 0 := by
      simp [successor, castTID, h0, f3, f5, f9]
    obtain ⟨s', e1, e2, e3⟩ := Sys_Switch_Now_of_cast k s 0 hcast
    exact ⟨s', e1, Carousel_of_SameSched k s s' hc e3, e2⟩

/-- The thread that is current after `n` calls of `Sys_Switch_Now` on the carousel
head, 2, 1, 0, for each of the three threads that can be current at the start. -/
theorem Carousel_switchN (k : KConst) :
    ∀ (n : Nat) (s : Kernel), Carousel k s →
      (s.Current_TID = 0 →
        ∃ s', switchN k n s = some s' ∧ s'.Current_TID = [0, 2, 1].getD (n % 3) 0) ∧
      (s.Current_TID = 2 →
        ∃ s', switchN k n s = some s' ∧ s'.Current_TID = [0, 2, 1].getD ((n + 1) % 3) 0) ∧
      (s.Current_TID = 1 →
        ∃ s', switchN k n s = some s' ∧ s'.Current_TID = [0, 2, 1].getD ((n + 2) % 3) 0) := by
  intro n
  induction n with
  | zero =>
    intro s _
    refine ⟨?_, ?_, ?_⟩ <;> intro h0 <;> exact ⟨s, rfl, by simp [h0]⟩
  | succ n ih =>
    intro s hs
    obtain ⟨st0, st2, st1⟩ := Carousel_step k s hs
    refine ⟨?_, ?_, ?_⟩
    · intro h0
      obtain ⟨s', e1, e2, e3⟩ := st0 h0
      obtain ⟨u, u1, u2⟩ := (ih s' e2).2.1 e3
      exact ⟨u, by simp only [switchN, e1]; exact u1, u2⟩
    · intro h0
      obtain ⟨s', e1, e2, e3⟩ := st2 h0
      obtain ⟨u, u1, u2⟩ := (ih s' e2).2.2 e3
      exact ⟨u, by simp only [switchN, e1]; exact u1, u2⟩
    · intro h0
      obtain ⟨s', e1, e2, e3⟩ := st1 h0
      obtain ⟨u, u1, u2⟩ := (ih s' e2).1 e3
      refine ⟨u, by simp only [switchN, e1]; exact u1, ?_⟩
      have e : (n + 1 + 2) % 3 = n % 3 := by omega
      rw [e]; exact u2

theorem ringFrom_next_mem (s : Kernel) (h : Ptr) :
    ∀ (l : List Nat) (p : Ptr) (c : Nat), ringFrom s h p l → c ∈ l →
      s.Next (Ptr.tcb c) = h ∨ ∃ j, j ∈ l ∧ s.Next (Ptr.tcb c) = Ptr.tcb j := by
  intro l
  induction l with
  | nil => intro p c _ hc; simp at hc
  | cons i l ih =>
    intro p c hr hc
    obtain ⟨_, _, h3⟩ := hr
    rcases List.mem_cons.1 hc with rfl | hc'
    · cases l with
      | nil => exact Or.inl h3.1
      | cons j l' => exact Or.inr ⟨j, by simp, h3.1⟩
    · rcases ih (Ptr.tcb i) c h3 hc' with h4 | ⟨j, hj, h4⟩
      · exact Or.inl h4
      · exact Or.inr ⟨j, List.mem_cons_of_mem _ hj, h4⟩

theorem ring_head_next (s : Kernel) (h : Ptr) (l : List Nat) (hr : IsRing s h l)
    (hne : l ≠ []) : ∃ i, i ∈ l ∧ s.Next h = Ptr.tcb i := by
  cases l with
  | nil => exact absurd rfl hne
  | cons i l' => exact ⟨i, by simp, hr.1.1⟩

/-- On a slot whose status word is 0 (a free slot) none of the three tests of `Sys_Set_Ready`
fires, whatever the constants are: the call returns 0, sets `READY` and puts the node after
the ready list head. -/
theorem Sys_Set_Ready_free_slot (k : KConst) (s : Kernel) (TID : Nat)
    (h : s.Status TID = 0) :
    Sys_Set_Ready k s TID =
      (0, Sys_Unlock_Interrupt (makeReady k (Sys_Lock_Interrupt s) TID)) := by
  unfold Sys_Set_Ready
  simp [h]

/-- The test `Status&OCCUPY==0` of `Sys_Send_Signal` never fires when `OCCUPY` is not 0: a
user signal sent to a valid tid is accepted whatever the status of the slot is. -/
theorem Sys_Send_Signal_usr1_any_status (k : KConst) (hO : k.OCCUPY ≠ 0) (s : Kernel)
    (TID : Nat) (h0 : TID ≠ 0) (hT : TID < MAX_THREADS) (h1 : k.SIGUSR1 ≠ k.SIGKILL)
    (h2 : k.SIGUSR1 ≠ k.SIGSLEEP) (h3 : k.SIGUSR1 ≠ k.SIGWAKE) :
    Sys_Send_Signal k s TID k.SIGUSR1 =
      (0, setSignal s TID (s.Signal TID ||| k.SIGUSR1)) := by
  unfold Sys_Send_Signal
  have c0 : ¬ (TID = 0 ∨ TID ≥ MAX_THREADS) := by omega
  have c1 : ¬ s.Status TID &&& cEq k.OCCUPY 0 ≠ 0 := by
    rw [and_cEq_zero _ _ _ hO]; simp
  rw [if_neg c0, if_neg c1, if_neg h1, if_neg h2, if_neg h3, if_pos rfl]

/-! ## Lemmas on rings -/

theorem ringFrom_congr (s t : Kernel) (h : Ptr) :
    ∀ (l : List Nat) (p : Ptr), ringFrom s h p l →
      t.Next p = s.Next p → (∀ i, i ∈ l → t.Next (Ptr.tcb i) = s.Next (Ptr.tcb i)) →
      t.Prev h = s.Prev h → (∀ i, i ∈ l → t.Prev (Ptr.tcb i) = s.Prev (Ptr.tcb i)) →
      ringFrom t h p l := by
  intro l
  induction l with
  | nil =>
    intro p hr h1 _ h3 _
    exact ⟨h1.trans hr.1, h3.trans hr.2⟩
  | cons i l ih =>
    intro p hr h1 h2 h3 h4
    obtain ⟨a, b, c⟩ := hr
    refine ⟨h1.trans a, (h4 i (by simp)).trans b, ?_⟩
    exact ih (Ptr.tcb i) c (h2 i (by simp)) (fun j hj => h2 j (List.mem_cons_of_mem _ hj)) h3
      (fun j hj => h4 j (List.mem_cons_of_mem _ hj))

theorem ringFrom_of_maps (s t : Kernel) (h p : Ptr) (l : List Nat) (hN : t.Next = s.Next)
    (hP : t.Prev = s.Prev) (hr : ringFrom s h p l) : ringFrom t h p l :=
  ringFrom_congr s t h l p hr (by rw [hN]) (fun _ _ => by rw [hN]) (by rw [hP])
    (fun _ _ => by rw [hP])

theorem ringFrom_prev_mem (s : Kernel) (h : Ptr) :
    ∀ (l : List Nat) (p : Ptr) (c : Nat), ringFrom s h p l → c ∈ l →
      s.Prev (Ptr.tcb c) = p ∨ ∃ j, j ∈ l ∧ s.Prev (Ptr.tcb c) = Ptr.tcb j := by
  intro l
  induction l with
  | nil => intro p c _ hc; simp at hc
  | cons i l ih =>
    intro p c hr hc
    obtain ⟨_, h2, h3⟩ := hr
    rcases List.mem_cons.1 hc with rfl | hc'
    · exact Or.inl h2
    · rcases ih (Ptr.tcb i) c h3 hc' with h4 | ⟨j, hj, h4⟩
      · exact Or.inr ⟨i, by simp, h4⟩
      · exact Or.inr ⟨j, List.mem_cons_of_mem _ hj, h4⟩

/-- Two rings with different heads have no TCB node in common. -/
theorem ringFrom_disjoint (s : Kernel) (h1 h2 : Ptr) (e : List Nat)
    (hh2 : ∀ j, h2 ≠ Ptr.tcb j) (he : ringFrom s h2 h2 e) :
    ∀ (l : List Nat) (p : Ptr), ringFrom s h1 p l → p ≠ h2 → (∀ j, j ∈ e → p ≠ Ptr.tcb j) →
      ∀ i, i ∈ l → i ∉ e := by
  intro l
  induction l with
  | nil => intro p _ _ _ i hi; simp at hi
  | cons a l ih =>
    intro p hr hp1 hp2 i hi
    obtain ⟨_, hb, hc⟩ := hr
    have ha : a ∉ e := by
      intro hae
      rcases ringFrom_prev_mem s h2 e h2 a he hae with h | ⟨j, hj, h⟩
      · exact hp1 (hb.symm.trans h)
      · exact hp2 j hj (hb.symm.trans h)
    rcases List.mem_cons.1 hi with rfl | hi'
    · exact ha
    · refine ih (Ptr.tcb a) hc (fun h => hh2 a h.symm) ?_ i hi'
      intro j hj h
      have : a = j := by injection h
      exact ha (this ▸ hj)

theorem rings_disjoint (s : Kernel) (l e : List Nat) (hl : IsRing s Ptr.readyHead l)
    (he : IsRing s Ptr.emptyHead e) : (∀ i, i ∈ l → i ∉ e) ∧ (∀ i, i ∈ e → i ∉ l) := by
  have h1 := ringFrom_disjoint s Ptr.readyHead Ptr.emptyHead e (by intro j h; cases h) he.1 l
    Ptr.readyHead hl.1 (by intro h; cases h) (by intro j _ h; cases h)
  exact ⟨h1, fun i hi hil => h1 i hil hi⟩

/-- Unlinking the node `t` of a ring: the ring keeps its other nodes in their order. -/
theorem ringFrom_delete (s : Kernel) (h : Ptr) (t : Nat) (hh : ∀ j, h ≠ Ptr.tcb j) :
    ∀ (l : List Nat) (p : Ptr), ringFrom s h p l → l.Nodup → t ∈ l →
      (∀ i, i ∈ l → p ≠ Ptr.tcb i) →
      ringFrom (Sys_List_Delete_Node s (s.Prev (Ptr.tcb t)) (s.Next (Ptr.tcb t))) h p
        (l.erase t) := by
  have eN : (Sys_List_Delete_Node s (s.Prev (Ptr.tcb t)) (s.Next (Ptr.tcb t))).Next =
      Function.update s.Next (s.Prev (Ptr.tcb t)) (s.Next (Ptr.tcb t)) := rfl
  have eP : (Sys_List_Delete_Node s (s.Prev (Ptr.tcb t)) (s.Next (Ptr.tcb t))).Prev =
      Function.update s.Prev (s.Next (Ptr.tcb t)) (s.Prev (Ptr.tcb t)) := rfl
  intro l
  induction l with
  | nil => intro p _ _ ht; simp at ht
  | cons i l ih =>
    intro p hr hnd ht hp
    obtain ⟨ha, hb, hc⟩ := hr
    have hil : i ∉ l := (List.nodup_cons.1 hnd).1
    have hndl : l.Nodup := (List.nodup_cons.1 hnd).2
    by_cases hit : i = t
    · subst hit
      rw [List.erase_cons_head]
      cases l with
      | nil =>
        obtain ⟨c1, c2⟩ := hc
        refine ⟨?_, ?_⟩
        · rw [eN, hb, c1]; simp
        · rw [eP, hb, c1]; simp
      | cons j l' =>
        obtain ⟨c1, c2, c3⟩ := hc
        have hpj : p ≠ Ptr.tcb j := hp j (by simp)
        have hjl : j ∉ l' := (List.nodup_cons.1 hndl).1
        refine ⟨?_, ?_, ?_⟩
        · rw [eN, hb, c1]; simp
        · rw [eP, hb, c1]; simp
        · refine ringFrom_congr s _ h l' (Ptr.tcb j) c3 ?_ ?_ ?_ ?_
          · rw [eN, hb, Function.update_noteq (Ne.symm hpj)]
          · intro a ha'
            rw [eN, hb, Function.update_noteq]
            exact Ne.symm (hp a (by simp [ha']))
          · rw [eP, c1, Function.update_noteq (hh j)]
          · intro a ha'
            rw [eP, c1, Function.update_noteq]
            intro hcon
            have : a = j := by injection hcon
            exact hjl (this ▸ ha')
    · have htl : t ∈ l := by
        rcases List.mem_cons.1 ht with h' | h'
        · exact absurd h'.symm hit
        · exact h'
      have e1 : (i :: l).erase t = i :: l.erase t := by
        rw [List.erase_cons_tail]
        simpa using hit
      rw [e1]
      have hP : s.Prev (Ptr.tcb t) ≠ p := by
        rcases ringFrom_prev_mem s h l (Ptr.tcb i) t hc htl with h' | ⟨j, hj, h'⟩
        · rw [h']; exact Ne.symm (hp i (by simp))
        · rw [h']; exact Ne.symm (hp j (by simp [hj]))
      have hN : s.Next (Ptr.tcb t) ≠ Ptr.tcb i := by
        rcases ringFrom_next_mem s h l (Ptr.tcb i) t hc htl with h' | ⟨j, hj, h'⟩
        · rw [h']; exact hh i
        · rw [h']
          intro hcon
          have : j = i := by injection hcon
          exact hil (this ▸ hj)
      refine ⟨?_, ?_, ?_⟩
      · rw [eN, Function.update_noteq (Ne.symm hP)]; exact ha
      · rw [eP, Function.update_noteq (Ne.symm hN)]; exact hb
      · refine ih (Ptr.tcb i) hc hndl htl ?_
        intro a ha' hcon
        have : i = a := by injection hcon
        exact hil (this ▸ ha')

/-- Unlinking a node of one ring leaves a ring with another head as it is. -/
theorem ringFrom_delete_other (s : Kernel) (h1 h2 : Ptr) (t : Nat) (l e : List Nat)
    (hh1 : ∀ j, h1 ≠ Ptr.tcb j) (hh2 : ∀ j, h2 ≠ Ptr.tcb j) (h12 : h1 ≠ h2)
    (hl : ringFrom s h1 h1 l) (htl : t ∈ l) (he : ringFrom s h2 h2 e)
    (hdis : ∀ i, i ∈ l → i ∉ e) :
    ringFrom (Sys_List_Delete_Node s (s.Prev (Ptr.tcb t)) (s.Next (Ptr.tcb t))) h2 h2 e := by
  have eN : (Sys_List_Delete_Node s (s.Prev (Ptr.tcb t)) (s.Next (Ptr.tcb t))).Next =
      Function.update s.Next (s.Prev (Ptr.tcb t)) (s.Next (Ptr.tcb t)) := rfl
  have eP : (Sys_List_Delete_Node s (s.Prev (Ptr.tcb t)) (s.Next (Ptr.tcb t))).Prev =
      Function.update s.Prev (s.Next (Ptr.tcb t)) (s.Prev (Ptr.tcb t)) := rfl
  have hP : s.Prev (Ptr.tcb t) = h1 ∨ ∃ j, j ∈ l ∧ s.Prev (Ptr.tcb t) = Ptr.tcb j :=
    ringFrom_prev_mem s h1 l h1 t hl htl
  have hN : s.Next (Ptr.tcb t) = h1 ∨ ∃ j, j ∈ l ∧ s.Next (Ptr.tcb t) = Ptr.tcb j :=
    ringFrom_next_mem s h1 l h1 t hl htl
  have key : ∀ q, (q = h1 ∨ ∃ j, j ∈ l ∧ q = Ptr.tcb j) →
      q ≠ h2 ∧ ∀ a, a ∈ e → q ≠ Ptr.tcb a := by
    intro q hq
    rcases hq with rfl | ⟨j, hj, rfl⟩
    · exact ⟨h12, fun a _ => hh1 a⟩
    · refine ⟨fun hc => hh2 j hc.symm, fun a ha hc => ?_⟩
      have : j = a := by injection hc
      exact hdis j hj (this ▸ ha)
  obtain ⟨p1, p2⟩ := key _ hP
  obtain ⟨n1, n2⟩ := key _ hN
  refine ringFrom_congr s _ h2 e h2 he ?_ ?_ ?_ ?_
  · rw [eN, Function.update_noteq (Ne.symm p1)]
  · intro a ha
    rw [eN, Function.update_noteq (Ne.symm (p2 a ha))]
  · rw [eP, Function.update_noteq (Ne.symm n1)]
  · intro a ha
    rw [eP, Function.update_noteq (Ne.symm (n2 a ha))]

/-- Linking the node `t` right after the head of a ring it is not on. -/
theorem ringFrom_insert_front (s : Kernel) (h : Ptr) (t : Nat) (e : List Nat)
    (hh : ∀ j, h ≠ Ptr.tcb j) (he : ringFrom s h h e) (hnd : e.Nodup) (ht : t ∉ e) :
    ringFrom (Sys_List_Insert_Node s (Ptr.tcb t) h (s.Next h)) h h (t :: e) := by
  have eN : (Sys_List_Insert_Node s (Ptr.tcb t) h (s.Next h)).Next =
      Function.update (Function.update s.Next (Ptr.tcb t) (s.Next h)) h (Ptr.tcb t) := rfl
  have eP : (Sys_List_Insert_Node s (Ptr.tcb t) h (s.Next h)).Prev =
      Function.update (Function.update s.Prev (s.Next h) (Ptr.tcb t)) (Ptr.tcb t) h := rfl
  refine ⟨?_, ?_, ?_⟩
  · rw [eN]; simp
  · rw [eP]; simp
  · cases e with
    | nil =>
      obtain ⟨c1, c2⟩ := he
      refine ⟨?_, ?_⟩
      · rw [eN, Function.update_noteq (Ne.symm (hh t)), Function.update_same, c1]
      · rw [eP, c1, Function.update_noteq (hh t), Function.update_same]
    | cons j e' =>
      obtain ⟨c1, c2, c3⟩ := he
      have hjt : j ≠ t := fun hc => ht (by simp [hc])
      have hje : j ∉ e' := (List.nodup_cons.1 hnd).1
      have hne : Ptr.tcb j ≠ Ptr.tcb t := fun hc => hjt (by injection hc)
      refine ⟨?_, ?_, ?_⟩
      · rw [eN, Function.update_noteq (Ne.symm (hh t)), Function.update_same, c1]
      · rw [eP, c1, Function.update_noteq hne, Function.update_same]
      · refine ringFrom_congr s _ h e' (Ptr.tcb j) c3 ?_ ?_ ?_ ?_
        · rw [eN, Function.update_noteq (Ne.symm (hh j)), Function.update_noteq hne]
        · intro a ha
          have hat : Ptr.tcb a ≠ Ptr.tcb t := fun hc => ht (by
            have : a = t := by injection hc
            simp [← this, ha])
          rw [eN, Function.update_noteq (Ne.symm (hh a)), Function.update_noteq hat]
        · rw [eP, c1, Function.update_noteq (hh t), Function.update_noteq (hh j)]
        · intro a ha
          have hat : Ptr.tcb a ≠ Ptr.tcb t := fun hc => ht (by
            have : a = t := by injection hc
            simp [← this, ha])
          have haj : Ptr.tcb a ≠ Ptr.tcb j := fun hc => hje (by
            have : a = j := by injection hc
            exact this ▸ ha)
          rw [eP, c1, Function.update_noteq hat, Function.update_noteq haj]

/-- Linking a node after the head of one ring leaves a ring with another head, on which the
node is not, as it is. -/
theorem ringFrom_insert_other (s : Kernel) (h h2 : Ptr) (t : Nat) (e l : List Nat)
    (hh : ∀ j, h ≠ Ptr.tcb j) (hh2 : ∀ j, h2 ≠ Ptr.tcb j) (h12 : h ≠ h2)
    (he : ringFrom s h h e) (hl : ringFrom s h2 h2 l) (htl : t ∉ l)
    (hdis : ∀ i, i ∈ e → i ∉ l) :
    ringFrom (Sys_List_Insert_Node s (Ptr.tcb t) h (s.Next h)) h2 h2 l := by
  have eN : (Sys_List_Insert_Node s (Ptr.tcb t) h (s.Next h)).Next =
      Function.update (Function.update s.Next (Ptr.tcb t) (s.Next h)) h (Ptr.tcb t) := rfl
  have eP : (Sys_List_Insert_Node s (Ptr.tcb t) h (s.Next h)).Prev =
      Function.update (Function.update s.Prev (s.Next h) (Ptr.tcb t)) (Ptr.tcb t) h := rfl
  have hN : s.Next h ≠ h2 ∧ ∀ a, a ∈ l → s.Next h ≠ Ptr.tcb a := by
    cases e with
    | nil => rw [he.1]; exact ⟨h12, fun a _ => hh a⟩
    | cons j e' =>
      rw [he.1]
      refine ⟨fun hc => hh2 j hc.symm, fun a ha hc => ?_⟩
      have : j = a := by injection hc
      exact hdis j (by simp) (this ▸ ha)
  have ht2 : ∀ a, a ∈ l → Ptr.tcb a ≠ Ptr.tcb t := by
    intro a ha hc
    have : a = t := by injection hc
    exact htl (this ▸ ha)
  refine ringFrom_congr s _ h2 l h2 hl ?_ ?_ ?_ ?_
  · rw [eN, Function.update_noteq (Ne.symm h12), Function.update_noteq (hh2 t)]
  · intro a ha
    rw [eN, Function.update_noteq (Ne.symm (hh a)), Function.update_noteq (ht2 a ha)]
  · rw [eP, Function.update_noteq (hh2 t), Function.update_noteq (Ne.symm hN.1)]
  · intro a ha
    rw [eP, Function.update_noteq (ht2 a ha), Function.update_noteq (Ne.symm (hN.2 a ha))]

theorem readyHead_ne_tcb (j : Nat) : Ptr.readyHead ≠ Ptr.tcb j := by intro h; cases h

theorem emptyHead_ne_tcb (j : Nat) : Ptr.emptyHead ≠ Ptr.tcb j := by intro h; cases h

/-- The rings after `_Sys_Thread_Kill` of a node of the ready ring: the node leaves the ready
ring and becomes the first node of the empty ring. -/
theorem Sys_Thread_Kill_rings (s : Kernel) (t : Nat) (l e : List Nat)
    (hl : IsRing s Ptr.readyHead l) (he : IsRing s Ptr.emptyHead e) (ht : t ∈ l) :
    IsRing (_Sys_Thread_Kill s t) Ptr.readyHead (l.erase t) ∧
    IsRing (_Sys_Thread_Kill s t) Ptr.emptyHead (t :: e) := by
  obtain ⟨d1, d2⟩ := rings_disjoint s l e hl he
  have hte : t ∉ e := d1 t ht
  have htl : t ∉ l.erase t := List.Nodup.not_mem_erase hl.2
  have hsub : ∀ i, i ∈ l.erase t → i ∈ l := fun i hi => List.mem_of_mem_erase hi
  have r1 := ringFrom_delete s Ptr.readyHead t readyHead_ne_tcb l Ptr.readyHead hl.1 hl.2 ht
    (fun i _ => readyHead_ne_tcb i)
  have e1 := ringFrom_delete_other s Ptr.readyHead Ptr.emptyHead t l e readyHead_ne_tcb
    emptyHead_ne_tcb (by intro h; cases h) hl.1 ht he.1 d1
  have r2 : ringFrom (zeroTCB (Sys_List_Delete_Node s (s.Prev (Ptr.tcb t))
      (s.Next (Ptr.tcb t))) t) Ptr.readyHead Ptr.readyHead (l.erase t) := by
    refine ringFrom_congr _ _ _ _ _ r1 ?_ ?_ ?_ ?_
    · simp [zeroTCB]
    · intro i hi
      have : i ≠ t := fun hc => htl (hc ▸ hi)
      simp [zeroTCB, Function.update_apply, this]
    · simp [zeroTCB]
    · intro i hi
      have : i ≠ t := fun hc => htl (hc ▸ hi)
      simp [zeroTCB, Function.update_apply, this]
  have e2 : ringFrom (zeroTCB (Sys_List_Delete_Node s (s.Prev (Ptr.tcb t))
      (s.Next (Ptr.tcb t))) t) Ptr.emptyHead Ptr.emptyHead e := by
    refine ringFrom_congr _ _ _ _ _ e1 ?_ ?_ ?_ ?_
    · simp [zeroTCB]
    · intro i hi
      have : i ≠ t := fun hc => hte (hc ▸ hi)
      simp [zeroTCB, Function.update_apply, this]
    · simp [zeroTCB]
    · intro i hi
      have : i ≠ t := fun hc => hte (hc ▸ hi)
      simp [zeroTCB, Function.update_apply, this]
  have e3 := ringFrom_insert_front _ Ptr.emptyHead t e emptyHead_ne_tcb e2 he.2 hte
  have r3 := ringFrom_insert_other _ Ptr.emptyHead Ptr.readyHead t e (l.erase t)
    emptyHead_ne_tcb readyHead_ne_tcb (by intro h; cases h) e2 r2 htl
    (fun i hi hc => d2 i hi (hsub i hc))
  refine ⟨⟨?_, List.Nodup.erase t hl.2⟩, ⟨?_, List.nodup_cons.2 ⟨hte, he.2⟩⟩⟩
  · refine ringFrom_of_maps _ _ _ _ _ ?_ ?_ r3 <;> rfl
  · refine ringFrom_of_maps _ _ _ _ _ ?_ ?_ e3 <;> rfl

/-! ## Lemmas on the signal functions -/

theorem occupy_ne_zero_of_and (k : KConst) (x : Nat) (h : x &&& k.OCCUPY ≠ 0) :
    k.OCCUPY ≠ 0 := by
  intro h0
  rw [h0] at h
  exact h (Nat.and_zero x)

/-- With `OCCUPY` not 0 the guard `Status&OCCUPY==0` of `Sys_Send_Signal` does not fire: for
a tid in `(0, MAX_THREADS)` the call goes on to the `switch`. -/
theorem Sys_Send_Signal_kill_eq (k : KConst) (hO : k.OCCUPY ≠ 0) (s : Kernel) (TID : Nat)
    (h0 : 0 < TID) (hT : TID < MAX_THREADS) :
    Sys_Send_Signal k s TID k.SIGKILL = (0, _Sys_Thread_Kill s TID) := by
  unfold Sys_Send_Signal
  have c0 : ¬ (TID = 0 ∨ TID ≥ MAX_THREADS) := by omega
  have c1 : ¬ s.Status TID &&& cEq k.OCCUPY 0 ≠ 0 := by
    rw [and_cEq_zero _ _ _ hO]; simp
  rw [if_neg c0, if_neg c1, if_pos rfl]

/-- No signal makes `Sys_Send_Signal` write the page table. -/
theorem Sys_Send_Signal_Mem_CB (k : KConst) (s : Kernel) (TID sig : Nat) :
    (Sys_Send_Signal k s TID sig).2.Mem_CB = s.Mem_CB := by
  unfold Sys_Send_Signal
  split_ifs <;>
    simp [_Sys_Thread_Kill, _Sys_Thread_Sleep, _Sys_Thread_Wake, makeReady, zeroTCB, setStatus,
      setSignal, Sys_List_Insert_Node, Sys_List_Delete_Node, setNext, setPrev] <;>
    split_ifs <;> rfl

theorem cNe_of_ne (a b : Nat) (h : a ≠ b) : cNe a b = 1 := by
  unfold cNe; rw [if_neg h]

/-- The guard of `_Sys_Thread_Sleep` tests bit 0 of the status word: when that bit is set
(and `SLEEP` is not 0) the function returns at once. -/
theorem Sys_Thread_Sleep_bit0 (k : KConst) (hS : k.SLEEP ≠ 0) (s : Kernel) (TID : Nat)
    (h : s.Status TID &&& 1 ≠ 0) : _Sys_Thread_Sleep k s TID = s := by
  unfold _Sys_Thread_Sleep
  rw [cNe_of_ne _ _ hS, if_pos h]

/-- The guard of `_Sys_Thread_Wake` never fires when `SLEEP` is not 0: the thread is given
`READY` and its node is linked after the ready list head, whatever its status is. -/
theorem Sys_Thread_Wake_always (k : KConst) (hS : k.SLEEP ≠ 0) (s : Kernel) (TID : Nat) :
    _Sys_Thread_Wake k s TID =
      makeReady k (setStatus s TID (clearBits (s.Status TID) k.SLEEP)) TID := by
  unfold _Sys_Thread_Wake
  have c : ¬ s.Status TID &&& cEq k.SLEEP 0 ≠ 0 := by
    rw [and_cEq_zero _ _ _ hS]; simp
  rw [if_neg c]

/-- With `OCCUPY` not 0 the guard `Status&OCCUPY==0` of `Sys_Reg_Signal_Handler` does not
fire: a handler for `SIGUSR1` is stored for every tid in `(0, MAX_THREADS)`, whatever the
status of the slot is. -/
theorem Sys_Reg_Signal_Handler_usr1_any_status (k : KConst) (hO : k.OCCUPY ≠ 0) (s : Kernel)
    (TID f : Nat) (h0 : TID ≠ 0) (hT : TID < MAX_THREADS) :
    Sys_Reg_Signal_Handler k s TID k.SIGUSR1 f = (0, setHandler s TID 0 f) := by
  unfold Sys_Reg_Signal_Handler
  have c0 : ¬ (TID = 0 ∨ TID ≥ MAX_THREADS) := by omega
  have c1 : ¬ s.Status TID &&& cEq k.OCCUPY 0 ≠ 0 := by
    rw [and_cEq_zero _ _ _ hO]; simp
  rw [if_neg c0, if_neg c1, if_pos rfl]

/-- What `_Sys_Signal_Handler` does: the handlers listed by `pendingHandlers` are called in
this order, and the pending mask of the thread ends as `NOSIG` when it was not 0 on entry
(when it was 0 the function returns at once and the mask stays 0). -/
theorem Sys_Signal_Handler_spec (k : KConst) (s : Kernel) (TID : Nat) :
    (_Sys_Signal_Handler k s TID).called = s.called ++ pendingHandlers k s TID ∧
    (_Sys_Signal_Handler k s TID).Signal TID = (if s.Signal TID = 0 then 0 else k.NOSIG) ∧
    ∀ i, i ≠ TID → (_Sys_Signal_Handler k s TID).Signal i = s.Signal i := by
  unfold _Sys_Signal_Handler
  by_cases h : s.Signal TID = 0
  · rw [if_pos h]
    refine ⟨?_, ?_, fun _ _ => rfl⟩
    · simp [pendingHandlers, pendingOne, h]
    · simp [h]
  · rw [if_neg h]
    refine ⟨?_, ?_, ?_⟩
    · simp only [setSignal, dispatchOne, pendingHandlers, pendingOne]
      split_ifs <;> simp_all [callHandler]
    · simp [setSignal, h]
    · intro i hi
      simp [setSignal, Function.update_noteq hi]

/-- With `OCCUPY` not 0 and distinct signal numbers, a user signal sent to a tid in
`(0, MAX_THREADS)` is OR-ed into `TCB[tid].Signal` and the call returns 0. -/
theorem Sys_Send_Signal_user (k : KConst) (hO : k.OCCUPY ≠ 0) (hd : signalsDistinct k)
    (s : Kernel) (TID sig : Nat) (h0 : 0 < TID) (hT : TID < MAX_THREADS)
    (hsig : sig = k.SIGUSR1 ∨ sig = k.SIGUSR2 ∨ sig = k.SIGUSR3 ∨ sig = k.SIGUSR4) :
    Sys_Send_Signal k s TID sig = (0, setSignal s TID (s.Signal TID ||| sig)) := by
  have c0 : ¬ (TID = 0 ∨ TID ≥ MAX_THREADS) := by omega
  have c1 : ¬ s.Status TID &&& cEq k.OCCUPY 0 ≠ 0 := by
    rw [and_cEq_zero _ _ _ hO]; simp
  simp only [signalsDistinct, List.nodup_cons, List.mem_cons, List.mem_singleton, not_or,
    List.not_mem_nil, not_false_eq_true, List.nodup_nil, and_true] at hd
  obtain ⟨⟨a1, a2, a3, a4, a5, a6⟩, ⟨b1, b2, b3, b4, b5⟩, ⟨d1, d2, d3, d4⟩, ⟨e1, e2, e3⟩,
    ⟨f1, f2⟩, g1⟩ := hd
  unfold Sys_Send_Signal
  rw [if_neg c0, if_neg c1]
  rcases hsig with rfl | rfl | rfl | rfl
  · rw [if_neg (Ne.symm a3), if_neg (Ne.symm b2), if_neg (Ne.symm d1), if_pos rfl]
  · rw [if_neg (Ne.symm a4), if_neg (Ne.symm b3), if_neg (Ne.symm d2), if_neg (Ne.symm e1),
      if_pos rfl]
  · rw [if_neg (Ne.symm a5), if_neg (Ne.symm b4), if_neg (Ne.symm d3), if_neg (Ne.symm e2),
      if_neg (Ne.symm f1), if_pos rfl]
  · rw [if_neg (Ne.symm a6), if_neg (Ne.symm b5), if_neg (Ne.symm d4), if_neg (Ne.symm e3),
      if_neg (Ne.symm f2), if_neg (Ne.symm g1), if_pos rfl]

/-- The rings after the statements that load a thread into the slot `n` of the empty ring:
the node leaves the empty ring, the ready ring is as before. -/
theorem loadSlot_rings (k : KConst) (s : Kernel) (n : Nat) (Thread : Thread_Init_Struct)
    (l e : List Nat) (hl : IsRing s Ptr.readyHead l) (he : IsRing s Ptr.emptyHead e)
    (hn : n ∈ e) :
    IsRing (loadSlot k s n Thread) Ptr.emptyHead (e.erase n) ∧
    IsRing (loadSlot k s n Thread) Ptr.readyHead l := by
  obtain ⟨_, d2⟩ := rings_disjoint s l e hl he
  have he1 : ringFrom (fillTCB k s n Thread) Ptr.emptyHead Ptr.emptyHead e :=
    ringFrom_of_maps s _ _ _ _ rfl rfl he.1
  have hl1 : ringFrom (fillTCB k s n Thread) Ptr.readyHead Ptr.readyHead l :=
    ringFrom_of_maps s _ _ _ _ rfl rfl hl.1
  have e2 := ringFrom_delete (fillTCB k s n Thread) Ptr.emptyHead n emptyHead_ne_tcb e
    Ptr.emptyHead he1 he.2 hn (fun i _ => emptyHead_ne_tcb i)
  have l2 := ringFrom_delete_other (fillTCB k s n Thread) Ptr.emptyHead Ptr.readyHead n e l
    emptyHead_ne_tcb readyHead_ne_tcb (by intro h; cases h) he1 hn hl1 d2
  refine ⟨⟨?_, List.Nodup.erase n he.2⟩, ⟨?_, hl.2⟩⟩
  · refine ringFrom_of_maps _ _ _ _ _ ?_ ?_ e2 <;> rfl
  · refine ringFrom_of_maps _ _ _ _ _ ?_ ?_ l2 <;> rfl

/-- A call of `Sys_Switch_Now` that returns has read the tid of a TCB node, made it current,
and changed no link, status or tid. -/
theorem Sys_Switch_Now_some (k : KConst) (s s' : Kernel) (h : Sys_Switch_Now k s = some s') :
    castTID s (successor k s) = some s'.Current_TID ∧ SameSched s s' := by
  cases hc : castTID s (successor k s) with
  | none =>
    have e1 : successor k (SYS_SAVE_SP (Sys_Lock_Interrupt s)) = successor k s :=
      successor_congr k s _ (by simp [SYS_SAVE_SP]) (by simp [SYS_SAVE_SP])
        (by simp [SYS_SAVE_SP])
    have e2 : castTID (SYS_SAVE_SP (Sys_Lock_Interrupt s)) (successor k s) = none := by
      rw [castTID_congr s _ (by simp [SYS_SAVE_SP])]; exact hc
    unfold Sys_Switch_Now at h
    simp only [e1, e2] at h
    exact absurd h (by simp)
  | some t =>
    obtain ⟨u, e1, e2, e3⟩ := Sys_Switch_Now_of_cast k s t hc
    rw [h] at e1
    have : s' = u := by injection e1
    subst this
    exact ⟨by rw [e2], e3⟩

/-- In a state whose ready ring is well-formed, whose ring nodes carry their own tid and
whose current thread, if `READY`, is on the ring, a call of `Sys_Switch_Now` that returns
makes a thread of the ring current. -/
theorem Sys_Switch_Now_on_ring (k : KConst) (s s' : Kernel) (l : List Nat)
    (hl : IsRing s Ptr.readyHead l) (htid : ∀ i, i ∈ l → s.TID i = i)
    (hcur : s.Status s.Current_TID &&& k.READY ≠ 0 → s.Current_TID ∈ l)
    (h : Sys_Switch_Now k s = some s') : s'.Current_TID ∈ l ∧ SameSched s s' := by
  obtain ⟨hc, hs⟩ := Sys_Switch_Now_some k s s' h
  refine ⟨?_, hs⟩
  have hhead : ∀ t, castTID s (s.Next Ptr.readyHead) = some t → t ∈ l := by
    intro t ht
    cases l with
    | nil =>
      rw [hl.1.1] at ht
      simp [castTID] at ht
    | cons i l' =>
      rw [hl.1.1] at ht
      simp only [castTID, Option.some.injEq] at ht
      rw [← ht, htid i (by simp)]
      simp
  unfold successor at hc
  by_cases h1 : s.Status s.Current_TID &&& k.READY = 0
  · rw [if_pos h1] at hc
    exact hhead _ hc
  · rw [if_neg h1] at hc
    by_cases h2 : s.Next (Ptr.tcb s.Current_TID) = Ptr.readyHead
    · rw [if_pos h2] at hc
      exact hhead _ hc
    · rw [if_neg h2] at hc
      rcases ringFrom_next_mem s Ptr.readyHead l Ptr.readyHead s.Current_TID hl.1 (hcur h1)
        with h3 | ⟨j, hj, h3⟩
      · exact absurd h3 h2
      · rw [h3] at hc
        simp only [castTID, Option.some.injEq] at hc
        rw [← hc, htid j hj]
        exact hj

theorem IsRing_of_SameSched (s t : Kernel) (h : Ptr) (l : List Nat) (hst : SameSched s t)
    (hr : IsRing s h l) : IsRing t h l :=
  ⟨ringFrom_of_maps s t h h l hst.1 hst.2.1 hr.1, hr.2⟩

/-- Under the hypotheses of `Sys_Switch_Now_on_ring`, after one or more calls of
`Sys_Switch_Now` the current thread is a thread of the ready ring. -/
theorem switchN_on_ring (k : KConst) (l : List Nat) :
    ∀ (m : Nat) (s u : Kernel), IsRing s Ptr.readyHead l → (∀ i, i ∈ l → s.TID i = i) →
      (s.Status s.Current_TID &&& k.READY ≠ 0 → s.Current_TID ∈ l) → 1 ≤ m →
      switchN k m s = some u → u.Current_TID ∈ l := by
  intro m
  induction m with
  | zero => intro s u _ _ _ h; omega
  | succ m ih =>
    intro s u hl htid hcur _ h
    cases hsw : Sys_Switch_Now k s with
    | none => simp [switchN, hsw] at h
    | some s1 =>
      simp only [switchN, hsw] at h
      obtain ⟨hin, hs⟩ := Sys_Switch_Now_on_ring k s s1 l hl htid hcur hsw
      cases m with
      | zero =>
        simp only [switchN, Option.some.injEq] at h
        rw [← h]; exact hin
      | succ m' =>
        refine ih s1 u (IsRing_of_SameSched s s1 _ l hs hl) ?_ (fun _ => hin) (by omega) h
        intro i hi
        rw [hs.2.2.2]; exact htid i hi
/-- After scenario 1 run from a state with the picture `BootView` the three slots are taken:
the empty ring has no node. -/
theorem carouselSetup_empty_ring (k : KConst) (hk : flagsDisjoint k) (s : Kernel)
    (hs : BootView k s)
    (A B : Thread_Init_Struct) (hA : A.TID = k.AUTO_PID) (hB : B.TID = k.AUTO_PID) :
    ∃ s0, carouselSetup k s A B = some (1, 2, s0) ∧ IsRing s0 Ptr.emptyHead [] := by
  obtain ⟨f1, f2, f3, f4, f5, f6, f7, f8, f9, f10, f11, f12, f13, f14, f15, f16, f17⟩ := hs
  unfold carouselSetup
  rw [Sys_Start_Thread_ok k s A 1 1 hA f5 f12]
  simp only []
  rw [Sys_Start_Thread_ok k _ B 2 2 hB
    (by simp [loadSlot, fillTCB, _Sys_Thread_Stack_Init, Sys_List_Delete_Node, setNext, setPrev,
          Function.update_apply, f7, f8])
    (by simp [loadSlot, fillTCB, _Sys_Thread_Stack_Init, Sys_List_Delete_Node, setNext, setPrev,
          Function.update_apply, f13])]
  simp only []
  rw [Sys_Set_Ready_occupy k hk _ 1
    (by simp [loadSlot, fillTCB, _Sys_Thread_Stack_Init, Sys_List_Delete_Node, setNext, setPrev,
          Function.update_apply])]
  simp only []
  rw [Sys_Set_Ready_occupy k hk _ 2
    (by simp [loadSlot, fillTCB, _Sys_Thread_Stack_Init, Sys_List_Delete_Node, setNext, setPrev,
          makeReady, setStatus, Sys_List_Insert_Node, Function.update_apply])]
  refine ⟨_, rfl, ⟨⟨?_, ?_⟩, by decide⟩⟩ <;>
    simp [loadSlot, fillTCB, _Sys_Thread_Stack_Init, Sys_List_Delete_Node, setNext, setPrev,
      makeReady, setStatus, Sys_List_Insert_Node, Function.update_apply, f1, f2, f3, f4, f5,
      f6, f7, f8, f9, f10, f11, f12, f13, f14, f15, f16, f17]

/-- The two early returns of `Sys_Start_Thread`. -/
theorem Sys_Start_Thread_reject (k : KConst) (s : Kernel) (Thread : Thread_Init_Struct)
    (h : Thread.TID ≠ k.AUTO_PID ∨ s.Next Ptr.emptyHead = Ptr.emptyHead) :
    Sys_Start_Thread k s Thread = some (-1, s) := by
  unfold Sys_Start_Thread
  by_cases h1 : Thread.TID ≠ k.AUTO_PID
  · rw [if_pos h1]
  · rcases h with h | h
    · exact absurd h h1
    · rw [if_neg h1, if_pos h.symm]

theorem clearBits_or_mid (a b c : Nat) (hab : a &&& b = 0) (hbc : b &&& c = 0) :
    clearBits (a ||| b ||| c) b = a ||| c := by
  unfold clearBits
  apply Nat.eq_of_testBit_eq
  intro i
  have h1 := congrArg (fun x => x.testBit i) hab
  have h2 := congrArg (fun x => x.testBit i) hbc
  simp only [Nat.testBit_and, Nat.zero_testBit] at h1 h2
  simp only [Nat.testBit_xor, Nat.testBit_and, Nat.testBit_or]
  cases ha : a.testBit i <;> cases hb : b.testBit i <;> cases hc : c.testBit i <;>
    simp_all

theorem clearBits_or_right (a c : Nat) (hac : a &&& c = 0) : clearBits (a ||| c) c = a := by
  unfold clearBits
  apply Nat.eq_of_testBit_eq
  intro i
  have h1 := congrArg (fun x => x.testBit i) hac
  simp only [Nat.testBit_and, Nat.zero_testBit] at h1
  simp only [Nat.testBit_xor, Nat.testBit_and, Nat.testBit_or]
  cases ha : a.testBit i <;> cases hc : c.testBit i <;> simp_all

/-- `_Sys_Thread_Sleep` on a thread with status `OCCUPY|READY` on the ready ring, for
constants in which neither `OCCUPY` nor `READY` has bit 0 (so that the guard, which tests bit
0 of the status, lets the call through): the status becomes `OCCUPY|SLEEP`, the other status
words are kept, and the node leaves the ready ring. -/
theorem Sys_Thread_Sleep_ready (k : KConst) (hk : flagsDisjoint k)
    (hb : (k.OCCUPY ||| k.READY) &&& 1 = 0) (s : Kernel) (l : List Nat) (TID : Nat)
    (hl : IsRing s Ptr.readyHead l) (hon : TID ∈ l)
    (hst : s.Status TID = k.OCCUPY ||| k.READY) :
    (_Sys_Thread_Sleep k s TID).Status TID = k.OCCUPY ||| k.SLEEP ∧
    (∀ i, i ≠ TID → (_Sys_Thread_Sleep k s TID).Status i = s.Status i) ∧
    (_Sys_Thread_Sleep k s TID).TID = s.TID ∧
    IsRing (_Sys_Thread_Sleep k s TID) Ptr.readyHead (l.erase TID) := by
  obtain ⟨h1, h2, h3, h4, h5, h6⟩ := hk
  have c : ¬ s.Status TID &&& cNe k.SLEEP 0 ≠ 0 := by
    rw [cNe_of_ne _ _ h3, hst, hb]; simp
  have e : _Sys_Thread_Sleep k s TID =
      Sys_List_Delete_Node
        (setStatus (setStatus s TID (s.Status TID ||| k.SLEEP)) TID
          (clearBits ((setStatus s TID (s.Status TID ||| k.SLEEP)).Status TID) k.READY))
        (s.Prev (Ptr.tcb TID)) (s.Next (Ptr.tcb TID)) := by
    unfold _Sys_Thread_Sleep
    rw [if_neg c]
    rfl
  have hbits : clearBits (k.OCCUPY ||| k.READY ||| k.SLEEP) k.READY = k.OCCUPY ||| k.SLEEP :=
    clearBits_or_mid k.OCCUPY k.READY k.SLEEP h4 h6
  rw [e]
  refine ⟨?_, ?_, rfl, ⟨?_, List.Nodup.erase TID hl.2⟩⟩
  · simp [Sys_List_Delete_Node, setNext, setPrev, setStatus, hst, hbits]
  · intro i hi
    simp [Sys_List_Delete_Node, setNext, setPrev, setStatus, Function.update_noteq hi]
  · have r := ringFrom_delete s Ptr.readyHead TID readyHead_ne_tcb l Ptr.readyHead hl.1 hl.2
      hon (fun i _ => readyHead_ne_tcb i)
    refine ringFrom_of_maps _ _ _ _ _ ?_ ?_ r <;> rfl

/-- `_Sys_Thread_Wake` on a thread with status `OCCUPY|SLEEP` whose node is not on the ready
ring: the status becomes `OCCUPY|READY`, the other status words are kept, and the node
becomes the first node of the ready ring. -/
theorem Sys_Thread_Wake_sleeping (k : KConst) (hk : flagsDisjoint k) (s : Kernel)
    (l : List Nat) (TID : Nat) (hl : IsRing s Ptr.readyHead l) (hoff : TID ∉ l)
    (hst : s.Status TID = k.OCCUPY ||| k.SLEEP) :
    (_Sys_Thread_Wake k s TID).Status TID = k.OCCUPY ||| k.READY ∧
    (∀ i, i ≠ TID → (_Sys_Thread_Wake k s TID).Status i = s.Status i) ∧
    (_Sys_Thread_Wake k s TID).TID = s.TID ∧
    IsRing (_Sys_Thread_Wake k s TID) Ptr.readyHead (TID :: l) := by
  obtain ⟨h1, h2, h3, h4, h5, h6⟩ := hk
  rw [Sys_Thread_Wake_always k h3]
  have hbits : clearBits (k.OCCUPY ||| k.SLEEP) k.SLEEP = k.OCCUPY :=
    clearBits_or_right k.OCCUPY k.SLEEP h5
  refine ⟨?_, ?_, rfl, ⟨?_, List.nodup_cons.2 ⟨hoff, hl.2⟩⟩⟩
  · simp [makeReady, Sys_List_Insert_Node, setNext, setPrev, setStatus, hst, hbits]
  · intro i hi
    simp [makeReady, Sys_List_Insert_Node, setNext, setPrev, setStatus,
      Function.update_noteq hi]
  · have r := ringFrom_insert_front s Ptr.readyHead TID l readyHead_ne_tcb hl.1 hl.2 hoff
    refine ringFrom_of_maps _ _ _ _ _ ?_ ?_ r <;> rfl

/-- `SIGSLEEP` followed by `SIGWAKE` for constants in which neither `OCCUPY` nor `READY` has
bit 0: a thread with status `OCCUPY|READY` on the ready ring ends with the same status as
the first node of the ready ring, the other nodes keeping their order. -/
theorem sleep_then_wake_even_flags (k : KConst) (hk : flagsDisjoint k)
    (hd : signalsDistinct k) (hb : (k.OCCUPY ||| k.READY) &&& 1 = 0) (s : Kernel)
    (l : List Nat) (TID : Nat) (h0 : 0 < TID) (hT : TID < MAX_THREADS)
    (hl : IsRing s Ptr.readyHead l) (hon : TID ∈ l)
    (hst : s.Status TID = k.OCCUPY ||| k.READY) :
    ∃ s1 s2, Sys_Send_Signal k s TID k.SIGSLEEP = (0, s1) ∧
      s1.Status TID = k.OCCUPY ||| k.SLEEP ∧ IsRing s1 Ptr.readyHead (l.erase TID) ∧
      Sys_Send_Signal k s1 TID k.SIGWAKE = (0, s2) ∧
      s2.Status TID = k.OCCUPY ||| k.READY ∧ IsRing s2 Ptr.readyHead (TID :: l.erase TID) := by
  have c0 : ¬ (TID = 0 ∨ TID ≥ MAX_THREADS) := by omega
  have c1 : ∀ u : Kernel, ¬ u.Status TID &&& cEq k.OCCUPY 0 ≠ 0 := by
    intro u; rw [and_cEq_zero _ _ _ hk.1]; simp
  simp only [signalsDistinct, List.nodup_cons, List.mem_cons, List.mem_singleton, not_or,
    List.not_mem_nil, not_false_eq_true, List.nodup_nil, and_true] at hd
  obtain ⟨⟨a1, a2, _⟩, ⟨b1, _⟩, _⟩ := hd
  obtain ⟨p1, p2, p3, p4⟩ := Sys_Thread_Sleep_ready k hk hb s l TID hl hon hst
  obtain ⟨q1, q2, q3, q4⟩ := Sys_Thread_Wake_sleeping k hk (_Sys_Thread_Sleep k s TID)
    (l.erase TID) TID p4 (List.Nodup.not_mem_erase hl.2) p1
  refine ⟨_Sys_Thread_Sleep k s TID, _Sys_Thread_Wake k (_Sys_Thread_Sleep k s TID) TID,
    ?_, p1, p4, ?_, q1, q4⟩
  · unfold Sys_Send_Signal
    rw [if_neg c0, if_neg (c1 s), if_neg (Ne.symm a1), if_pos rfl]
  · unfold Sys_Send_Signal
    rw [if_neg c0, if_neg (c1 _), if_neg (Ne.symm a2), if_neg (Ne.symm b1), if_pos rfl]

/-- Interrupts are disabled whenever the lock depth is above 0: the property is kept by
`Sys_Lock_Interrupt` and by `Sys_Unlock_Interrupt`. -/
theorem lockRun_disabled :
    ∀ (ops : List Bool) (s : Kernel),
      (0 < s.Interrupt_Lock_Cnt → s.interrupts_enabled = false) →
      0 < (lockRun ops s).Interrupt_Lock_Cnt → (lockRun ops s).interrupts_enabled = false := by
  intro ops
  induction ops with
  | nil => intro s h; exact h
  | cons b l ih =>
    intro s h
    cases b with
    | true =>
      refine ih (Sys_Lock_Interrupt s) ?_
      unfold Sys_Lock_Interrupt DISABLE_ALL_INTS
      by_cases h0 : s.Interrupt_Lock_Cnt = 0
      · rw [if_pos h0]; intro _; rfl
      · rw [if_neg h0]; intro _; exact h (by omega)
    | false =>
      refine ih (Sys_Unlock_Interrupt s) ?_
      unfold Sys_Unlock_Interrupt ENABLE_ALL_INTS
      by_cases h1 : s.Interrupt_Lock_Cnt = 1
      · rw [if_pos h1]; intro h2; exact absurd h2 (by simp)
      · rw [if_neg h1]
        by_cases h0 : s.Interrupt_Lock_Cnt ≠ 0
        · rw [if_pos h0]; intro _; exact h (by omega)
        · rw [if_neg h0]; exact h

theorem or_and_one_zero (a b : Nat) (ha : a &&& 1 = 0) (hb : b &&& 1 = 0) :
    (a ||| b) &&& 1 = 0 := by
  apply Nat.eq_of_testBit_eq
  intro i
  have h1 := congrArg (fun x => x.testBit i) ha
  have h2 := congrArg (fun x => x.testBit i) hb
  simp only [Nat.testBit_and, Nat.zero_testBit] at h1 h2
  simp only [Nat.testBit_and, Nat.testBit_or, Nat.zero_testBit]
  cases hx : a.testBit i <;> cases hy : b.testBit i <;> simp_all

/-- The signal `SIGSLEEP` when `SLEEP` is the flag of value 1 (so that bit 0 of the status
word, which the guard of `_Sys_Thread_Sleep` tests, is the `SLEEP` flag): a thread with
status `OCCUPY|READY` on the well-formed ready ring gets the status `OCCUPY|SLEEP` and
leaves the ring, and a thread that has `SLEEP` set is left as it is. -/
theorem sleep_signal_sleep_is_one (k : KConst) (hk : flagsDisjoint k)
    (hd : signalsDistinct k) (h1 : k.SLEEP = 1) (s : Kernel) (l : List Nat) (TID : Nat)
    (h0 : 0 < TID) (hT : TID < MAX_THREADS) (hl : IsRing s Ptr.readyHead l) :
    (TID ∈ l → s.Status TID = k.OCCUPY ||| k.READY →
      ∃ s', Sys_Send_Signal k s TID k.SIGSLEEP = (0, s') ∧
        s'.Status TID = k.OCCUPY ||| k.SLEEP ∧
        (∀ i, i ≠ TID → s'.Status i = s.Status i) ∧
        IsRing s' Ptr.readyHead (l.erase TID)) ∧
    (s.Status TID &&& k.SLEEP ≠ 0 → Sys_Send_Signal k s TID k.SIGSLEEP = (0, s)) := by
  have c0 : ¬ (TID = 0 ∨ TID ≥ MAX_THREADS) := by omega
  have c1 : ¬ s.Status TID &&& cEq k.OCCUPY 0 ≠ 0 := by
    rw [and_cEq_zero _ _ _ hk.1]; simp
  have hd2 := hd
  simp only [signalsDistinct, List.nodup_cons, List.mem_cons, List.mem_singleton, not_or,
    List.not_mem_nil, not_false_eq_true, List.nodup_nil, and_true] at hd2
  obtain ⟨⟨a1, _⟩, _⟩ := hd2
  have e : Sys_Send_Signal k s TID k.SIGSLEEP = (0, _Sys_Thread_Sleep k s TID) := by
    unfold Sys_Send_Signal
    rw [if_neg c0, if_neg c1, if_neg (Ne.symm a1), if_pos rfl]
  have hO : k.OCCUPY &&& 1 = 0 := by rw [← h1]; exact hk.2.2.2.2.1
  have hR : k.READY &&& 1 = 0 := by rw [← h1]; exact hk.2.2.2.2.2
  refine ⟨?_, ?_⟩
  · intro hon hst
    obtain ⟨p1, p2, _, p4⟩ := Sys_Thread_Sleep_ready k hk
      (or_and_one_zero _ _ hO hR) s l TID hl hon hst
    exact ⟨_, e, p1, p2, p4⟩
  · intro hs
    rw [e, Sys_Thread_Sleep_bit0 k hk.2.2.1 s TID (by rw [← h1]; exact hs)]

/-- The signal `SIGSLEEP` when `OCCUPY` or `READY` has bit 0: on a thread with status
`OCCUPY|READY` the guard of `_Sys_Thread_Sleep`, which tests bit 0 of the status word,
fires, and the call returns 0 with the state as it was. -/
theorem sleep_signal_odd_flags (k : KConst) (hk : flagsDisjoint k) (hd : signalsDistinct k)
    (hb : (k.OCCUPY ||| k.READY) &&& 1 ≠ 0) (s : Kernel) (TID : Nat) (h0 : 0 < TID)
    (hT : TID < MAX_THREADS) (hst : s.Status TID = k.OCCUPY ||| k.READY) :
    Sys_Send_Signal k s TID k.SIGSLEEP = (0, s) := by
  have c0 : ¬ (TID = 0 ∨ TID ≥ MAX_THREADS) := by omega
  have c1 : ¬ s.Status TID &&& cEq k.OCCUPY 0 ≠ 0 := by
    rw [and_cEq_zero _ _ _ hk.1]; simp
  have hd2 := hd
  simp only [signalsDistinct, List.nodup_cons, List.mem_cons, List.mem_singleton, not_or,
    List.not_mem_nil, not_false_eq_true, List.nodup_nil, and_true] at hd2
  obtain ⟨⟨a1, _⟩, _⟩ := hd2
  unfold Sys_Send_Signal
  rw [if_neg c0, if_neg c1, if_neg (Ne.symm a1), if_pos rfl,
    Sys_Thread_Sleep_bit0 k hk.2.2.1 s TID (by rw [hst]; exact hb)]

/-- The signals `SIGSLEEP` and `SIGWAKE` in a row when `OCCUPY` or `READY` has bit 0, sent
to a thread with status `OCCUPY|READY` whose node is the first of the ready ring: the
`SIGSLEEP` changes nothing, the `SIGWAKE` links the node after the ready list head once
more, `Next` of the node is then the node itself, and the ready list is not a well-formed
ring, whatever its nodes are taken to be. -/
theorem sleep_then_wake_odd_flags (k : KConst) (hk : flagsDisjoint k)
    (hd : signalsDistinct k) (hb : (k.OCCUPY ||| k.READY) &&& 1 ≠ 0) (s : Kernel)
    (TID : Nat) (h0 : 0 < TID) (hT : TID < MAX_THREADS)
    (hst : s.Status TID = k.OCCUPY ||| k.READY) (hfirst : s.Next Ptr.readyHead = Ptr.tcb TID) :
    ∃ s2, Sys_Send_Signal k (Sys_Send_Signal k s TID k.SIGSLEEP).2 TID k.SIGWAKE = (0, s2) ∧
      s2.Next (Ptr.tcb TID) = Ptr.tcb TID ∧ ∀ l, ¬ IsRing s2 Ptr.readyHead l := by
  have c0 : ¬ (TID = 0 ∨ TID ≥ MAX_THREADS) := by omega
  have c1 : ¬ s.Status TID &&& cEq k.OCCUPY 0 ≠ 0 := by
    rw [and_cEq_zero _ _ _ hk.1]; simp
  have hd2 := hd
  simp only [signalsDistinct, List.nodup_cons, List.mem_cons, List.mem_singleton, not_or,
    List.not_mem_nil, not_false_eq_true, List.nodup_nil, and_true] at hd2
  obtain ⟨⟨_, a2, _⟩, ⟨b1, _⟩, _⟩ := hd2
  rw [sleep_signal_odd_flags k hk hd hb s TID h0 hT hst]
  have e : Sys_Send_Signal k s TID k.SIGWAKE =
      (0, makeReady k (setStatus s TID (clearBits (s.Status TID) k.SLEEP)) TID) := by
    unfold Sys_Send_Signal
    rw [if_neg c0, if_neg c1, if_neg (Ne.symm a2), if_neg (Ne.symm b1), if_pos rfl,
      Sys_Thread_Wake_always k hk.2.2.1]
  have n1 : (makeReady k (setStatus s TID (clearBits (s.Status TID) k.SLEEP)) TID).Next
      (Ptr.tcb TID) = Ptr.tcb TID := by
    simp [makeReady, Sys_List_Insert_Node, setNext, setPrev, setStatus, Function.update_apply,
      hfirst]
  have n2 : (makeReady k (setStatus s TID (clearBits (s.Status TID) k.SLEEP)) TID).Next
      Ptr.readyHead = Ptr.tcb TID := by
    simp [makeReady, Sys_List_Insert_Node, setNext, setPrev, setStatus, Function.update_apply]
  refine ⟨_, e, n1, ?_⟩
  intro l hr
  cases l with
  | nil =>
    have := hr.1.1
    rw [n2] at this
    cases this
  | cons i l1 =>
    have hi := hr.1.1
    rw [n2] at hi
    injection hi with hi
    subst hi
    cases l1 with
    | nil =>
      have := hr.1.2.2.1
      rw [n1] at this
      cases this
    | cons j l2 =>
      have hj := hr.1.2.2.1
      rw [n1] at hj
      injection hj with hj
      subst hj
      have := hr.2
      simp at this

/-- A thread that `Sys_Start_Thread` has started and that was never passed to
`Sys_Set_Ready` is made schedulable by `SIGWAKE`, whatever the constants are: from a state
with the picture `BootView`, `Sys_Start_Thread` returns the tid 1 and leaves the status
`OCCUPY`, `Sys_Send_Signal(1, SIGWAKE)` returns 0 (the guard of `_Sys_Thread_Wake` does not
fire), and the `Sys_Switch_Now` that follows returns with thread 1 current. -/
theorem start_then_wake_selected (k : KConst) (hk : flagsDisjoint k) (hd : signalsDistinct k)
    (s : Kernel) (hs : BootView k s) (A : Thread_Init_Struct) (hA : A.TID = k.AUTO_PID) :
    ∃ s1 s2 s3, Sys_Start_Thread k s A = some (1, s1) ∧ s1.Status 1 = k.OCCUPY ∧
      Sys_Send_Signal k s1 1 k.SIGWAKE = (0, s2) ∧ s2.Status 1 = k.OCCUPY ||| k.READY ∧
      Sys_Switch_Now k s2 = some s3 ∧ s3.Current_TID = 1 := by
  obtain ⟨f1, f2, f3, f4, f5, f6, f7, f8, f9, f10, f11, f12, f13, f14, f15, f16, f17⟩ := hs
  have hd2 := hd
  simp only [signalsDistinct, List.nodup_cons, List.mem_cons, List.mem_singleton, not_or,
    List.not_mem_nil, not_false_eq_true, List.nodup_nil, and_true] at hd2
  obtain ⟨⟨_, a2, _⟩, ⟨b1, _⟩, _⟩ := hd2
  have c0 : ¬ ((1 : Nat) = 0 ∨ 1 ≥ MAX_THREADS) := by decide
  have c1 : ¬ (loadSlot k s 1 A).Status 1 &&& cEq k.OCCUPY 0 ≠ 0 := by
    rw [and_cEq_zero _ _ _ hk.1]; simp
  have hst : (loadSlot k s 1 A).Status 1 = k.OCCUPY := by
    simp [loadSlot, fillTCB, _Sys_Thread_Stack_Init, Sys_List_Delete_Node, setNext, setPrev]
  have e : Sys_Send_Signal k (loadSlot k s 1 A) 1 k.SIGWAKE =
      (0, makeReady k (setStatus (loadSlot k s 1 A) 1
        (clearBits ((loadSlot k s 1 A).Status 1) k.SLEEP)) 1) := by
    unfold Sys_Send_Signal
    rw [if_neg c0, if_neg c1, if_neg (Ne.symm a2), if_neg (Ne.symm b1), if_pos rfl,
      Sys_Thread_Wake_always k hk.2.2.1]
  have hclr : clearBits k.OCCUPY k.SLEEP = k.OCCUPY := by
    unfold clearBits
    rw [hk.2.2.2.2.1]
    simp
  have hr := or_and_self_ne k.OCCUPY k.READY hk.2.1
  have hcast : castTID (makeReady k (setStatus (loadSlot k s 1 A) 1
      (clearBits ((loadSlot k s 1 A).Status 1) k.SLEEP)) 1)
      (successor k (makeReady k (setStatus (loadSlot k s 1 A) 1
        (clearBits ((loadSlot k s 1 A).Status 1) k.SLEEP)) 1)) = some 1 := by
    simp [successor, castTID, loadSlot, fillTCB, _Sys_Thread_Stack_Init, Sys_List_Delete_Node,
      setNext, setPrev, makeReady, setStatus, Sys_List_Insert_Node, Function.update_apply,
      f1, f2, f3, f4, f5, f6, f7, f8, f9, f10, f11, f12, f13, f14, f15, f16, f17, hr]
  obtain ⟨s3, g1, g2, _⟩ := Sys_Switch_Now_of_cast k _ 1 hcast
  refine ⟨_, _, s3, Sys_Start_Thread_ok k s A 1 1 hA f5 f12, hst, e, ?_, g1, g2⟩
  simp [makeReady, setStatus, Sys_List_Insert_Node, setNext, setPrev, hst, hclr]

/-! ## Claims on the paged heap -/

/-- C1, as stated, fails: with `PAGE_SIZE = 50` the call `__Sys_Malloc(1, 100)` on the empty
table needs 2 pages, the first run of 2 zero entries starts at page 0, and the call leaves
the table `[1,0,0,...]`: the second entry of the run does not equal the tid. -/
theorem malloc_marks_whole_run_fails :
    ceilPages 50 100 = 2 ∧ firstRun emptyTable 0 2 ∧
    (__Sys_Malloc 50 1 100 emptyTable).2 = 1 :: List.replicate 39 0 ∧
    ¬ (∀ j, 0 ≤ j → j < 0 + 2 → (__Sys_Malloc 50 1 100 emptyTable).2.getD j 0 = 1) := by
  refine ⟨by decide, by decide, by decide, ?_⟩
  intro h
  exact absurd (h 1 (by decide) (by decide)) (by decide)

/-- C1, amended: when the table has a run of `N = ceil(size / PAGE_SIZE)` zero entries and
`s` is the start of the first such run, after `__Sys_Malloc(tid, size)` the entry `s` equals
`tid` when `N = 1`; when `N ≥ 2` the first `N - 1` entries `s..s+N-2` of the run equal `tid`
and the last entry `s+N-1` of the run is still 0. -/
theorem malloc_marks_run_but_last (PAGE_SIZE : Nat) (hP : 0 < PAGE_SIZE) (Mem_CB : List Nat)
    (hlen : Mem_CB.length = DMEM_PAGES) (TID : Nat) (hT : TID < MAX_THREADS) (Size : Nat)
    (hS : 0 < Size) (s : Nat) (hs : firstRun Mem_CB s (ceilPages PAGE_SIZE Size)) :
    (ceilPages PAGE_SIZE Size = 1 →
      (__Sys_Malloc PAGE_SIZE TID Size Mem_CB).2.getD s 0 = TID) ∧
    (2 ≤ ceilPages PAGE_SIZE Size →
      (∀ j, s ≤ j → j + 1 < s + ceilPages PAGE_SIZE Size →
        (__Sys_Malloc PAGE_SIZE TID Size Mem_CB).2.getD j 0 = TID) ∧
      (__Sys_Malloc PAGE_SIZE TID Size Mem_CB).2.getD (s + ceilPages PAGE_SIZE Size - 1) 0
        = 0) := by
  obtain ⟨_, _, h⟩ := Sys_Malloc_core PAGE_SIZE hP Mem_CB hlen TID hT Size hS s hs
  refine ⟨?_, ?_⟩
  · intro h1
    rw [h s, if_pos (Or.inl ⟨h1, rfl⟩)]
  · intro h2
    refine ⟨?_, ?_⟩
    · intro j hj1 hj2
      rw [h j, if_pos (Or.inr ⟨hj1, hj2⟩)]
    · rw [h, if_neg (by omega)]
      exact hs.1.2 _ (by omega) (by omega)

/-- Witness for C1, amended: `PAGE_SIZE = 50`, tid 1, `malloc(100)` on the
empty table. -/
theorem malloc_marks_run_but_last_witness :
    (ceilPages 50 100 = 1 → (__Sys_Malloc 50 1 100 emptyTable).2.getD 0 0 = 1) ∧
    (2 ≤ ceilPages 50 100 →
      (∀ j, 0 ≤ j → j + 1 < 0 + ceilPages 50 100 →
        (__Sys_Malloc 50 1 100 emptyTable).2.getD j 0 = 1) ∧
      (__Sys_Malloc 50 1 100 emptyTable).2.getD (0 + ceilPages 50 100 - 1) 0 = 0) :=
  malloc_marks_run_but_last 50 (by decide) emptyTable (by decide) 1 (by decide) 100
    (by decide) 0 (by decide)

/-- C2: when the table has a run of `N = ceil(size / PAGE_SIZE)` zero entries and `s` is the
lowest start of such a run, `__Sys_Malloc(tid, size)` returns `&heap[s * PAGE_SIZE]`; when
`N ≥ 2` it writes `tid` into exactly the entries `s..s+N-2` and leaves entry `s+N-1` zero;
when `N = 1` it writes `tid` into entry `s` only; every other entry is unchanged. -/
theorem malloc_first_run_contract (PAGE_SIZE : Nat) (hP : 0 < PAGE_SIZE) (Mem_CB : List Nat)
    (hlen : Mem_CB.length = DMEM_PAGES) (TID : Nat) (hT : TID < MAX_THREADS) (Size : Nat)
    (hS : 0 < Size) (s : Nat) (hs : firstRun Mem_CB s (ceilPages PAGE_SIZE Size)) :
    (__Sys_Malloc PAGE_SIZE TID Size Mem_CB).1 = some (s * PAGE_SIZE) ∧
    (__Sys_Malloc PAGE_SIZE TID Size Mem_CB).2.length = DMEM_PAGES ∧
    (2 ≤ ceilPages PAGE_SIZE Size →
      (∀ j, (__Sys_Malloc PAGE_SIZE TID Size Mem_CB).2.getD j 0 =
        if s ≤ j ∧ j ≤ s + ceilPages PAGE_SIZE Size - 2 then TID else Mem_CB.getD j 0) ∧
      (__Sys_Malloc PAGE_SIZE TID Size Mem_CB).2.getD (s + ceilPages PAGE_SIZE Size - 1) 0
        = 0) ∧
    (ceilPages PAGE_SIZE Size = 1 →
      ∀ j, (__Sys_Malloc PAGE_SIZE TID Size Mem_CB).2.getD j 0 =
        if j = s then TID else Mem_CB.getD j 0) := by
  obtain ⟨h1, h2, h⟩ := Sys_Malloc_core PAGE_SIZE hP Mem_CB hlen TID hT Size hS s hs
  refine ⟨h1, h2, ?_, ?_⟩
  · intro hN
    refine ⟨?_, ?_⟩
    · intro j
      rw [h j]
      by_cases hj : s ≤ j ∧ j ≤ s + ceilPages PAGE_SIZE Size - 2
      · rw [if_pos hj, if_pos (Or.inr (by omega))]
      · rw [if_neg hj, if_neg]
        intro h'
        rcases h' with h' | h'
        · omega
        · omega
    · rw [h, if_neg (by omega)]
      exact hs.1.2 _ (by omega) (by omega)
  · intro hN j
    rw [h j]
    by_cases hj : j = s
    · rw [if_pos hj, if_pos (Or.inl ⟨hN, hj⟩)]
    · rw [if_neg hj, if_neg]
      intro h'
      rcases h' with h' | h'
      · exact hj h'.2
      · omega

/-- Witness for C2: the example of the module comment, 200 bytes
with pages of 51 bytes (a 1K region of 20 pages) on the empty table, is 4 pages at `s = 0`
and gives `[1][1][1][0]`. -/
theorem malloc_first_run_contract_witness :
    ceilPages 51 200 = 4 ∧
    (__Sys_Malloc 51 1 200 emptyTable).2 = 1 :: 1 :: 1 :: List.replicate 37 0 ∧
    (__Sys_Malloc 51 1 200 emptyTable).1 = some (0 * 51) ∧
    (__Sys_Malloc 51 1 200 emptyTable).2.length = DMEM_PAGES ∧
    (2 ≤ ceilPages 51 200 →
      (∀ j, (__Sys_Malloc 51 1 200 emptyTable).2.getD j 0 =
        if 0 ≤ j ∧ j ≤ 0 + ceilPages 51 200 - 2 then 1 else emptyTable.getD j 0) ∧
      (__Sys_Malloc 51 1 200 emptyTable).2.getD (0 + ceilPages 51 200 - 1) 0 = 0) ∧
    (ceilPages 51 200 = 1 →
      ∀ j, (__Sys_Malloc 51 1 200 emptyTable).2.getD j 0 =
        if j = 0 then 1 else emptyTable.getD j 0) :=
  ⟨by decide, by decide,
    malloc_first_run_contract 51 (by decide) emptyTable (by decide) 1 (by decide) 200
      (by decide) 0 (by decide)⟩

/-- C3, the failing input: thread 1 allocates 40 pages and then 1 page (`PAGE_SIZE = 50`),
which leaves every entry of the table equal to 1; `__Sys_Mfree(1, &heap[0])` then zeroes the
run `0..39` and evaluates its loop condition on `Mem_CB[40]`, outside the table. The same
happens for tid 0 and `&heap[0]` on the empty table, where the run of entries equal to the
tid is the whole table. -/
theorem mfree_run_up_to_last_page_overruns :
    (__Sys_Malloc 50 1 1 (__Sys_Malloc 50 1 2000 emptyTable).2).2 = List.replicate 40 1 ∧
    __Sys_Mfree 50 1 (some 0) (List.replicate 40 1) = none ∧
    __Sys_Mfree 50 0 (some 0) emptyTable = none := by
  refine ⟨by decide, by decide, by decide⟩

/-- C4, the failing input: with `PAGE_SIZE = 50`, after thread 1 has allocated 100 bytes the
table is `[1,0,0,...]`; `__Sys_Malloc(1, 50)` then returns `&heap[50]` and marks page 1, and
the `__Sys_Mfree(1, &heap[50])` that follows is rejected (page 0 is not 0), so the table
stays `[1,1,0,...]` instead of going back to `[1,0,0,...]`. -/
theorem malloc_then_mfree_not_restored :
    (__Sys_Malloc 50 1 100 emptyTable).2 = 1 :: List.replicate 39 0 ∧
    __Sys_Malloc 50 1 50 (1 :: List.replicate 39 0) =
      (some 50, 1 :: 1 :: List.replicate 38 0) ∧
    __Sys_Mfree 50 1 (some 50) (1 :: 1 :: List.replicate 38 0) =
      some (1 :: 1 :: List.replicate 38 0) ∧
    (1 :: 1 :: List.replicate 38 0) ≠ 1 :: List.replicate 39 0 := by
  refine ⟨by decide, by decide, by decide, by decide⟩

/-- C5, the failing inputs: with `PAGE_SIZE = 50`, thread 1 calling `malloc(100)` and then
`malloc(50)` on the empty table gets `&heap[50]` and the table `[1,1,0,...]`, not `&heap[150]`
and `[1,1,0,1,0,...]`; when the second call is made by thread 2 the table is `[1,2,0,...]`,
a reachable table in which the run `[0,0]` of owner 1 is followed by the nonzero page 1, so
the sentinel rule does not hold in it. With pages of 51 bytes, `malloc(200)` then
`malloc(100)` gives `[1][1][1][1][0]`, not the `[1][1][1][0][1]` of the module comment. -/
theorem malloc_starts_next_to_a_run :
    __Sys_Malloc 50 1 50 (__Sys_Malloc 50 1 100 emptyTable).2 =
      (some 50, 1 :: 1 :: List.replicate 38 0) ∧
    (__Sys_Malloc 50 2 50 (__Sys_Malloc 50 1 100 emptyTable).2).2 =
      1 :: 2 :: List.replicate 38 0 ∧
    HeapReach 50 (1 :: 2 :: List.replicate 38 0) ∧
    ¬ sentinelRule (1 :: 2 :: List.replicate 38 0) ∧
    __Sys_Malloc 51 1 100 (__Sys_Malloc 51 1 200 emptyTable).2 =
      (some (3 * 51), 1 :: 1 :: 1 :: 1 :: List.replicate 36 0) := by
  refine ⟨by decide, by decide, ?_, ?_, by decide⟩
  · have h1 : HeapReach 50 (__Sys_Malloc 50 1 100 emptyTable).2 :=
      HeapReach.malloc emptyTable 1 100 HeapReach.init (by decide) (by decide)
    have h2 := HeapReach.malloc _ 2 50 h1 (by decide) (by decide)
    have e : (__Sys_Malloc 50 2 50 (__Sys_Malloc 50 1 100 emptyTable).2).2 =
        1 :: 2 :: List.replicate 38 0 := by decide
    rw [e] at h2
    exact h2
  · intro h
    have h0 : ownedRun (1 :: 2 :: List.replicate 38 0) 0 0 1 := by
      refine ⟨by decide, by decide, by decide, ?_, Or.inl rfl, Or.inr (by decide)⟩
      intro j hj1 hj2
      have hj : j = 0 := by omega
      subst hj
      rfl
    exact absurd (h 0 0 1 h0).1 (by decide)

/-! ## Claims on the scheduler and the signals -/

/-- C6: successor selection of `Sys_Switch_Now` in a state whose ready ring is a well-formed
ring with nodes `l`, `l` not empty. The node after the ready list head is a TCB node. If the
`READY` bit of the current thread is clear, the call returns and the new `Current_TID` is
the tid of the node after the head; if the bit is set and the current node's `Next` is the
ready list head, likewise (rewind); if the bit is set and the current node's `Next` is the
TCB node `j`, the new `Current_TID` is the tid of node `j`; and the `Next` of a current node
that lies on the ring is the head or a TCB node of the ring, so one of the cases applies.
In each case no link, no status and no tid is changed. -/
theorem switch_picks_successor (k : KConst) (s : Kernel) (l : List Nat)
    (hring : IsRing s Ptr.readyHead l) (hne : l ≠ []) :
    (∃ i, i ∈ l ∧ s.Next Ptr.readyHead = Ptr.tcb i) ∧
    (s.Status s.Current_TID &&& k.READY = 0 →
      ∃ s', Sys_Switch_Now k s = some s' ∧
        castTID s (s.Next Ptr.readyHead) = some s'.Current_TID ∧ SameSched s s') ∧
    (s.Status s.Current_TID &&& k.READY ≠ 0 →
      s.Next (Ptr.tcb s.Current_TID) = Ptr.readyHead →
      ∃ s', Sys_Switch_Now k s = some s' ∧
        castTID s (s.Next Ptr.readyHead) = some s'.Current_TID ∧ SameSched s s') ∧
    (∀ j, s.Status s.Current_TID &&& k.READY ≠ 0 →
      s.Next (Ptr.tcb s.Current_TID) = Ptr.tcb j →
      ∃ s', Sys_Switch_Now k s = some s' ∧ s'.Current_TID = s.TID j ∧ SameSched s s') ∧
    (s.Current_TID ∈ l →
      s.Next (Ptr.tcb s.Current_TID) = Ptr.readyHead ∨
      ∃ j, j ∈ l ∧ s.Next (Ptr.tcb s.Current_TID) = Ptr.tcb j) := by
  obtain ⟨i, hi, hnext⟩ := ring_head_next s Ptr.readyHead l hring hne
  refine ⟨⟨i, hi, hnext⟩, ?_, ?_, ?_, ?_⟩
  · intro h0
    have hcast : castTID s (successor k s) = some (s.TID i) := by
      simp [successor, castTID, h0, hnext]
    obtain ⟨s', e1, e2, e3⟩ := Sys_Switch_Now_of_cast k s (s.TID i) hcast
    exact ⟨s', e1, by rw [hnext, e2]; rfl, e3⟩
  · intro h0 h1
    have hcast : castTID s (successor k s) = some (s.TID i) := by
      simp [successor, castTID, h0, h1, hnext]
    obtain ⟨s', e1, e2, e3⟩ := Sys_Switch_Now_of_cast k s (s.TID i) hcast
    exact ⟨s', e1, by rw [hnext, e2]; rfl, e3⟩
  · intro j h0 h1
    have hcast : castTID s (successor k s) = some (s.TID j) := by
      simp [successor, castTID, h0, h1]
    exact Sys_Switch_Now_of_cast k s (s.TID j) hcast
  · intro hc
    exact ringFrom_next_mem s Ptr.readyHead l Ptr.readyHead s.Current_TID hring.1 hc

/-- Witness for C6: in the state after scenario 1 the ready ring is
head, 2, 1, 0 and thread 0 is current and ready with `Next` the head, so the call rewinds
to the node after the head. -/
theorem switch_picks_successor_witness :
    IsRing demoState Ptr.readyHead [2, 1, 0] ∧ demoState.Current_TID = 0 ∧
    ∃ s', Sys_Switch_Now refConst demoState = some s' ∧
      castTID demoState (demoState.Next Ptr.readyHead) = some s'.Current_TID ∧
      SameSched demoState s' :=
  ⟨by decide, by decide,
    (switch_picks_successor refConst demoState [2, 1, 0] (by decide) (by decide)).2.2.1
      (by decide) (by decide)⟩

/-- C7, as stated, fails: in the concrete run of scenario 1 (threads 1 and 2 started, then
`Sys_Set_Ready(1)`, `Sys_Set_Ready(2)`) the values of `Current_TID` at six successive calls
of `Sys_Switch_Now` are 0, 2, 1, 0, 2, 1, not 0, 1, 2, 0, 1, 2. -/
theorem carousel_order_0_1_2_fails :
    (carouselSetup refConst demoBoot demoA demoB).map (fun r => (r.1, r.2.1)) = some (1, 2) ∧
    ((carouselSetup refConst demoBoot demoA demoB).bind fun r => visits refConst 6 r.2.2) =
      some [0, 2, 1, 0, 2, 1] ∧
    ((carouselSetup refConst demoBoot demoA demoB).bind fun r => visits refConst 6 r.2.2) ≠
      some [0, 1, 2, 0, 1, 2] := by
  refine ⟨by decide, by decide, by decide⟩

/-- C7, amended: for all `kernel.h` constants whose status flags are nonzero and disjoint,
from the state after boot (any memory before boot), `Sys_Start_Thread` on two init structs
with `TID = AUTO_PID` returns the tids 1 and 2, and after `Sys_Set_Ready(1)` and
`Sys_Set_Ready(2)` the ready ring is head, 2, 1, 0, thread 0 is current, and every call of
`Sys_Switch_Now` returns: the value of `Current_TID` after `n` calls is the `n mod 3`-th
entry of 0, 2, 1 (init yields to thread 2, thread 2 to thread 1, thread 1 to init). -/
theorem carousel_order_0_2_1 (k : KConst) (hk : flagsDisjoint k) (raw : Kernel)
    (Name Kernel_Stack Entrance : Nat) (A B : Thread_Init_Struct)
    (hA : A.TID = k.AUTO_PID) (hB : B.TID = k.AUTO_PID) :
    ∃ s0, carouselSetup k (bootState k raw Name Kernel_Stack Entrance) A B = some (1, 2, s0) ∧
      s0.Current_TID = 0 ∧ IsRing s0 Ptr.readyHead [2, 1, 0] ∧
      ∀ n, ∃ s', switchN k n s0 = some s' ∧ s'.Current_TID = [0, 2, 1].getD (n % 3) 0 := by
  obtain ⟨s0, h1, h2, h3, h4⟩ := carouselSetup_view k hk _
    (bootState_view k hk raw Name Kernel_Stack Entrance) A B hA hB
  exact ⟨s0, h1, h3, h4, fun n => (Carousel_switchN k n s0 h2).1 h3⟩

/-- Witness for C7, amended: the constants `refConst` and the concrete boot. -/
theorem carousel_order_0_2_1_witness :
    flagsDisjoint refConst ∧
    ∃ s0, carouselSetup refConst (bootState refConst rawState 1 50 0) demoA demoB =
        some (1, 2, s0) ∧
      s0.Current_TID = 0 ∧ IsRing s0 Ptr.readyHead [2, 1, 0] ∧
      ∀ n, ∃ s', switchN refConst n s0 = some s' ∧
        s'.Current_TID = [0, 2, 1].getD (n % 3) 0 :=
  ⟨by decide, carousel_order_0_2_1 refConst (by decide) rawState 1 50 0 demoA demoB rfl rfl⟩

/-- C8, the failing input: after boot slot 1 is free (its status word is 0, `OCCUPY` is not
set) and its node is on the empty ring; `Sys_Set_Ready(1)` returns 0, sets `READY` and puts
the node after the ready list head, while the empty list head still points to it. The call
on thread 0, which is `OCCUPY|READY` already, returns 0 as well. -/
theorem set_ready_accepts_free_slot :
    demoBoot.Status 1 = 0 ∧ demoBoot.Next Ptr.emptyHead = Ptr.tcb 1 ∧
    (Sys_Set_Ready refConst demoBoot 1).1 = 0 ∧
    (Sys_Set_Ready refConst demoBoot 1).2.Status 1 = refConst.READY ∧
    (Sys_Set_Ready refConst demoBoot 1).2.Next Ptr.readyHead = Ptr.tcb 1 ∧
    (Sys_Set_Ready refConst demoBoot 1).2.Next Ptr.emptyHead = Ptr.tcb 1 ∧
    demoBoot.Status 0 = refConst.OCCUPY ||| refConst.READY ∧
    (Sys_Set_Ready refConst demoBoot 0).1 = 0 := by
  refine ⟨by decide, by decide, by decide, by decide, by decide, by decide, by decide,
    by decide⟩

/-- C9, the failing input: after boot slot 2 is free (status word 0);
`Sys_Send_Signal(2, SIGUSR1)` returns 0 and sets the bit in `TCB[2].Signal`, and
`Sys_Send_Signal(2, SIGWAKE)` returns 0, sets `READY` on the free slot and links its node
into the ready ring. -/
theorem send_signal_accepts_free_slot :
    demoBoot.Status 2 = 0 ∧ demoBoot.Signal 2 = 0 ∧
    (Sys_Send_Signal refConst demoBoot 2 refConst.SIGUSR1).1 = 0 ∧
    (Sys_Send_Signal refConst demoBoot 2 refConst.SIGUSR1).2.Signal 2 = refConst.SIGUSR1 ∧
    (Sys_Send_Signal refConst demoBoot 2 refConst.SIGWAKE).1 = 0 ∧
    (Sys_Send_Signal refConst demoBoot 2 refConst.SIGWAKE).2.Status 2 = refConst.READY ∧
    (Sys_Send_Signal refConst demoBoot 2 refConst.SIGWAKE).2.Next Ptr.readyHead = Ptr.tcb 2 ∧
    demoBoot.Next Ptr.readyHead = Ptr.tcb 0 := by
  refine ⟨by decide, by decide, by decide, by decide, by decide, by decide, by decide,
    by decide⟩

/-- C10: `Sys_Send_Signal(tid, sig)` returns -1 and leaves the whole kernel state as it is
when `tid = 0`, when `tid ≥ MAX_THREADS`, and when `sig` is none of `SIGKILL`, `SIGSLEEP`,
`SIGWAKE`, `SIGUSR1`, ..., `SIGUSR4` (for every tid, so also for a valid occupied one). -/
theorem send_signal_rejects (k : KConst) (s : Kernel) (TID sig : Nat)
    (h : TID = 0 ∨ TID ≥ MAX_THREADS ∨
      (sig ≠ k.SIGKILL ∧ sig ≠ k.SIGSLEEP ∧ sig ≠ k.SIGWAKE ∧ sig ≠ k.SIGUSR1 ∧
        sig ≠ k.SIGUSR2 ∧ sig ≠ k.SIGUSR3 ∧ sig ≠ k.SIGUSR4)) :
    Sys_Send_Signal k s TID sig = (-1, s) := by
  unfold Sys_Send_Signal
  rcases h with h | h | ⟨h1, h2, h3, h4, h5, h6, h7⟩
  · rw [if_pos (Or.inl h)]
  · rw [if_pos (Or.inr h)]
  · rw [if_neg h1, if_neg h2, if_neg h3, if_neg h4, if_neg h5, if_neg h6, if_neg h7]
    split
    · rfl
    · split <;> rfl

/-- Witness for C10: a signal sent to tid 0 after boot. -/
theorem send_signal_rejects_witness :
    Sys_Send_Signal refConst demoBoot 0 refConst.SIGUSR1 = (-1, demoBoot) :=
  send_signal_rejects refConst demoBoot 0 refConst.SIGUSR1 (Or.inl rfl)


/-- C11: in a state whose ready ring (nodes `l`) and empty ring (nodes `e`) are well-formed,
for an occupied thread `tid` in `(0, MAX_THREADS)` on the ready ring,
`Sys_Send_Signal(tid, SIGKILL)` returns 0 and afterwards `TCB[tid].TID = tid`, the status,
name, entrance, pending signals and the four handler slots of `TCB[tid]` are 0, the ready
ring is well-formed with the nodes of `l` other than `tid` in their order (so `tid` is not
on it), and the empty ring is well-formed with `tid` as the node after the head, followed
by the nodes of `e` in their order. -/
theorem kill_moves_ready_thread_to_empty_ring (k : KConst) (s : Kernel) (l e : List Nat)
    (TID : Nat) (hl : IsRing s Ptr.readyHead l) (he : IsRing s Ptr.emptyHead e)
    (h0 : 0 < TID) (hT : TID < MAX_THREADS) (hocc : s.Status TID &&& k.OCCUPY ≠ 0)
    (hon : TID ∈ l) :
    ∃ s', Sys_Send_Signal k s TID k.SIGKILL = (0, s') ∧
      s'.TID TID = TID ∧ s'.Status TID = 0 ∧ s'.Thread_Name TID = 0 ∧ s'.Entrance TID = 0 ∧
      s'.Signal TID = 0 ∧ (∀ n, s'.Signal_Handler TID n = 0) ∧
      IsRing s' Ptr.readyHead (l.erase TID) ∧ TID ∉ l.erase TID ∧
      IsRing s' Ptr.emptyHead (TID :: e) ∧ s'.Next Ptr.emptyHead = Ptr.tcb TID := by
  obtain ⟨r1, r2⟩ := Sys_Thread_Kill_rings s TID l e hl he hon
  refine ⟨_Sys_Thread_Kill s TID,
    Sys_Send_Signal_kill_eq k (occupy_ne_zero_of_and k _ hocc) s TID h0 hT,
    ?_, ?_, ?_, ?_, ?_, ?_, r1, List.Nodup.not_mem_erase hl.2, r2, r2.1.1⟩ <;>
    simp [_Sys_Thread_Kill, zeroTCB, Sys_List_Insert_Node, Sys_List_Delete_Node, setNext, setPrev]

/-- Witness for C11: thread 1 is killed in the state after scenario 1 (ready ring 2, 1, 0,
empty ring without nodes). -/
theorem kill_moves_ready_thread_to_empty_ring_witness :
    IsRing demoState Ptr.readyHead [2, 1, 0] ∧ IsRing demoState Ptr.emptyHead [] ∧
    ∃ s', Sys_Send_Signal refConst demoState 1 refConst.SIGKILL = (0, s') ∧
      s'.TID 1 = 1 ∧ s'.Status 1 = 0 ∧ s'.Thread_Name 1 = 0 ∧ s'.Entrance 1 = 0 ∧
      s'.Signal 1 = 0 ∧ (∀ n, s'.Signal_Handler 1 n = 0) ∧
      IsRing s' Ptr.readyHead ([2, 1, 0].erase 1) ∧ 1 ∉ [2, 1, 0].erase 1 ∧
      IsRing s' Ptr.emptyHead (1 :: []) ∧ s'.Next Ptr.emptyHead = Ptr.tcb 1 :=
  ⟨by decide, by decide,
    kill_moves_ready_thread_to_empty_ring refConst demoState [2, 1, 0] [] 1 (by decide)
      (by decide) (by decide) (by decide) (by decide) (by decide)⟩

set_option maxRecDepth 4000

/-- C12, as stated, fails: thread 1 is occupied and holds the pages 0, 1 and 3 (a table
that the heap functions produce); `Sys_Send_Signal(1, SIGKILL)` returns 0 and zeroes
`TCB[1]`, and the page table is still `[1,1,0,1,0,...]`: the pages 0, 1 and 3 still carry the
owner 1. -/
theorem kill_frees_pages_fails :
    (__Sys_Malloc 20 1 60 emptyTable).2 = 1 :: 1 :: List.replicate 38 0 ∧
    (__Sys_Malloc 20 2 20 (1 :: 1 :: List.replicate 38 0)).2 =
      1 :: 1 :: 2 :: List.replicate 37 0 ∧
    (__Sys_Malloc 20 1 20 (1 :: 1 :: 2 :: List.replicate 37 0)).2 =
      1 :: 1 :: 2 :: 1 :: List.replicate 36 0 ∧
    __Sys_Mfree_All 2 (1 :: 1 :: 2 :: 1 :: List.replicate 36 0) = demoHeap.Mem_CB ∧
    demoHeap.Status 1 &&& refConst.OCCUPY ≠ 0 ∧
    (Sys_Send_Signal refConst demoHeap 1 refConst.SIGKILL).1 = 0 ∧
    (Sys_Send_Signal refConst demoHeap 1 refConst.SIGKILL).2.Status 1 = 0 ∧
    (Sys_Send_Signal refConst demoHeap 1 refConst.SIGKILL).2.Mem_CB =
      1 :: 1 :: 0 :: 1 :: List.replicate 36 0 ∧
    ¬ (∀ j, (Sys_Send_Signal refConst demoHeap 1 refConst.SIGKILL).2.Mem_CB.getD j 0 ≠ 1) := by
  refine ⟨by decide, by decide, by decide, by decide, by decide, by decide, by decide,
    by decide, ?_⟩
  intro h
  exact absurd (h 0) (by decide)

/-- C12, amended: `Sys_Send_Signal(tid, SIGKILL)` leaves the page table exactly as it is,
for every kernel state and every tid; so every entry of the page table that equals the tid
before the call equals the tid after it: the pages that the victim owns stay owned. -/
theorem kill_keeps_page_table (k : KConst) (s : Kernel) (TID : Nat) :
    (Sys_Send_Signal k s TID k.SIGKILL).2.Mem_CB = s.Mem_CB ∧
    ∀ j, s.Mem_CB.getD j 0 = TID →
      (Sys_Send_Signal k s TID k.SIGKILL).2.Mem_CB.getD j 0 = TID := by
  have h := Sys_Send_Signal_Mem_CB k s TID k.SIGKILL
  refine ⟨h, fun j hj => ?_⟩
  rw [h]
  exact hj

/-- The signal `SIGSLEEP` evaluated at two choices of the status flags, neither of which has
`SLEEP` on bit 0. With the constants `OCCUPY=1, READY=2, SLEEP=4`: after
scenario 1 thread 2 is `OCCUPY|READY` and on the ready ring 2, 1, 0;
`Sys_Send_Signal(2, SIGSLEEP)` returns 0 and changes nothing: the status is still
`OCCUPY|READY`, not `OCCUPY|SLEEP`, and the node is still on the ring. With the constants
`OCCUPY=2, READY=4, SLEEP=8`: after threads 1 and 2 were put to sleep (ready ring: node 0
only), a second `SIGSLEEP` to the sleeping thread 1 returns 0 and writes the links of the
ring, which is no longer well-formed (`Prev` of node 0 is node 2). -/
theorem sleep_guard_tests_bit_zero :
    demoState.Status 2 = refConst.OCCUPY ||| refConst.READY ∧
    IsRing demoState Ptr.readyHead [2, 1, 0] ∧
    (Sys_Send_Signal refConst demoState 2 refConst.SIGSLEEP).1 = 0 ∧
    (Sys_Send_Signal refConst demoState 2 refConst.SIGSLEEP).2.Status 2 =
      refConst.OCCUPY ||| refConst.READY ∧
    IsRing (Sys_Send_Signal refConst demoState 2 refConst.SIGSLEEP).2 Ptr.readyHead [2, 1, 0] ∧
    (Sys_Send_Signal evenConst (Sys_Send_Signal evenConst evenState 1 evenConst.SIGSLEEP).2 2
      evenConst.SIGSLEEP).2.Status 1 = evenConst.OCCUPY ||| evenConst.SLEEP ∧
    IsRing (Sys_Send_Signal evenConst (Sys_Send_Signal evenConst evenState 1
      evenConst.SIGSLEEP).2 2 evenConst.SIGSLEEP).2 Ptr.readyHead [0] ∧
    ¬ IsRing (Sys_Send_Signal evenConst (Sys_Send_Signal evenConst (Sys_Send_Signal evenConst
      evenState 1 evenConst.SIGSLEEP).2 2 evenConst.SIGSLEEP).2 1 evenConst.SIGSLEEP).2
      Ptr.readyHead [0] ∧
    (Sys_Send_Signal evenConst (Sys_Send_Signal evenConst (Sys_Send_Signal evenConst
      evenState 1 evenConst.SIGSLEEP).2 2 evenConst.SIGSLEEP).2 1 evenConst.SIGSLEEP).2.Prev
      (Ptr.tcb 0) = Ptr.tcb 2 := by
  refine ⟨by decide, by decide, by decide, by decide, by decide, by decide, by decide,
    by decide, by decide⟩

/-- C14, the failing input: after scenario 1 thread 2 is `OCCUPY|READY` (`SLEEP` is not set)
and its node is the first of the ready ring 2, 1, 0; `Sys_Send_Signal(2, SIGWAKE)` returns 0
and links the node after the ready list head once more: `Next` of node 2 becomes node 2
itself, the ring is no longer well-formed, and the threads then visited by
`Sys_Switch_Now` are 0, 2, 2, 2, ... -/
theorem wake_relinks_ready_thread :
    demoState.Status 2 &&& refConst.SLEEP = 0 ∧ demoState.Next (Ptr.tcb 2) = Ptr.tcb 1 ∧
    (Sys_Send_Signal refConst demoState 2 refConst.SIGWAKE).1 = 0 ∧
    (Sys_Send_Signal refConst demoState 2 refConst.SIGWAKE).2.Next (Ptr.tcb 2) = Ptr.tcb 2 ∧
    ¬ IsRing (Sys_Send_Signal refConst demoState 2 refConst.SIGWAKE).2 Ptr.readyHead
      [2, 1, 0] ∧
    visits refConst 6 (Sys_Send_Signal refConst demoState 2 refConst.SIGWAKE).2 =
      some [0, 2, 2, 2, 2, 2] := by
  refine ⟨by decide, by decide, by decide, by decide, by decide, by decide⟩

/-- The signals `SIGSLEEP` and `SIGWAKE` in a row, evaluated at a choice of the status flags
in which `OCCUPY` is bit 0: with the constants `OCCUPY=1, READY=2, SLEEP=4`, after scenario
1 (ready ring 2, 1, 0) `Sys_Send_Signal(2, SIGSLEEP)` changes nothing and the
`Sys_Send_Signal(2, SIGWAKE)` that follows links node 2, which is still on the ring, after
the head again: the status is `OCCUPY|READY`, but `Next` of node 2 is node 2, the ring is
not well-formed, and the visit sequence is 0, 2, 2, 2, ..., not 0, 2, 1, 0, 2, 1. -/
theorem sleep_then_wake_breaks_ring :
    (Sys_Send_Signal refConst (Sys_Send_Signal refConst demoState 2 refConst.SIGSLEEP).2 2
      refConst.SIGWAKE).2.Status 2 = refConst.OCCUPY ||| refConst.READY ∧
    (Sys_Send_Signal refConst (Sys_Send_Signal refConst demoState 2 refConst.SIGSLEEP).2 2
      refConst.SIGWAKE).2.Next (Ptr.tcb 2) = Ptr.tcb 2 ∧
    ¬ IsRing (Sys_Send_Signal refConst (Sys_Send_Signal refConst demoState 2
      refConst.SIGSLEEP).2 2 refConst.SIGWAKE).2 Ptr.readyHead [2, 1, 0] ∧
    visits refConst 6 (Sys_Send_Signal refConst (Sys_Send_Signal refConst demoState 2
      refConst.SIGSLEEP).2 2 refConst.SIGWAKE).2 = some [0, 2, 2, 2, 2, 2] := by
  refine ⟨by decide, by decide, by decide, by decide⟩

/-- C18, the failing input: after boot slot 2 is free (status word 0);
`Sys_Reg_Signal_Handler(2, SIGUSR1, 77)` returns 0 and stores 77 in handler slot 0 of the
free slot. -/
theorem reg_handler_accepts_free_slot :
    demoBoot.Status 2 = 0 ∧ demoBoot.Signal_Handler 2 0 = 0 ∧
    (Sys_Reg_Signal_Handler refConst demoBoot 2 refConst.SIGUSR1 77).1 = 0 ∧
    (Sys_Reg_Signal_Handler refConst demoBoot 2 refConst.SIGUSR1 77).2.Signal_Handler 2 0 =
      77 := by
  refine ⟨by decide, by decide, by decide, by decide⟩

/-- C16: with `NOSIG = 0` (the value the specification gives), `_Sys_Signal_Handler(tid)`
calls exactly the handlers of the user signals whose bit is set in `TCB[tid].Signal` on
entry and whose handler slot is not null, in the order `SIGUSR1`, `SIGUSR2`, `SIGUSR3`,
`SIGUSR4`, each once (the calls are appended to the trace `called`); on return
`TCB[tid].Signal = NOSIG`, the pending masks of the other threads and all handler tables are
as before, and no link, status or tid has changed. -/
theorem deferred_dispatch_calls_pending_handlers (k : KConst) (hN : k.NOSIG = 0) (s : Kernel)
    (TID : Nat) :
    (_Sys_Signal_Handler k s TID).called = s.called ++ pendingHandlers k s TID ∧
    (pendingHandlers k s TID).length ≤ 4 ∧
    (_Sys_Signal_Handler k s TID).Signal TID = k.NOSIG ∧
    (∀ i, i ≠ TID → (_Sys_Signal_Handler k s TID).Signal i = s.Signal i) ∧
    (_Sys_Signal_Handler k s TID).Signal_Handler = s.Signal_Handler ∧
    SameSched s (_Sys_Signal_Handler k s TID) := by
  obtain ⟨h1, h2, h3⟩ := Sys_Signal_Handler_spec k s TID
  refine ⟨h1, ?_, ?_, h3, Sys_Signal_Handler_Signal_Handler k s TID, ?_⟩
  · simp only [pendingHandlers, pendingOne, List.length_append]
    split_ifs <;> simp
  · rw [h2, hN]; simp
  · exact ⟨Sys_Signal_Handler_Next k s TID, Sys_Signal_Handler_Prev k s TID,
      Sys_Signal_Handler_Status k s TID, Sys_Signal_Handler_TID k s TID⟩

/-- Witness for C16: thread 1 has `SIGUSR1|SIGUSR2|SIGUSR4` pending and handlers 501 and 504
in the slots 0 and 3; the dispatch calls 501 and then 504, and clears the mask. -/
theorem deferred_dispatch_calls_pending_handlers_witness :
    refConst.NOSIG = 0 ∧ demoSignals.called = [] ∧
    pendingHandlers refConst demoSignals 1 = [501, 504] ∧
    (_Sys_Signal_Handler refConst demoSignals 1).called =
      demoSignals.called ++ pendingHandlers refConst demoSignals 1 ∧
    (_Sys_Signal_Handler refConst demoSignals 1).Signal 1 = refConst.NOSIG :=
  ⟨by decide, by decide, by decide,
    (deferred_dispatch_calls_pending_handlers refConst (by decide) demoSignals 1).1,
    (deferred_dispatch_calls_pending_handlers refConst (by decide) demoSignals 1).2.2.1⟩

/-- C17: with distinct signal numbers, for an occupied thread `tid` in `(0, MAX_THREADS)` and
a user signal `sig` among `SIGUSR1..SIGUSR4`, `Sys_Send_Signal(tid, sig)` returns 0 and the
new state is the old one with `TCB[tid].Signal` replaced by its bitwise OR with `sig`:
nothing else changes; sending the same signal twice gives the same result as sending it
once. -/
theorem user_signal_sets_pending_bit (k : KConst) (hd : signalsDistinct k) (s : Kernel)
    (TID sig : Nat) (h0 : 0 < TID) (hT : TID < MAX_THREADS)
    (hocc : s.Status TID &&& k.OCCUPY ≠ 0)
    (hsig : sig = k.SIGUSR1 ∨ sig = k.SIGUSR2 ∨ sig = k.SIGUSR3 ∨ sig = k.SIGUSR4) :
    Sys_Send_Signal k s TID sig =
      (0, { s with Signal := Function.update s.Signal TID (s.Signal TID ||| sig) }) ∧
    Sys_Send_Signal k (Sys_Send_Signal k s TID sig).2 TID sig = Sys_Send_Signal k s TID sig := by
  have hO := occupy_ne_zero_of_and k _ hocc
  have e1 := Sys_Send_Signal_user k hO hd s TID sig h0 hT hsig
  refine ⟨e1, ?_⟩
  rw [e1, Sys_Send_Signal_user k hO hd _ TID sig h0 hT hsig]
  simp [setSignal, Nat.lor_assoc]

/-- Witness for C17: `SIGUSR2` sent to thread 1 in the state after scenario 1. -/
theorem user_signal_sets_pending_bit_witness :
    signalsDistinct refConst ∧ demoState.Status 1 &&& refConst.OCCUPY ≠ 0 ∧
    Sys_Send_Signal refConst demoState 1 refConst.SIGUSR2 =
      (0, { demoState with
        Signal := Function.update demoState.Signal 1
          (demoState.Signal 1 ||| refConst.SIGUSR2) }) ∧
    Sys_Send_Signal refConst (Sys_Send_Signal refConst demoState 1 refConst.SIGUSR2).2 1
      refConst.SIGUSR2 = Sys_Send_Signal refConst demoState 1 refConst.SIGUSR2 :=
  ⟨by decide, by decide,
    user_signal_sets_pending_bit refConst (by decide) demoState 1 refConst.SIGUSR2 (by decide)
      (by decide) (by decide) (Or.inr (Or.inl rfl))⟩

/-- What `Sys_Start_Thread` itself does, and what runs of `Sys_Switch_Now` alone do after
it: in a state whose ready ring (nodes `l`) is well-formed and whose empty ring is
well-formed with first node `n` (followed by the nodes `e`), `TCB[n]` carrying its own tid,
`Sys_Start_Thread` on an init struct with `TID = AUTO_PID` returns the tid `n`; afterwards
`TCB[n].Status` is exactly `OCCUPY` (so `READY` and `SLEEP` are clear when the flags are
disjoint), name and entrance are stored, `TCB_SP_Now[n]` is `Init_SP + 1`, the empty ring
is well-formed with the nodes `e` (node `n` is removed), the ready ring is as before and
node `n` is not on it. When the ring nodes carry their own tid and the current thread, if
`READY`, is on the ready ring, every later run of one or more calls of `Sys_Switch_Now`
ends with a current thread of the ready ring, which is not `n`. -/
theorem start_thread_takes_first_free_slot (k : KConst) (s : Kernel) (l e : List Nat)
    (n : Nat) (Thread : Thread_Init_Struct) (hl : IsRing s Ptr.readyHead l)
    (he : IsRing s Ptr.emptyHead (n :: e)) (hn : s.TID n = n)
    (hA : Thread.TID = k.AUTO_PID) :
    ∃ s', Sys_Start_Thread k s Thread = some ((n : Int), s') ∧
      s'.Status n = k.OCCUPY ∧ s'.Thread_Name n = Thread.Thread_Name ∧
      s'.Entrance n = Thread.Entrance ∧ s'.TCB_SP_Now n = Thread.Init_SP + 1 ∧
      IsRing s' Ptr.emptyHead e ∧ n ∉ e ∧ IsRing s' Ptr.readyHead l ∧ n ∉ l ∧
      (k.OCCUPY &&& k.READY = 0 → s'.Status n &&& k.READY = 0) ∧
      (k.OCCUPY &&& k.SLEEP = 0 → s'.Status n &&& k.SLEEP = 0) ∧
      (k.OCCUPY &&& k.READY = 0 → (∀ i, i ∈ l → s.TID i = i) →
        (s.Status s.Current_TID &&& k.READY ≠ 0 → s.Current_TID ∈ l) →
        ∀ m u, 1 ≤ m → switchN k m s' = some u → u.Current_TID ∈ l ∧ u.Current_TID ≠ n) := by
  obtain ⟨_, d2⟩ := rings_disjoint s l (n :: e) hl he
  have hnl : n ∉ l := d2 n (by simp)
  have hne : n ∉ e := (List.nodup_cons.1 he.2).1
  obtain ⟨r1, r2⟩ := loadSlot_rings k s n Thread l (n :: e) hl he (by simp)
  rw [List.erase_cons_head] at r1
  have hst : (loadSlot k s n Thread).Status n = k.OCCUPY := by
    simp [loadSlot, fillTCB, _Sys_Thread_Stack_Init, Sys_List_Delete_Node, setNext, setPrev]
  refine ⟨loadSlot k s n Thread, Sys_Start_Thread_ok k s Thread n n hA he.1.1 hn, hst, ?_, ?_,
    ?_, r1, hne, r2, hnl, ?_, ?_, ?_⟩
  · simp [loadSlot, fillTCB, _Sys_Thread_Stack_Init, Sys_List_Delete_Node, setNext, setPrev]
  · simp [loadSlot, fillTCB, _Sys_Thread_Stack_Init, Sys_List_Delete_Node, setNext, setPrev]
  · simp [loadSlot, fillTCB, _Sys_Thread_Stack_Init, Sys_List_Delete_Node, setNext, setPrev]
  · intro h; rw [hst]; exact h
  · intro h; rw [hst]; exact h
  · intro hOR htid hcur m u hm hsw
    have hin : u.Current_TID ∈ l := by
      refine switchN_on_ring k l m (loadSlot k s n Thread) u r2 ?_ ?_ hm hsw
      · intro i hi
        have : (loadSlot k s n Thread).TID = s.TID := rfl
        rw [this]; exact htid i hi
      · have hc : (loadSlot k s n Thread).Current_TID = s.Current_TID := rfl
        rw [hc]
        by_cases hcn : s.Current_TID = n
        · intro hready
          rw [hcn, hst, hOR] at hready
          exact absurd rfl hready
        · have hs : (loadSlot k s n Thread).Status s.Current_TID = s.Status s.Current_TID := by
            simp [loadSlot, fillTCB, _Sys_Thread_Stack_Init, Sys_List_Delete_Node, setNext,
              setPrev, Function.update_apply, hcn]
          rw [hs]; exact hcur
    exact ⟨hin, fun hc => hnl (hc ▸ hin)⟩

/-- An instance of `start_thread_takes_first_free_slot`: the first `Sys_Start_Thread` after
boot (ready ring: node 0, empty ring: nodes 1 and 2) takes slot 1. -/
theorem start_thread_takes_first_free_slot_witness :
    IsRing demoBoot Ptr.readyHead [0] ∧ IsRing demoBoot Ptr.emptyHead [1, 2] ∧
    ∃ s', Sys_Start_Thread refConst demoBoot demoA = some (((1 : Nat) : Int), s') ∧
      s'.Status 1 = refConst.OCCUPY ∧ s'.Thread_Name 1 = demoA.Thread_Name ∧
      s'.Entrance 1 = demoA.Entrance ∧ s'.TCB_SP_Now 1 = demoA.Init_SP + 1 ∧
      IsRing s' Ptr.emptyHead [2] ∧ 1 ∉ [2] ∧ IsRing s' Ptr.readyHead [0] ∧ 1 ∉ [0] ∧
      (refConst.OCCUPY &&& refConst.READY = 0 → s'.Status 1 &&& refConst.READY = 0) ∧
      (refConst.OCCUPY &&& refConst.SLEEP = 0 → s'.Status 1 &&& refConst.SLEEP = 0) ∧
      (refConst.OCCUPY &&& refConst.READY = 0 → (∀ i, i ∈ [0] → demoBoot.TID i = i) →
        (demoBoot.Status demoBoot.Current_TID &&& refConst.READY ≠ 0 →
          demoBoot.Current_TID ∈ [0]) →
        ∀ m u, 1 ≤ m → switchN refConst m s' = some u →
          u.Current_TID ∈ [0] ∧ u.Current_TID ≠ 1) :=
  ⟨by decide, by decide,
    start_thread_takes_first_free_slot refConst demoBoot [0] [2] 1 demoA (by decide)
      (by decide) (by decide) (by decide)⟩

/-- C20: `Sys_Start_Thread` returns -1 and leaves the whole kernel state (every TCB, both
rings) as it is when the `TID` member of the init struct is not `AUTO_PID`, and when the
empty ring has no node (`Next` of its head is the head); and once scenario 1 has been run
after boot (the three slots of `MAX_THREADS = 3` are taken), every further
`Sys_Start_Thread` returns -1. -/
theorem start_thread_rejects (k : KConst) :
    (∀ (s : Kernel) (Thread : Thread_Init_Struct),
      Thread.TID ≠ k.AUTO_PID ∨ s.Next Ptr.emptyHead = Ptr.emptyHead →
      Sys_Start_Thread k s Thread = some (-1, s)) ∧
    (flagsDisjoint k → ∀ (raw : Kernel) (Name Kernel_Stack Entrance : Nat)
      (A B : Thread_Init_Struct), A.TID = k.AUTO_PID → B.TID = k.AUTO_PID →
      ∃ s0, carouselSetup k (bootState k raw Name Kernel_Stack Entrance) A B =
          some (1, 2, s0) ∧
        ∀ C : Thread_Init_Struct, Sys_Start_Thread k s0 C = some (-1, s0)) := by
  refine ⟨Sys_Start_Thread_reject k, ?_⟩
  intro hk raw Name Kernel_Stack Entrance A B hA hB
  obtain ⟨s0, h1, h2⟩ := carouselSetup_empty_ring k hk _
    (bootState_view k hk raw Name Kernel_Stack Entrance) A B hA hB
  exact ⟨s0, h1, fun C => Sys_Start_Thread_reject k s0 C (Or.inr h2.1.1)⟩

/-- Witness for C20: after boot an init struct with `TID = 1` is rejected, and after
scenario 1 a third thread is rejected. -/
theorem start_thread_rejects_witness :
    Sys_Start_Thread refConst demoBoot ⟨1, 11, 100, 4660⟩ = some (-1, demoBoot) ∧
    flagsDisjoint refConst ∧
    ∃ s0, carouselSetup refConst (bootState refConst rawState 1 50 0) demoA demoB =
        some (1, 2, s0) ∧
      ∀ C : Thread_Init_Struct, Sys_Start_Thread refConst s0 C = some (-1, s0) :=
  ⟨(start_thread_rejects refConst).1 demoBoot ⟨1, 11, 100, 4660⟩ (Or.inl (by decide)),
    by decide,
    (start_thread_rejects refConst).2 (by decide) rawState 1 50 0 demoA demoB rfl rfl⟩

/-! ## Further claims on the paged heap -/

/-- C21: for every page table of `DMEM_PAGES` entries, every tid and every size,
`__Sys_Malloc(tid, size)` returns the null pointer if and only if `size = 0`, or
`tid >= MAX_THREADS`, or the table has no run of `ceil(size / PAGE_SIZE)` contiguous zero
entries; the table has no such run when `size > DMEM_PAGES * PAGE_SIZE`; and whenever the
null pointer is returned the page table is unchanged. -/
theorem malloc_null_iff (PAGE_SIZE : Nat) (hP : 0 < PAGE_SIZE) (Mem_CB : List Nat)
    (hlen : Mem_CB.length = DMEM_PAGES) (TID Size : Nat) :
    ((__Sys_Malloc PAGE_SIZE TID Size Mem_CB).1 = none ↔
      Size = 0 ∨ TID ≥ MAX_THREADS ∨ ¬ ∃ s, zeroRun Mem_CB s (ceilPages PAGE_SIZE Size)) ∧
    (DMEM_PAGES * PAGE_SIZE < Size → ¬ ∃ s, zeroRun Mem_CB s (ceilPages PAGE_SIZE Size)) ∧
    ((__Sys_Malloc PAGE_SIZE TID Size Mem_CB).1 = none →
      (__Sys_Malloc PAGE_SIZE TID Size Mem_CB).2 = Mem_CB) := by
  obtain ⟨h1, h2⟩ := Sys_Malloc_null PAGE_SIZE TID Size Mem_CB
  refine ⟨?_, ?_, h2⟩
  · rw [h1]
    by_cases hS : Size = 0
    · simp [hS]
    · rw [Total_Pages_eq_ceil PAGE_SIZE Size hP,
        mallocScan_none_iff Mem_CB _
          (by rw [← Total_Pages_eq_ceil PAGE_SIZE Size hP]
              exact Total_Pages_pos PAGE_SIZE Size hP (by omega)) hlen]
  · intro hbig
    rintro ⟨s, hs, _⟩
    have := ceilPages_gt PAGE_SIZE Size hP hbig
    omega

/-- Witness for C21: with pages of 20 bytes a request of 801 bytes on the empty table (41
pages) returns the null pointer and leaves the table empty, and a request of 800 bytes
returns `&heap[0]`. -/
theorem malloc_null_iff_witness :
    __Sys_Malloc 20 1 801 emptyTable = (none, emptyTable) ∧
    (__Sys_Malloc 20 1 800 emptyTable).1 = some 0 ∧
    (((__Sys_Malloc 20 1 801 emptyTable).1 = none ↔
      801 = 0 ∨ 1 ≥ MAX_THREADS ∨ ¬ ∃ s, zeroRun emptyTable s (ceilPages 20 801)) ∧
    (DMEM_PAGES * 20 < 801 → ¬ ∃ s, zeroRun emptyTable s (ceilPages 20 801)) ∧
    ((__Sys_Malloc 20 1 801 emptyTable).1 = none →
      (__Sys_Malloc 20 1 801 emptyTable).2 = emptyTable)) :=
  ⟨by decide, by decide, malloc_null_iff 20 (by decide) emptyTable (by decide) 1 801⟩

/-- C22: for every page table of `DMEM_PAGES` entries and every tid, `__Sys_Mfree(tid, ptr)`
returns with the page table unchanged when `ptr` is null, when the offset of `ptr` in the
heap is not a multiple of `PAGE_SIZE`, when `tid >= MAX_THREADS`, and, for a pointer to the
start of a page `p` of the heap, when `Mem_CB[p] != tid` or when `p > 0` and
`Mem_CB[p-1] != 0`; and for a tid that is not 0, when `__Sys_Mfree(tid, ptr)` has returned,
the same call made again returns with the table unchanged. -/
theorem mfree_rejects_keep_table (PAGE_SIZE : Nat) (hP : 0 < PAGE_SIZE) (Mem_CB : List Nat)
    (hlen : Mem_CB.length = DMEM_PAGES) (TID : Nat) :
    __Sys_Mfree PAGE_SIZE TID none Mem_CB = some Mem_CB ∧
    (∀ off, off % PAGE_SIZE ≠ 0 → __Sys_Mfree PAGE_SIZE TID (some off) Mem_CB = some Mem_CB) ∧
    (∀ ptr, TID ≥ MAX_THREADS → __Sys_Mfree PAGE_SIZE TID ptr Mem_CB = some Mem_CB) ∧
    (∀ p, p < DMEM_PAGES → Mem_CB.getD p 0 ≠ TID →
      __Sys_Mfree PAGE_SIZE TID (some (p * PAGE_SIZE)) Mem_CB = some Mem_CB) ∧
    (∀ p, p < DMEM_PAGES → 0 < p → Mem_CB.getD (p - 1) 0 ≠ 0 →
      __Sys_Mfree PAGE_SIZE TID (some (p * PAGE_SIZE)) Mem_CB = some Mem_CB) ∧
    (∀ ptr m, 1 ≤ TID → __Sys_Mfree PAGE_SIZE TID ptr Mem_CB = some m →
      __Sys_Mfree PAGE_SIZE TID ptr m = some m) := by
  refine ⟨rfl, ?_, ?_, ?_, ?_, ?_⟩
  · intro off h
    simp only [__Sys_Mfree]
    rw [if_pos h]
  · intro ptr h
    cases ptr with
    | none => rfl
    | some off =>
      simp only [__Sys_Mfree]
      by_cases h1 : off % PAGE_SIZE ≠ 0
      · rw [if_pos h1]
      · rw [if_neg h1, if_pos h]
  · intro p hp h
    have h1 : ¬ (p * PAGE_SIZE % PAGE_SIZE ≠ 0) := by simp
    have h3 : p * PAGE_SIZE / PAGE_SIZE = p := Nat.mul_div_cancel p hP
    simp only [__Sys_Mfree]
    rw [if_neg h1, h3]
    by_cases h2 : TID ≥ MAX_THREADS
    · rw [if_pos h2]
    · rw [if_neg h2, if_neg (by omega), if_pos h]
  · intro p hp h0 h
    have h1 : ¬ (p * PAGE_SIZE % PAGE_SIZE ≠ 0) := by simp
    have h3 : p * PAGE_SIZE / PAGE_SIZE = p := Nat.mul_div_cancel p hP
    simp only [__Sys_Mfree]
    rw [if_neg h1, h3]
    by_cases h2 : TID ≥ MAX_THREADS
    · rw [if_pos h2]
    · rw [if_neg h2, if_neg (by omega)]
      by_cases h5 : Mem_CB.getD p 0 ≠ TID
      · rw [if_pos h5]
      · rw [if_neg h5, if_pos ⟨h0, h⟩]
  · intro ptr m hT h
    exact Sys_Mfree_twice PAGE_SIZE Mem_CB m hlen TID hT ptr h

/-- Witness for C22: with pages of 20 bytes and the table `[1,1,0,2,0,...]`, thread 1 frees
`&heap[0]`: the first call zeroes the pages 0 and 1, the second call changes nothing; the
pointer `&heap[60]` (page 3, owned by thread 2) and the pointer `&heap[20]` (page 1, after
the nonzero page 0) are rejected. -/
theorem mfree_rejects_keep_table_witness :
    __Sys_Mfree 20 1 (some 0) (1 :: 1 :: 0 :: 2 :: List.replicate 36 0) =
      some (0 :: 0 :: 0 :: 2 :: List.replicate 36 0) ∧
    __Sys_Mfree 20 1 (some 0) (0 :: 0 :: 0 :: 2 :: List.replicate 36 0) =
      some (0 :: 0 :: 0 :: 2 :: List.replicate 36 0) ∧
    __Sys_Mfree 20 1 (some (3 * 20)) (1 :: 1 :: 0 :: 2 :: List.replicate 36 0) =
      some (1 :: 1 :: 0 :: 2 :: List.replicate 36 0) ∧
    __Sys_Mfree 20 1 (some (1 * 20)) (1 :: 1 :: 0 :: 2 :: List.replicate 36 0) =
      some (1 :: 1 :: 0 :: 2 :: List.replicate 36 0) :=
  ⟨by decide,
    (mfree_rejects_keep_table 20 (by decide) (1 :: 1 :: 0 :: 2 :: List.replicate 36 0)
      (by decide) 1).2.2.2.2.2 (some 0) (0 :: 0 :: 0 :: 2 :: List.replicate 36 0)
      (by decide) (by decide),
    (mfree_rejects_keep_table 20 (by decide) (1 :: 1 :: 0 :: 2 :: List.replicate 36 0)
      (by decide) 1).2.2.2.1 3 (by decide) (by decide),
    (mfree_rejects_keep_table 20 (by decide) (1 :: 1 :: 0 :: 2 :: List.replicate 36 0)
      (by decide) 1).2.2.2.2.1 1 (by decide) (by decide) (by decide)⟩

/-- C23: for every page table of `DMEM_PAGES` entries, `__Sys_Mfree_All(tid)` with
`tid < MAX_THREADS` gives the table in which every entry equal to `tid` is 0 and every other
entry is unchanged; for every tid a second call gives the same table as the first; and for
`tid >= MAX_THREADS` the table is unchanged. -/
theorem mfree_all_sweeps (Mem_CB : List Nat) (hlen : Mem_CB.length = DMEM_PAGES) (TID : Nat) :
    (TID < MAX_THREADS →
      __Sys_Mfree_All TID Mem_CB = Mem_CB.map (fun x => if x = TID then 0 else x)) ∧
    __Sys_Mfree_All TID (__Sys_Mfree_All TID Mem_CB) = __Sys_Mfree_All TID Mem_CB ∧
    (TID ≥ MAX_THREADS → __Sys_Mfree_All TID Mem_CB = Mem_CB) := by
  have hmap : TID < MAX_THREADS →
      __Sys_Mfree_All TID Mem_CB = Mem_CB.map (fun x => if x = TID then 0 else x) := by
    intro hT
    obtain ⟨a, b⟩ := Sys_Mfree_All_spec Mem_CB hlen TID hT
    apply List.ext_getElem (by rw [a, List.length_map, hlen])
    intro n h1 h2
    have e := b n
    rw [List.getD_eq_getElem _ _ h1,
      List.getD_eq_getElem _ _ (by rw [List.length_map] at h2; exact h2)] at e
    rw [e, List.getElem_map]
  refine ⟨hmap, ?_, ?_⟩
  · by_cases hT : TID < MAX_THREADS
    · have hlen2 : (Mem_CB.map (fun x => if x = TID then 0 else x)).length = DMEM_PAGES := by
        rw [List.length_map, hlen]
      obtain ⟨a, b⟩ := Sys_Mfree_All_spec _ hlen2 TID hT
      rw [hmap hT]
      apply list_eq_of_getD _ _ (by rw [a, hlen2])
      intro j
      rw [b j]
      by_cases hc : (Mem_CB.map (fun x => if x = TID then 0 else x)).getD j 0 = TID
      · rw [if_pos hc]
        by_cases hj : j < Mem_CB.length
        · rw [List.getD_eq_getElem _ _ (by rw [List.length_map]; exact hj),
            List.getElem_map] at hc ⊢
          by_cases hx : Mem_CB[j] = TID
          · rw [if_pos hx]
          · rw [if_neg hx] at hc; exact absurd hc hx
        · rw [List.getD_eq_default _ _ (by rw [List.length_map]; omega)]
      · rw [if_neg hc]
    · unfold __Sys_Mfree_All
      rw [if_pos (by omega), if_pos (by omega)]
  · intro hT
    unfold __Sys_Mfree_All
    rw [if_pos hT]

/-- Witness for C23: thread 1 owns the pages 0, 1 and 3 and thread 2 owns page 2;
`__Sys_Mfree_All(1)` zeroes the pages 0, 1 and 3 and keeps page 2. -/
theorem mfree_all_sweeps_witness :
    __Sys_Mfree_All 1 (1 :: 1 :: 2 :: 1 :: List.replicate 36 0) =
      0 :: 0 :: 2 :: 0 :: List.replicate 36 0 ∧
    ((1 < MAX_THREADS →
      __Sys_Mfree_All 1 (1 :: 1 :: 2 :: 1 :: List.replicate 36 0) =
        (1 :: 1 :: 2 :: 1 :: List.replicate 36 0).map (fun x => if x = 1 then 0 else x)) ∧
    __Sys_Mfree_All 1 (__Sys_Mfree_All 1 (1 :: 1 :: 2 :: 1 :: List.replicate 36 0)) =
      __Sys_Mfree_All 1 (1 :: 1 :: 2 :: 1 :: List.replicate 36 0) ∧
    (1 ≥ MAX_THREADS →
      __Sys_Mfree_All 1 (1 :: 1 :: 2 :: 1 :: List.replicate 36 0) =
        1 :: 1 :: 2 :: 1 :: List.replicate 36 0)) :=
  ⟨by decide, mfree_all_sweeps (1 :: 1 :: 2 :: 1 :: List.replicate 36 0) (by decide) 1⟩

/-- C28: for every page table of `DMEM_PAGES` entries and every size above 0 for which the
table has a run of `ceil(size / PAGE_SIZE)` zero entries, `__Sys_Malloc(0, size)` returns a
pointer that is not null and leaves the page table as it is; the call `Sys_Malloc(size)`
made while thread 0 is current is this call; and a call made right after it, by any tid
below `MAX_THREADS` and for any size with the same page count, returns the same pointer. -/
theorem malloc_tid0_records_nothing (PAGE_SIZE : Nat) (hP : 0 < PAGE_SIZE) (Mem_CB : List Nat)
    (hlen : Mem_CB.length = DMEM_PAGES) (Size : Nat) (hS : 0 < Size)
    (hrun : ∃ s, zeroRun Mem_CB s (ceilPages PAGE_SIZE Size)) :
    ∃ a, __Sys_Malloc PAGE_SIZE 0 Size Mem_CB = (some a, Mem_CB) ∧
      (∀ (k : KConst) (s : Kernel), k.PAGE_SIZE = PAGE_SIZE → s.Current_TID = 0 →
        s.Mem_CB = Mem_CB → Sys_Malloc k s Size = (some a, s)) ∧
      ∀ TID Size2, TID < MAX_THREADS → 0 < Size2 →
        ceilPages PAGE_SIZE Size2 = ceilPages PAGE_SIZE Size →
        (__Sys_Malloc PAGE_SIZE TID Size2 (__Sys_Malloc PAGE_SIZE 0 Size Mem_CB).2).1 =
          some a := by
  obtain ⟨s, hs⟩ := exists_firstRun Mem_CB _ hrun
  obtain ⟨h1, h2, h3⟩ := Sys_Malloc_core PAGE_SIZE hP Mem_CB hlen 0 (by decide) Size hS s hs
  have htab : (__Sys_Malloc PAGE_SIZE 0 Size Mem_CB).2 = Mem_CB := by
    apply list_eq_of_getD _ _ (by rw [h2, hlen])
    intro j
    rw [h3 j]
    split_ifs with hc
    · rcases hc with ⟨_, hj⟩ | ⟨hj1, hj2⟩
      · exact (hs.1.2 j (by omega) (by omega)).symm
      · exact (hs.1.2 j hj1 (by omega)).symm
    · rfl
  have hpair : __Sys_Malloc PAGE_SIZE 0 Size Mem_CB = (some (s * PAGE_SIZE), Mem_CB) :=
    Prod.ext h1 htab
  refine ⟨s * PAGE_SIZE, hpair, ?_, ?_⟩
  · intro k st hk hc hm
    have e : __Sys_Malloc k.PAGE_SIZE st.Current_TID Size st.Mem_CB =
        (some (s * PAGE_SIZE), st.Mem_CB) := by
      rw [hk, hc, hm, hpair]
    unfold Sys_Malloc
    rw [e]
  · intro TID Size2 hT hS2 hN
    rw [htab]
    exact (Sys_Malloc_core PAGE_SIZE hP Mem_CB hlen TID hT Size2 hS2 s (by rw [hN]; exact hs)).1

/-- Witness for C28: with pages of 20 bytes and the table `[1,0,0,0,...]`, thread 0 asks for
40 bytes: the call returns `&heap[20]` and the table stays `[1,0,0,0,...]`; thread 2 asking
for 30 bytes right after gets `&heap[20]` too. -/
theorem malloc_tid0_records_nothing_witness :
    __Sys_Malloc 20 0 40 (1 :: List.replicate 39 0) = (some 20, 1 :: List.replicate 39 0) ∧
    (__Sys_Malloc 20 2 30 (__Sys_Malloc 20 0 40 (1 :: List.replicate 39 0)).2).1 = some 20 ∧
    ∃ a, __Sys_Malloc 20 0 40 (1 :: List.replicate 39 0) =
        (some a, 1 :: List.replicate 39 0) ∧
      (∀ (k : KConst) (s : Kernel), k.PAGE_SIZE = 20 → s.Current_TID = 0 →
        s.Mem_CB = 1 :: List.replicate 39 0 → Sys_Malloc k s 40 = (some a, s)) ∧
      ∀ TID Size2, TID < MAX_THREADS → 0 < Size2 →
        ceilPages 20 Size2 = ceilPages 20 40 →
        (__Sys_Malloc 20 TID Size2 (__Sys_Malloc 20 0 40 (1 :: List.replicate 39 0)).2).1 =
          some a :=
  ⟨by decide, by decide,
    malloc_tid0_records_nothing 20 (by decide) (1 :: List.replicate 39 0) (by decide) 40
      (by decide) ⟨1, by decide⟩⟩

/-- C29, the failing input: with pages of 20 bytes thread 1 allocates 800 bytes (the pages
0..38 are marked) and then 1 byte (page 39 is marked): every entry of the table is 1, a
table reached from the empty one by two `__Sys_Malloc` calls of thread 1. For the
page-aligned pointer `&heap[0]` the call `__Sys_Mfree(1, &heap[0])` passes the checks, its
loop zeroes the entries 0..39 and evaluates its condition on `Mem_CB[40]`, the index
`DMEM_PAGES`. -/
theorem mfree_walk_reaches_table_end :
    (__Sys_Malloc 20 1 800 emptyTable).2 = List.replicate 39 1 ++ [0] ∧
    (__Sys_Malloc 20 1 1 (List.replicate 39 1 ++ [0])).2 = List.replicate 40 1 ∧
    HeapReach 20 (List.replicate 40 1) ∧
    0 % 20 = 0 ∧ 0 < DMEM_SIZE ∧
    __Sys_Mfree 20 1 (some 0) (List.replicate 40 1) = none := by
  refine ⟨by decide, by decide, ?_, by decide, by decide, by decide⟩
  have h1 : HeapReach 20 (__Sys_Malloc 20 1 800 emptyTable).2 :=
    HeapReach.malloc emptyTable 1 800 HeapReach.init (by decide) (by decide)
  have h2 := HeapReach.malloc _ 1 1 h1 (by decide) (by decide)
  have e : (__Sys_Malloc 20 1 1 (__Sys_Malloc 20 1 800 emptyTable).2).2 =
      List.replicate 40 1 := by decide
  rw [e] at h2
  exact h2

/-! ## Claims on the invariants of the scheduler and on the interrupt lock -/

/-- C24, the failing inputs. After boot slot 1 is free (status word 0); `Sys_Set_Ready(1)`
leaves `TCB[1].Status = READY`: `READY` is set and `OCCUPY` is not. The calls
`Sys_Set_Ready(1)`, `Sys_Send_Signal(1, SIGSLEEP)`, `Sys_Set_Ready(1)` leave
`TCB[1].Status = READY|SLEEP`. With the constants `OCCUPY=2, READY=4, SLEEP=8` the calls
`Sys_Start_Thread`, `Sys_Set_Ready(1)`, `Sys_Send_Signal(1, SIGSLEEP)`, `Sys_Set_Ready(1)`,
each made on the existing thread 1, leave `TCB[1].Status = OCCUPY|READY|SLEEP`. -/
theorem status_invariant_broken :
    demoBoot.Status 1 = 0 ∧
    (runCalls refConst [Call.setReady 1] demoBoot).map (fun s => s.Status 1) =
      some refConst.READY ∧
    refConst.READY &&& refConst.READY ≠ 0 ∧ refConst.READY &&& refConst.OCCUPY = 0 ∧
    (runCalls refConst [Call.setReady 1, Call.send 1 refConst.SIGSLEEP, Call.setReady 1]
      demoBoot).map (fun s => s.Status 1) = some (refConst.READY ||| refConst.SLEEP) ∧
    (runCalls evenConst [Call.start demoA, Call.setReady 1, Call.send 1 evenConst.SIGSLEEP,
      Call.setReady 1] evenBoot).map (fun s => s.Status 1) =
      some (evenConst.OCCUPY ||| evenConst.READY ||| evenConst.SLEEP) := by
  refine ⟨by decide, by decide, by decide, by decide, by decide, by decide⟩

/-- C25, the failing inputs. After boot: two threads are started (tids 1 and 2), thread 2
is set ready, thread 1 (never set ready) is killed, and two threads are started again; the
second of them is given slot 2, whose node is still the first node after the ready list
head, with the status `OCCUPY`. The ready list is not empty, `Sys_Switch_Now` returns, and
the current thread is then 2, whose `READY` bit is clear. The same holds with the constants
`OCCUPY=2, READY=4, SLEEP=8`. A second input: thread 1 is started and set ready, then gets
`SIGWAKE` and `SIGKILL`; `Sys_Switch_Now` then makes the free slot 1 current. -/
theorem switch_selects_thread_without_ready :
    (runCalls refConst (killOffRing refConst ++ [Call.start demoA, Call.start demoB])
      demoBoot).map (fun s => (s.Next Ptr.readyHead, s.Current_TID, s.Status 2)) =
      some (Ptr.tcb 2, 0, refConst.OCCUPY) ∧
    (runCalls refConst
      (killOffRing refConst ++ [Call.start demoA, Call.start demoB, Call.switch])
      demoBoot).map (fun s => (s.Current_TID, s.Status s.Current_TID &&& refConst.READY)) =
      some (2, 0) ∧
    (runCalls evenConst
      (killOffRing evenConst ++ [Call.start demoA, Call.start demoB, Call.switch])
      evenBoot).map (fun s => (s.Current_TID, s.Status s.Current_TID &&& evenConst.READY)) =
      some (2, 0) ∧
    (runCalls refConst [Call.start demoA, Call.setReady 1, Call.send 1 refConst.SIGWAKE,
      Call.send 1 refConst.SIGKILL] demoBoot).map
      (fun s => (s.Next Ptr.readyHead, s.Current_TID, s.Status 1)) =
      some (Ptr.tcb 1, 0, 0) ∧
    (runCalls refConst [Call.start demoA, Call.setReady 1, Call.send 1 refConst.SIGWAKE,
      Call.send 1 refConst.SIGKILL, Call.switch] demoBoot).map
      (fun s => (s.Current_TID, s.Status s.Current_TID &&& refConst.READY)) =
      some (1, 0) := by
  refine ⟨by decide, by decide, by decide, by decide, by decide⟩

/-- C26, the failing inputs. After boot `Sys_Set_Ready(1)` on the free slot 1 links node 1
after the ready list head while the empty list head still points to it: the node is the
first node of both lists, its status is `READY`, and `Prev` of the node after the empty list
head is the ready list head. Without a call on a free slot: two threads are started (tids 1
and 2), thread 2 is set ready, and thread 1 (never set ready) is killed; node 2, with the
status `OCCUPY|READY`, is then reached from the ready list head (first node) and from the
empty list head (second node, after node 1), and `Prev` of the first node after the ready
list head is node 1, not the head. -/
theorem rings_not_partitioned :
    (runCalls refConst [Call.setReady 1] demoBoot).map (fun s =>
      (ringNodes s Ptr.readyHead, s.Next Ptr.emptyHead, s.Prev (s.Next Ptr.emptyHead),
        s.Status 1)) =
      some ([Ptr.tcb 1, Ptr.tcb 0], Ptr.tcb 1, Ptr.readyHead, refConst.READY) ∧
    (runCalls refConst (killOffRing refConst) demoBoot).map (fun s =>
      (ringNodes s Ptr.readyHead, s.Next Ptr.emptyHead, s.Next (s.Next Ptr.emptyHead),
        s.Prev (s.Next Ptr.readyHead), s.Status 2)) =
      some ([Ptr.tcb 2, Ptr.tcb 0], Ptr.tcb 1, Ptr.tcb 2, Ptr.tcb 1,
        refConst.OCCUPY ||| refConst.READY) ∧
    (runCalls evenConst (killOffRing evenConst) evenBoot).map (fun s =>
      (ringNodes s Ptr.readyHead, s.Next Ptr.emptyHead, s.Next (s.Next Ptr.emptyHead),
        s.Prev (s.Next Ptr.readyHead), s.Status 2)) =
      some ([Ptr.tcb 2, Ptr.tcb 0], Ptr.tcb 1, Ptr.tcb 2, Ptr.tcb 1,
        evenConst.OCCUPY ||| evenConst.READY) := by
  refine ⟨by decide, by decide, by decide⟩

/-- C27: `Sys_Lock_Interrupt` at depth 0 disables the interrupts and sets the depth to 1,
at a depth `d > 0` it only sets the depth to `d + 1`; `Sys_Unlock_Interrupt` at depth 1 sets
the depth to 0 and enables the interrupts, at depth 0 it changes nothing, at a depth
`d > 1` it only sets the depth to `d - 1`; a lock followed by an unlock gives the depth
back; and in every state reached from a state of depth 0 by calls of the two functions the
interrupts are disabled when the depth is above 0. -/
theorem interrupt_lock_depth (s : Kernel) :
    (s.Interrupt_Lock_Cnt = 0 →
      Sys_Lock_Interrupt s = { s with interrupts_enabled := false, Interrupt_Lock_Cnt := 1 }) ∧
    (0 < s.Interrupt_Lock_Cnt →
      Sys_Lock_Interrupt s = { s with Interrupt_Lock_Cnt := s.Interrupt_Lock_Cnt + 1 }) ∧
    (s.Interrupt_Lock_Cnt = 1 →
      Sys_Unlock_Interrupt s =
        { s with Interrupt_Lock_Cnt := 0, interrupts_enabled := true }) ∧
    (s.Interrupt_Lock_Cnt = 0 → Sys_Unlock_Interrupt s = s) ∧
    (1 < s.Interrupt_Lock_Cnt →
      Sys_Unlock_Interrupt s = { s with Interrupt_Lock_Cnt := s.Interrupt_Lock_Cnt - 1 }) ∧
    (Sys_Unlock_Interrupt (Sys_Lock_Interrupt s)).Interrupt_Lock_Cnt = s.Interrupt_Lock_Cnt ∧
    (∀ ops, s.Interrupt_Lock_Cnt = 0 → 0 < (lockRun ops s).Interrupt_Lock_Cnt →
      (lockRun ops s).interrupts_enabled = false) := by
  refine ⟨?_, ?_, ?_, ?_, ?_, ?_, ?_⟩
  · intro h
    unfold Sys_Lock_Interrupt DISABLE_ALL_INTS
    rw [if_pos h]
  · intro h
    unfold Sys_Lock_Interrupt
    rw [if_neg (by omega)]
  · intro h
    unfold Sys_Unlock_Interrupt ENABLE_ALL_INTS
    rw [if_pos h]
  · intro h
    unfold Sys_Unlock_Interrupt
    rw [if_neg (by omega), if_neg (by omega)]
  · intro h
    unfold Sys_Unlock_Interrupt
    rw [if_neg (by omega), if_pos (by omega)]
  · unfold Sys_Unlock_Interrupt Sys_Lock_Interrupt ENABLE_ALL_INTS DISABLE_ALL_INTS
    by_cases h0 : s.Interrupt_Lock_Cnt = 0
    · simp [h0]
    · simp [h0]
  · intro ops h0
    exact lockRun_disabled ops s (fun h => by omega)

/-- Witness for C27: from the memory before boot (depth 0, interrupts disabled or not) a
lock gives depth 1, and after lock, lock, unlock the depth is 1 with the interrupts
disabled; after lock, unlock the depth is 0 and the interrupts are enabled. -/
theorem interrupt_lock_depth_witness :
    rawState.Interrupt_Lock_Cnt = 0 ∧
    Sys_Lock_Interrupt rawState =
      { rawState with interrupts_enabled := false, Interrupt_Lock_Cnt := 1 } ∧
    (lockRun [true, true, false] rawState).Interrupt_Lock_Cnt = 1 ∧
    (lockRun [true, true, false] rawState).interrupts_enabled = false ∧
    (lockRun [true, false] rawState).Interrupt_Lock_Cnt = 0 ∧
    (lockRun [true, false] rawState).interrupts_enabled = true :=
  ⟨by decide, (interrupt_lock_depth rawState).1 (by decide), by decide,
    (interrupt_lock_depth rawState).2.2.2.2.2.2 [true, true, false] (by decide) (by decide),
    by decide, by decide⟩

end RMV
